import Mathlib

/-!
# httpxy.c: target extraction, request rewriting and forwarding

A shallow embedding of `src/httpxy.c`, and of the parser, the reader and the rewrite step of
`src/httpproxy.c` and `src/httpproxy-single-250928-for-mipsel4.8.c` (namespaces `Httpproxy` and
`HttpproxySingle`).

Conventions.
* A C string is a `List Char`: the characters that stand before its terminating NUL.
  Raw buffer memory becomes a C string through `cstr`.
* `Option` at the outside of a result is undefined behaviour of the C program: `none` is a write
  past the end of an array, or an integer that `int` cannot hold.
* Logging (`log_message`) changes no state and is left out.
-/

namespace Httpxy

/-! ## C library -/

/-- The NUL character. -/
def NUL : Char := Char.ofNat 0

/-- The two characters CR LF. -/
def CRLF : List Char := [Char.ofNat 13, Char.ofNat 10]

/-- The header terminator CR LF CR LF. -/
def CRLFCRLF : List Char := CRLF ++ CRLF

/-- `INT_MAX` of a 32-bit `int`. -/
def INT_MAX : Int := 2147483647

/-- `INT_MIN` of a 32-bit `int`. -/
def INT_MIN : Int := -2147483648

/-- The C string that starts at the beginning of a piece of memory. -/
def cstr (mem : List Char) : List Char := mem.takeWhile (fun c => c != NUL)

/-- `isspace` in the C locale: space, and the characters 9 to 13. -/
def isspace (c : Char) : Bool := c.toNat == 32 || (9 ≤ c.toNat && c.toNat ≤ 13)

/-- `isdigit`. -/
def isdigit (c : Char) : Bool := 48 ≤ c.toNat && c.toNat ≤ 57

/-- `tolower` in the C locale. -/
def tolower (c : Char) : Char :=
  if 65 ≤ c.toNat && c.toNat ≤ 90 then Char.ofNat (c.toNat + 32) else c

/-- One `%<width>s` conversion of `sscanf`: white space is skipped, then at most `width`
characters that are not white space are taken. The result is the token and the unread input;
an empty token means that the conversion failed (the input had ended). -/
def scan_token (width : Nat) (s : List Char) : List Char × List Char :=
  let s1 := s.dropWhile isspace
  let tok := (s1.takeWhile (fun c => !isspace c)).take width
  (tok, s1.drop tok.length)

/-- `sscanf(request, "%15s %2047s", method, original_url)` on zero-filled buffers: the return
value and the contents of the two buffers afterwards. -/
def sscanf_method_url (request : List Char) : Int × List Char × List Char :=
  let r1 := scan_token 15 request
  if r1.1 = [] then (-1, [], [])
  else
    let r2 := scan_token 2047 r1.2
    if r2.1 = [] then (1, r1.1, []) else (2, r1.1, r2.1)

/-- `strncmp(s, lit, strlen(lit)) == 0`. -/
def starts_with (s lit : List Char) : Bool := lit.isPrefixOf s

/-- `strchr(s, c)`: the part of `s` from the first `c` on, `none` for a NULL result. -/
def strchr (s : List Char) (c : Char) : Option (List Char) :=
  match s.dropWhile (fun x => x != c) with
  | [] => none
  | r => some r

/-- `strstr(hay, needle)`: the offset of the first occurrence, `none` for a NULL result. -/
def strstr : List Char → List Char → Option Nat
  | [], needle => if needle = [] then some 0 else none
  | c :: cs, needle =>
    if needle.isPrefixOf (c :: cs) then some 0 else (strstr cs needle).map (fun k => k + 1)

/-- `strncpy(dest, src, n)` into a zero-filled `dest` of more than `n` bytes: the C string then
held by `dest`. -/
def strncpy (src : List Char) (n : Nat) : List Char := src.take n

/-- The digit loop of `atoi`. -/
def atoi_digits : List Char → Nat → Nat
  | [], acc => acc
  | c :: cs, acc => if isdigit c then atoi_digits cs (acc * 10 + (c.toNat - 48)) else acc

/-- `atoi(s)`: white space, an optional sign, then digits. The behaviour is undefined when the
value does not fit an `int`. -/
def atoi (s : List Char) : Option Int :=
  let s1 := s.dropWhile isspace
  let v : Int :=
    match s1 with
    | [] => 0
    | c :: r =>
      if c = '-' then -((atoi_digits r 0 : Nat) : Int)
      else if c = '+' then ((atoi_digits r 0 : Nat) : Int)
      else ((atoi_digits (c :: r) 0 : Nat) : Int)
  if INT_MIN ≤ v ∧ v ≤ INT_MAX then some v else none

/-- The conversion `%d` of `printf`. -/
def fmt_d (n : Int) : List Char :=
  if n < 0 then '-' :: Nat.toDigits 10 n.natAbs else Nat.toDigits 10 n.natAbs

/-- `snprintf(buf, size, ...)`: the formatted text, cut to `size - 1` characters. -/
def snprintf (size : Nat) (text : List Char) : List Char := text.take (size - 1)

/-- `strcat(dest, src)` for a `dest` array of `cap` bytes: undefined when the result and its
NUL do not fit. -/
def strcat (cap : Nat) (dest src : List Char) : Option (List Char) :=
  if dest.length + src.length < cap then some (dest ++ src) else none

/-! ## parse_http_request -/

/-- `MAX_URL_LEN`. -/
def MAX_URL_LEN : Nat := 2048

/-- `BUFFER_SIZE`. -/
def BUFFER_SIZE : Nat := 8192

/-- The three prefixes that `parse_http_request` accepts on the path token (lines 210-212). -/
def scheme_markers : List (List Char) :=
  ["/http://".toList, "/https://".toList, "/rtsp://".toList]

/-- The four out-parameters of `parse_http_request`. -/
structure Target where
  method : List Char
  url : List Char
  host : List Char
  port : Int
deriving DecidableEq, Repr

/-- The authority part of `parse_http_request` (lines 242-272): `host_port` is split into host
and port. The result is the return value (`-1`, or `0`), with host and port as then stored. -/
def parse_host_port (host_port : List Char) (t : Target) : Option (Int × Target) :=
  if host_port.head? = some '[' then
    match strchr host_port ']' with
    | none => some (-1, t)
    | some bracket_end =>
      let bracket_len : Nat := host_port.length - bracket_end.length - 1
      if bracket_len ≥ 256 then some (-1, t)
      else
        let host := (host_port.drop 1).take bracket_len
        if (bracket_end.drop 1).head? = some ':' then
          match atoi (bracket_end.drop 2) with
          | none => none
          | some p => some (0, { t with host := host, port := if p ≤ 0 ∨ p > 65535 then 80 else p })
        else some (0, { t with host := host, port := 80 })
  else
    match strchr host_port ':' with
    | some colon_pos =>
      let cut := host_port.take (host_port.length - colon_pos.length)
      match atoi (colon_pos.drop 1) with
      | none => none
      | some p => some (0, { t with host := strncpy cut 255, port := if p ≤ 0 then 80 else p })
    | none => some (0, { t with host := strncpy host_port 255, port := 80 })

/-- The pointer `target_url` (lines 214-221): the path token without its scheme marker. -/
def target_url_of (original_url : List Char) : List Char :=
  if starts_with original_url "/https://".toList then original_url.drop 9
  else if starts_with original_url "/rtsp://".toList then original_url.drop 8
  else original_url.drop 8

/-- The copy into `char host_port[512] = {0}` (lines 231-238), `slash_pos` being the result of
`strchr(target_url, '/')`: the C string then held by `host_port`. With `host_len > 0` the copy
writes `host_len` bytes and then `host_port[host_len]`; `none` is the write past the end of
the array, which `host_len >= 512` brings. -/
def copy_host_port (target_url : List Char) (slash_pos : Option (List Char)) :
    Option (List Char) :=
  let host_len : Nat :=
    match slash_pos with
    | none => target_url.length
    | some s => target_url.length - s.length
  if host_len > 0 then
    if host_len ≥ 512 then none
    else some (target_url.take host_len)
  else some (strncpy target_url (512 - 1))

/-- `parse_http_request(request, method, url, host, &port)`, entered as `handle_client` enters
it: `method`, `url` and `host` zero-filled and `port = 80`. The result is the return value and
the out-parameters; `none` is undefined behaviour (`host_port[512]` written past its end, or a
port text that `atoi` cannot represent). -/
def parse_http_request (request : List Char) : Option (Int × Target) :=
  let sc := sscanf_method_url request
  let t1 : Target := { method := sc.2.1, url := [], host := [], port := 80 }
  let original_url := sc.2.2
  if sc.1 ≠ 2 then some (-1, t1)
  else if !starts_with original_url "/http://".toList && !starts_with original_url "/https://".toList
      && !starts_with original_url "/rtsp://".toList then some (-1, t1)
  else
    let target_url := target_url_of original_url
    let slash_pos := strchr target_url '/'
    let url :=
      match slash_pos with
      | none => strncpy "/".toList (MAX_URL_LEN - 1)
      | some s => strncpy s (MAX_URL_LEN - 1)
    let t2 : Target := { t1 with url := url }
    match copy_host_port target_url slash_pos with
    | none => none
    | some host_port => parse_host_port host_port t2

/-- The C string in `host_port` at line 240, for a request on which `parse_http_request` gets
there: the text that lines 242-272 take apart as the authority. -/
def host_port_of (request : List Char) : Option (List Char) :=
  let target_url := target_url_of (sscanf_method_url request).2.2
  copy_host_port target_url (strchr target_url '/')

/-- The authority as the specification speaks of it: the text of the path token between the
scheme marker and the next `/`, or all that follows the marker when there is no `/`. The code
has no variable for it; it works on `host_port`. -/
def authority (request : List Char) : List Char :=
  (target_url_of (sscanf_method_url request).2.2).takeWhile (fun x => x != '/')

/-! ## read_request -/

/-- `recv(sock, buf, len, 0)` on a socket whose pending input is the list of segments `rx`:
the bytes delivered and the input still pending. A segment longer than `len` is delivered in
part and its rest stays pending. No bytes delivered stands for a return value `<= 0`: an empty
segment is a failed or timed-out call, an empty list is a closed connection. -/
def recv (rx : List (List Char)) (len : Nat) : List Char × List (List Char) :=
  match rx with
  | [] => ([], [])
  | seg :: rest =>
    if seg.length ≤ len then (seg, rest) else (seg.take len, seg.drop len :: rest)

/-- What `read_request` hands back: the first `total_read` bytes of its static buffer (the byte
after them is NUL), the flag stored through `is_rtsp`, and the input still pending on the
socket. -/
structure ReadResult where
  buffer : List Char
  is_rtsp : Bool
  rx : List (List Char)
deriving DecidableEq, Repr

/-- The header loop of `read_request` (lines 462-469), `buf` being the bytes read so far. Each
turn receives at most `sizeof(buffer) - total_read - 1` bytes and looks for CR LF CR LF in the
C string of the buffer; when it is there, its first byte is overwritten with NUL and the loop
ends with the buffer, the offset `headers_end` (4 past the overwritten byte) and the pending
input. `none` is the NULL return: a `recv` result `<= 0`, or a full buffer without terminator.
A segment longer than the room left fills the buffer, so the loop test fails right after it. -/
def header_loop : List (List Char) → List Char → Option (List Char × Nat × List (List Char))
  | [], _ => none
  | seg :: rest, buf =>
    if BUFFER_SIZE * 2 - 1 ≤ buf.length then none
    else
      let r := recv (seg :: rest) (BUFFER_SIZE * 2 - buf.length - 1)
      if r.1.length ≤ 0 then none
      else
        let buf1 := buf ++ r.1
        match strstr (cstr buf1) CRLFCRLF with
        | some p => some (buf1.set p NUL, p + 4, r.2)
        | none =>
          if seg.length ≤ BUFFER_SIZE * 2 - buf.length - 1 then header_loop rest buf1 else none

/-- The test on `method` in `read_request` (lines 475-478). -/
def is_rtsp_method (method : List Char) : Bool :=
  method = "DESCRIBE".toList || method = "SETUP".toList ||
  method = "PLAY".toList || method = "PAUSE".toList ||
  method = "TEARDOWN".toList || method = "OPTIONS".toList ||
  method = "GET_PARAMETER".toList || method = "SET_PARAMETER".toList

/-- The eight method names that the test of lines 475-478 compares with. -/
def rtsp_methods : List (List Char) :=
  ["DESCRIBE".toList, "SETUP".toList, "PLAY".toList, "PAUSE".toList, "TEARDOWN".toList,
   "OPTIONS".toList, "GET_PARAMETER".toList, "SET_PARAMETER".toList]

/-- The value of `content_length` in `read_request` (lines 486-487); `none` is an `atoi` whose
value no `int` holds. -/
def content_length (buffer : List Char) : Option Int :=
  match strstr buffer "Content-Length:".toList with
  | some cl => atoi (buffer.drop (cl + 15))
  | none => some 0

/-- The body loop of `read_request` (lines 490-496): the buffer and the pending input when it
ends. A segment longer than the length asked for brings `remaining` to 0 or fills the buffer,
so the loop test fails right after it. -/
def body_loop : List (List Char) → List Char → Int → List Char × List (List Char)
  | [], buf, _ => (buf, [])
  | seg :: rest, buf, remaining =>
    if remaining > 0 ∧ buf.length < BUFFER_SIZE * 2 - 1 then
      let len : Nat := min remaining.toNat (BUFFER_SIZE * 2 - buf.length - 1)
      let r := recv (seg :: rest) len
      if r.1.length ≤ 0 then (buf, r.2)
      else if seg.length ≤ len then body_loop rest (buf ++ r.1) (remaining - r.1.length)
      else (buf ++ r.1, r.2)
    else (buf, seg :: rest)

/-- `read_request(client_sock, &is_rtsp)` on a client whose pending input is `rx`. The inner
`none` is the NULL return; the outer `none` is undefined behaviour (a Content-Length that
`atoi` cannot represent, or `content_length - body_read` below `INT_MIN`). -/
def read_request (rx : List (List Char)) : Option (Option ReadResult) :=
  match header_loop rx [] with
  | none => some none
  | some (buffer, headers_end, rx1) =>
    let method := (scan_token 15 (cstr buffer)).1
    if is_rtsp_method method then some (some ⟨buffer, true, rx1⟩)
    else
      match content_length (cstr buffer) with
      | none => none
      | some cl =>
        let body_read : Int := (buffer.length : Int) - (headers_end : Int)
        let remaining : Int := cl - body_read
        if remaining < INT_MIN then none
        else
          let r := body_loop rx1 buffer remaining
          some (some ⟨r.1, false, r.2⟩)

/-! ## connect_to_target -/

/-- A socket of the process: the client, or the target with its descriptor. -/
inductive Sock where
  | client
  | target (fd : Nat)
deriving DecidableEq, Repr

/-- What the process does to the outside, in order. -/
inductive Event where
  | getaddrinfo (host port_str : List Char)
  | connect (fd : Nat)
  | send (s : Sock) (bytes : List Char)
  | close (s : Sock)
deriving DecidableEq, Repr

/-- One address of the `getaddrinfo` result: what `socket` returns for it (`none` is `-1`) and
whether `connect` succeeds on it. -/
structure Candidate where
  sfd : Option Nat
  connects : Bool
deriving DecidableEq, Repr

/-- The loop over the addresses in `connect_to_target` (lines 301-329): the descriptor returned
(`none` is `-1`) and the events. -/
def try_candidates : List Candidate → Option Nat × List Event
  | [] => (none, [])
  | c :: rest =>
    match c.sfd with
    | none => try_candidates rest
    | some fd =>
      if c.connects then (some fd, [Event.connect fd])
      else
        let r := try_candidates rest
        (r.1, Event.connect fd :: Event.close (Sock.target fd) :: r.2)

/-- `connect_to_target(host, port)`, the resolver being the oracle `resolve` (`none` when
`getaddrinfo` fails). -/
def connect_to_target (resolve : List Char → List Char → Option (List Candidate))
    (host : List Char) (port : Int) : Option Nat × List Event :=
  let port_str := snprintf 16 (fmt_d port)
  match resolve host port_str with
  | none => (none, [Event.getaddrinfo host port_str])
  | some result =>
    let r := try_candidates result
    (r.1, Event.getaddrinfo host port_str :: r.2)

/-! ## handle_client -/

/-- `strncasecmp(line, lit, strlen(lit)) == 0` for a literal `lit` in lower case. -/
def starts_with_nocase (line lit : List Char) : Bool :=
  (line.take lit.length).map tolower = lit

/-- The header `host_hdr` (lines 403-406). -/
def host_header (host : List Char) (port : Int) : List Char :=
  if port = 80 then snprintf 300 ("Host: ".toList ++ host ++ CRLF)
  else if (strchr host ':').isSome then
    snprintf 300 ("Host: [".toList ++ host ++ "]:".toList ++ fmt_d port ++ CRLF)
  else snprintf 300 ("Host: ".toList ++ host ++ ":".toList ++ fmt_d port ++ CRLF)

/-- The loop over the header lines (lines 389-398): `line` is the C string at the pointer
`line`, `modified` the text in `modified_request`. Each turn cuts the line at the next CR LF,
appends it and a CR LF unless it starts with `Host:` or `Proxy-` in any case, and goes on
after the CR LF; it ends at an empty line or a line without CR LF. Every turn but the last
shortens `line`, so `line.length` turns are enough fuel. -/
def copy_headers : Nat → List Char → List Char → Option (List Char)
  | 0, _, modified => some modified
  | fuel + 1, line, modified =>
    if line = [] then some modified
    else
      let line_end := strstr line CRLF
      let this_line :=
        match line_end with
        | some k => line.take k
        | none => line
      let appended :=
        if !starts_with_nocase this_line "host:".toList
            && !starts_with_nocase this_line "proxy-".toList then
          (strcat (BUFFER_SIZE * 2) modified this_line).bind
            (fun m => strcat (BUFFER_SIZE * 2) m CRLF)
        else some modified
      match appended, line_end with
      | none, _ => none
      | some m, none => some m
      | some m, some k => copy_headers fuel (line.drop (k + 2)) m

/-- The rewrite branch of `handle_client` (lines 380-411): the text of `modified_request` that
is sent to the target; `none` when a `strcat` runs past the end of `modified_request`. -/
def rewrite_request (request method url host : List Char) (port : Int) : Option (List Char) :=
  let request_line := snprintf (BUFFER_SIZE * 2) (method ++ " ".toList ++ url ++ " HTTP/1.1\r\n".toList)
  let headers_end := strstr request CRLFCRLF
  let copied : Option (List Char) :=
    match headers_end with
    | some he =>
      let head := request.take he
      match strstr head CRLF with
      | some first_line_end =>
        copy_headers (head.drop (first_line_end + 2)).length (head.drop (first_line_end + 2))
          request_line
      | none => some []
    | none => some request_line
  copied.bind fun m0 =>
  (strcat (BUFFER_SIZE * 2) m0 (host_header host port)).bind fun m1 =>
  (strcat (BUFFER_SIZE * 2) m1 "Connection: close\r\n\r\n".toList).bind fun m2 =>
  match headers_end with
  | some he => strcat (BUFFER_SIZE * 2) m2 (request.drop (he + 4))
  | none => some m2

/-- The bytes of the first `send` to the target (lines 370-416), for the C string `request`,
the flag of `read_request` and the parsed target. -/
def forward_bytes (request : List Char) (is_rtsp : Bool) (t : Target) : Option (List Char) :=
  let sc := sscanf_method_url request
  if sc.1 = 2 then
    if is_rtsp || starts_with sc.2.2 "/rtsp://".toList then some request
    else rewrite_request request sc.2.1 t.url t.host t.port
  else some request

/-- What `select` reports in one turn of the relay loop. -/
inductive SelectResult where
  | eintr
  | error
  | ready (client target : Bool)
deriving DecidableEq, Repr

/-- The oracle of one turn of the relay loop: the result of `select` and the return values of
the two `send` calls, should they be made. -/
structure Tick where
  select : SelectResult
  send_target : Int
  send_client : Int
deriving DecidableEq, Repr

/-- One direction of a relay turn (lines 429-435 and 436-442): the events, the input still
pending on the source, and whether the loop goes on. -/
def relay_dir (ready : Bool) (rx : List (List Char)) (dst : Sock) (send_ret : Int) :
    List Event × List (List Char) × Bool :=
  if !ready then ([], rx, true)
  else
    let r := recv rx BUFFER_SIZE
    if r.1.length ≤ 0 then ([], r.2, false)
    else if send_ret ≤ 0 then ([Event.send dst r.1], r.2, false)
    else ([Event.send dst r.1], r.2, true)

/-- The relay loop (lines 421-443): the events, and whether the loop ended (it does not when
the oracle runs out, `select` then waiting for ever). -/
def relay_loop : List Tick → List (List Char) → List (List Char) → Nat → List Event × Bool
  | [], _, _, _ => ([], false)
  | t :: ts, crx, trx, fd =>
    match t.select with
    | SelectResult.error => ([], true)
    | SelectResult.eintr => relay_loop ts crx trx fd
    | SelectResult.ready c g =>
      let a := relay_dir c crx (Sock.target fd) t.send_target
      if !a.2.2 then (a.1, true)
      else
        let b := relay_dir g trx Sock.client t.send_client
        if !b.2.2 then (a.1 ++ b.1, true)
        else
          let r := relay_loop ts a.2.1 b.2.1 fd
          (a.1 ++ b.1 ++ r.1, r.2)

/-- The bytes that a list of events sends to the target, in order. -/
def sent_to_target : List Event → List Char
  | [] => []
  | Event.send (Sock.target _) bytes :: es => bytes ++ sent_to_target es
  | _ :: es => sent_to_target es

/-- The bytes that a list of events sends to the client, in order. -/
def sent_to_client : List Event → List Char
  | [] => []
  | Event.send Sock.client bytes :: es => bytes ++ sent_to_client es
  | _ :: es => sent_to_client es

/-- The response sent when `parse_http_request` returns `-1` (line 350). -/
def err_bad_url : List Char :=
  ("HTTP/1.1 400 Bad Request\r\nContent-Type: text/plain\r\nConnection: close\r\n\r\n" ++
   "Invalid proxy URL format. Use: /http://[ipv6:address]:port/path, " ++
   "/https://[ipv6:address]:port/path, or /rtsp://[ipv6:address]:port/path").toList

/-- The response sent for an empty host (line 356). -/
def err_bad_host : List Char :=
  "HTTP/1.1 400 Bad Request\r\nContent-Type: text/plain\r\nConnection: close\r\n\r\nInvalid hostname".toList

/-- The response sent when `connect_to_target` returns `-1` (line 364). -/
def err_bad_gateway : List Char :=
  ("HTTP/1.1 502 Bad Gateway\r\nContent-Type: text/plain\r\nConnection: close\r\n\r\n" ++
   "Cannot connect to target server").toList

/-- The outside of one `handle_client` call: the input pending on the client socket, the
resolver, the input the target will deliver, and the oracle of the relay loop. -/
structure Env where
  client_rx : List (List Char)
  resolve : List Char → List Char → Option (List Candidate)
  target_rx : List (List Char)
  ticks : List Tick

/-- A run of `handle_client`: its events, and whether it returned. -/
structure Run where
  events : List Event
  returned : Bool
deriving DecidableEq, Repr

/-- `handle_client(client_sock)`; `none` is undefined behaviour. -/
def handle_client (env : Env) : Option Run :=
  (read_request env.client_rx).bind fun rr =>
  match rr with
  | none => some ⟨[Event.close Sock.client], true⟩
  | some r =>
    let request := cstr r.buffer
    (parse_http_request request).bind fun pr =>
    if pr.1 = -1 then
      some ⟨[Event.send Sock.client err_bad_url, Event.close Sock.client], true⟩
    else if pr.2.host.length = 0 then
      some ⟨[Event.send Sock.client err_bad_host, Event.close Sock.client], true⟩
    else
      let c := connect_to_target env.resolve pr.2.host pr.2.port
      match c.1 with
      | none =>
        some ⟨c.2 ++ [Event.send Sock.client err_bad_gateway, Event.close Sock.client], true⟩
      | some target_sock =>
        (forward_bytes request r.is_rtsp pr.2).bind fun bytes =>
        let rl := relay_loop env.ticks r.rx env.target_rx target_sock
        some ⟨c.2 ++ [Event.send (Sock.target target_sock) bytes] ++ rl.1 ++
            (if rl.2 then [Event.close (Sock.target target_sock), Event.close Sock.client]
             else []),
          rl.2⟩

/-! ## main: the accept loop and the semaphore -/

/-- `MAX_CONCURRENT`. -/
def MAX_CONCURRENT : Nat := 50

/-- What a process of the accept loop does, in order: an event of `handle_client`, or one of
the calls of `main` (lines 176-195). -/
inductive ProcEvent where
  | io (e : Event)
  | close_server
  | sem_wait
  | fork
  | sem_post
  | exit
deriving DecidableEq, Repr

/-- The child process (lines 186-192): it closes the listening socket, runs `handle_client`,
and when that returns closes the client socket once more, posts the semaphore and exits. The
flag tells whether the process got to `exit`. -/
def child_process (env : Env) : Option (List ProcEvent × Bool) :=
  (handle_client env).map fun run =>
    if run.returned then
      (ProcEvent.close_server :: run.events.map ProcEvent.io ++
        [ProcEvent.io (Event.close Sock.client), ProcEvent.sem_post, ProcEvent.exit], true)
    else (ProcEvent.close_server :: run.events.map ProcEvent.io, false)

/-- The parent in one turn of the accept loop, from `sem_wait` on (lines 176-195), for the
return value of `sem_wait` and the `pid` that `fork` returns to the parent. -/
def parent_iteration (sem_wait_ret : Int) (pid : Int) : List ProcEvent :=
  if sem_wait_ret = -1 then [ProcEvent.sem_wait, ProcEvent.io (Event.close Sock.client)]
  else if pid < 0 then
    [ProcEvent.sem_wait, ProcEvent.fork, ProcEvent.sem_post,
     ProcEvent.io (Event.close Sock.client)]
  else [ProcEvent.sem_wait, ProcEvent.fork, ProcEvent.io (Event.close Sock.client)]

/-- The state of the concurrency gate: the value of the semaphore, whether the parent stands
between a `sem_wait` that succeeded and the outcome of `fork`, and the number of children that
were forked and have not ended (the pipelines in flight). -/
structure Gate where
  sem : Nat
  held : Bool
  children : Nat
deriving DecidableEq, Repr

/-- The gate after `init_semaphore` has created the semaphore (line 56). -/
def gate_init : Gate := { sem := MAX_CONCURRENT, held := false, children := 0 }

/-- The steps of the accept loop and of its children that touch the gate. -/
inductive GateAction where
  | sem_wait_ok
  | sem_wait_fail
  | fork_fail
  | fork_child
  | child_exit
  | child_killed
deriving DecidableEq, Repr

/-- The step relation of the gate.
* `sem_wait_ok`: `sem_wait` returns 0 (line 176); it can only when the value is positive,
  otherwise the call blocks.
* `sem_wait_fail`: `sem_wait` returns `-1`; the loop goes on without a permit.
* `fork_fail`: `fork` fails and the parent posts the semaphore (lines 179-180).
* `fork_child`: `fork` succeeds; the permit now belongs to the child.
* `child_exit`: a child comes back from `handle_client` and posts the semaphore (line 190).
* `child_killed`: a child ends without getting to `sem_post` (a signal); nothing is posted. -/
inductive GateStep : Gate → GateAction → Gate → Prop where
  | sem_wait_ok (s : Gate) (hs : 0 < s.sem) (hh : s.held = false) :
      GateStep s GateAction.sem_wait_ok { s with sem := s.sem - 1, held := true }
  | sem_wait_fail (s : Gate) (hh : s.held = false) :
      GateStep s GateAction.sem_wait_fail s
  | fork_fail (s : Gate) (hh : s.held = true) :
      GateStep s GateAction.fork_fail { s with sem := s.sem + 1, held := false }
  | fork_child (s : Gate) (hh : s.held = true) :
      GateStep s GateAction.fork_child { s with held := false, children := s.children + 1 }
  | child_exit (s : Gate) (hc : 0 < s.children) :
      GateStep s GateAction.child_exit { s with sem := s.sem + 1, children := s.children - 1 }
  | child_killed (s : Gate) (hc : 0 < s.children) :
      GateStep s GateAction.child_killed { s with children := s.children - 1 }

/-- The states that the gate can get to from `s0`. -/
inductive GateReach (s0 : Gate) : Gate → Prop where
  | start : GateReach s0 s0
  | step (s s1 : Gate) (a : GateAction) (hr : GateReach s0 s) (hs : GateStep s a s1) :
      GateReach s0 s1

/-! ## src/httpproxy.c

The program `src/httpproxy.c` accepts the marker `/http://` only and rewrites every request.
Its header loop, its Content-Length lookup, its body loop and its loop over the header lines
are the statements of `src/httpxy.c`; `header_loop`, `content_length`, `body_loop` and
`copy_headers` stand for them here too. -/

namespace Httpproxy

/-- The copy into `char host_port[256] = {0}` (lines 175-182), `slash_pos` being the result of
`strchr(target_url, '/')`: the C string then held by `host_port`. With `host_len > 0` the copy
writes `host_len` bytes and then `host_port[host_len]`; `none` is the write past the end of
the array, which `host_len >= 256` brings. -/
def copy_host_port (target_url : List Char) (slash_pos : Option (List Char)) :
    Option (List Char) :=
  let host_len : Nat :=
    match slash_pos with
    | none => target_url.length
    | some s => target_url.length - s.length
  if host_len > 0 then
    if host_len ≥ 256 then none
    else some (target_url.take host_len)
  else some (strncpy target_url (256 - 1))

/-- The authority part of `parse_http_request` (lines 186-195): `host_port` is cut at its first
colon. -/
def parse_host_port (host_port : List Char) (t : Target) : Option (Int × Target) :=
  match strchr host_port ':' with
  | some colon_pos =>
    let cut := host_port.take (host_port.length - colon_pos.length)
    match atoi (colon_pos.drop 1) with
    | none => none
    | some p => some (0, { t with host := strncpy cut 255, port := if p ≤ 0 then 80 else p })
  | none => some (0, { t with host := strncpy host_port 255, port := 80 })

/-- `parse_http_request(request, method, url, host, &port)` of `src/httpproxy.c` (lines
158-199), entered with `method`, `url` and `host` zero-filled and `port = 80`; `none` is
undefined behaviour. -/
def parse_http_request (request : List Char) : Option (Int × Target) :=
  let sc := sscanf_method_url request
  let t1 : Target := { method := sc.2.1, url := [], host := [], port := 80 }
  let original_url := sc.2.2
  if sc.1 ≠ 2 then some (-1, t1)
  else if !starts_with original_url "/http://".toList then some (-1, t1)
  else
    let target_url := original_url.drop 8
    let slash_pos := strchr target_url '/'
    let url :=
      match slash_pos with
      | none => strncpy "/".toList (MAX_URL_LEN - 1)
      | some s => strncpy s (MAX_URL_LEN - 1)
    let t2 : Target := { t1 with url := url }
    match copy_host_port target_url slash_pos with
    | none => none
    | some host_port => parse_host_port host_port t2

/-- `read_http_request(client_sock)` of `src/httpproxy.c` (lines 201-233) on a client whose
pending input is `rx`: the first `total_read` bytes of the static buffer and the input still
pending. The inner `none` is the NULL return, the outer `none` undefined behaviour. -/
def read_http_request (rx : List (List Char)) :
    Option (Option (List Char × List (List Char))) :=
  match header_loop rx [] with
  | none => some none
  | some (buffer, headers_end, rx1) =>
    match content_length (cstr buffer) with
    | none => none
    | some cl =>
      let body_read : Int := (buffer.length : Int) - (headers_end : Int)
      let remaining : Int := cl - body_read
      if remaining < INT_MIN then none
      else some (some (body_loop rx1 buffer remaining))

/-- The header `host_hdr` of `src/httpproxy.c` (lines 316-318). -/
def host_header (host : List Char) (port : Int) : List Char :=
  if port = 80 then snprintf 300 ("Host: ".toList ++ host ++ CRLF)
  else snprintf 300 ("Host: ".toList ++ host ++ ":".toList ++ fmt_d port ++ CRLF)

/-- The text of `modified_request` that `handle_client` of `src/httpproxy.c` sends to the target
(lines 293-321); `none` when a `strcat` runs past the end of `modified_request`. -/
def rewrite_request (request method url host : List Char) (port : Int) : Option (List Char) :=
  let request_line := snprintf (BUFFER_SIZE * 2) (method ++ " ".toList ++ url ++ " HTTP/1.1\r\n".toList)
  let headers_end := strstr request CRLFCRLF
  let copied : Option (List Char) :=
    match headers_end with
    | some he =>
      let head := request.take he
      match strstr head CRLF with
      | some first_line_end =>
        copy_headers (head.drop (first_line_end + 2)).length (head.drop (first_line_end + 2))
          request_line
      | none => some []
    | none => some request_line
  copied.bind fun m0 =>
  (strcat (BUFFER_SIZE * 2) m0 (host_header host port)).bind fun m1 =>
  (strcat (BUFFER_SIZE * 2) m1 "Connection: close\r\n\r\n".toList).bind fun m2 =>
  match headers_end with
  | some he => strcat (BUFFER_SIZE * 2) m2 (request.drop (he + 4))
  | none => some m2

end Httpproxy

/-! ## src/httpproxy-single-250928-for-mipsel4.8.c

The program without `fork`. Its header loop, its copy into `host_port[256]`, its split at the
first colon, its Host header and its loop over the header lines are the statements of
`src/httpproxy.c`. -/

namespace HttpproxySingle

/-- `parse_http_request` of the single-process program (lines 33-90). -/
def parse_http_request (request : List Char) : Option (Int × Target) :=
  let sc := sscanf_method_url request
  let t1 : Target := { method := sc.2.1, url := [], host := [], port := 80 }
  let original_url := sc.2.2
  if sc.1 ≠ 2 then some (-1, t1)
  else if starts_with original_url "/http://".toList then
    let target_url := original_url.drop 8
    let slash_pos := strchr target_url '/'
    let url :=
      match slash_pos with
      | none => strncpy "/".toList (MAX_URL_LEN - 1)
      | some s => strncpy s (MAX_URL_LEN - 1)
    let t2 : Target := { t1 with url := url }
    match Httpproxy.copy_host_port target_url slash_pos with
    | none => none
    | some host_port => Httpproxy.parse_host_port host_port t2
  else some (-1, t1)

/-- `read_http_request(client_sock)` of the single-process program (lines 93-159): the body loop
is entered only when `body_read < content_length`. The inner `none` is the NULL return, the
outer `none` a Content-Length that `atoi` cannot represent. -/
def read_http_request (rx : List (List Char)) :
    Option (Option (List Char × List (List Char))) :=
  match header_loop rx [] with
  | none => some none
  | some (buffer, headers_end, rx1) =>
    match content_length (cstr buffer) with
    | none => none
    | some cl =>
      let body_read : Int := (buffer.length : Int) - (headers_end : Int)
      if body_read < cl then some (some (body_loop rx1 buffer (cl - body_read)))
      else some (some (buffer, rx1))

/-- The text of `modified_request` that `handle_client` of the single-process program sends to
the target (lines 278-335); `none` when a `strcat` runs past the end of `modified_request`. -/
def rewrite_request (request method url host : List Char) (port : Int) : Option (List Char) :=
  let request_line := snprintf (BUFFER_SIZE * 2) (method ++ " ".toList ++ url ++ " HTTP/1.1\r\n".toList)
  let headers_end := strstr request CRLFCRLF
  let copied : Option (List Char) :=
    match headers_end with
    | some he =>
      let head := request.take he
      match strstr head CRLF with
      | some first_line_end =>
        copy_headers (head.drop (first_line_end + 2)).length (head.drop (first_line_end + 2))
          request_line
      | none => some []
    | none => some request_line
  copied.bind fun m0 =>
  (strcat (BUFFER_SIZE * 2) m0 (Httpproxy.host_header host port)).bind fun m1 =>
  (strcat (BUFFER_SIZE * 2) m1 "Connection: close\r\n".toList).bind fun m2 =>
  (strcat (BUFFER_SIZE * 2) m2 "\r\n".toList).bind fun m3 =>
  match headers_end with
  | some he => strcat (BUFFER_SIZE * 2) m3 (request.drop (he + 4))
  | none => some m3

end HttpproxySingle

end Httpxy

namespace Httpxy

/-! ## Lemmas on the C library model -/

theorem isspace_space : isspace ' ' = true := by decide

theorem scan_token_skip (w : Nat) (c : Char) (s : List Char) (h : isspace c = true) :
    scan_token w (c :: s) = scan_token w s := by
  simp [scan_token, List.dropWhile_cons, h]

theorem scan_token_word (w : Nat) (tok rest : List Char) (h1 : tok ≠ []) (h2 : tok.length ≤ w)
    (hws : ∀ c ∈ tok, isspace c = false)
    (hrest : ∀ c, rest.head? = some c → isspace c = true) :
    scan_token w (tok ++ rest) = (tok, rest) := by
  obtain ⟨a, tl, rfl⟩ := List.exists_cons_of_ne_nil h1
  have ha : isspace a = false := hws a (by simp)
  have hd : List.dropWhile isspace (a :: tl ++ rest) = a :: tl ++ rest := by
    simp [List.dropWhile_cons, ha]
  have ht : List.takeWhile (fun c => !isspace c) (a :: tl ++ rest) = a :: tl := by
    rw [List.takeWhile_append_of_pos (fun c hc => by simp [hws c hc])]
    cases rest with
    | nil => simp
    | cons r rs =>
      have := hrest r rfl
      simp [List.takeWhile_cons, this]
  unfold scan_token
  simp only [hd, ht]
  rw [List.take_of_length_le h2]
  simp

theorem sscanf_method_url_two (M U rest : List Char)
    (hM1 : M ≠ []) (hM2 : M.length ≤ 15) (hMws : ∀ c ∈ M, isspace c = false)
    (hU1 : U ≠ []) (hU2 : U.length ≤ 2047) (hUws : ∀ c ∈ U, isspace c = false)
    (hrest : ∀ c, rest.head? = some c → isspace c = true) :
    sscanf_method_url (M ++ ' ' :: (U ++ rest)) = (2, M, U) := by
  have h1 : scan_token 15 (M ++ ' ' :: (U ++ rest)) = (M, ' ' :: (U ++ rest)) :=
    scan_token_word 15 M _ hM1 hM2 hMws (by intro c hc; simp at hc; subst hc; decide)
  have h2 : scan_token 2047 (' ' :: (U ++ rest)) = (U, rest) := by
    rw [scan_token_skip _ _ _ isspace_space]
    exact scan_token_word 2047 U rest hU1 hU2 hUws hrest
  simp [sscanf_method_url, h1, h2, hM1, hU1]

theorem strchr_none (s : List Char) (c : Char) (h : c ∉ s) : strchr s c = none := by
  have : s.dropWhile (fun x => x != c) = [] := by
    rw [List.dropWhile_eq_nil_iff]
    intro x hx
    simp only [bne_iff_ne, ne_eq]
    rintro rfl
    exact h hx
  simp [strchr, this]

theorem strchr_some (a b : List Char) (c : Char) (h : c ∉ a) :
    strchr (a ++ c :: b) c = some (c :: b) := by
  have : (a ++ c :: b).dropWhile (fun x => x != c) = c :: b := by
    rw [List.dropWhile_append_of_pos]
    · simp [List.dropWhile_cons]
    · intro x hx
      simp only [bne_iff_ne, ne_eq]
      rintro rfl
      exact h hx
  simp [strchr, this]

theorem exists_first (s : List Char) (c : Char) (h : c ∈ s) :
    ∃ a b, s = a ++ c :: b ∧ c ∉ a := by
  induction s with
  | nil => simp at h
  | cons x xs ih =>
    by_cases hx : x = c
    · exact ⟨[], xs, by simp [hx], by simp⟩
    · have hc : c ∈ xs := by
        rcases List.mem_cons.mp h with h1 | h1
        · exact absurd h1.symm hx
        · exact h1
      obtain ⟨a, b, hab, ha⟩ := ih hc
      refine ⟨x :: a, b, by simp [hab], ?_⟩
      simp only [List.mem_cons, not_or]
      exact ⟨fun e => hx e.symm, ha⟩

theorem strchr_isSome (s : List Char) (c : Char) : (strchr s c).isSome = true ↔ c ∈ s := by
  constructor
  · intro h
    by_contra hc
    rw [strchr_none s c hc] at h
    simp at h
  · intro h
    obtain ⟨a, b, rfl, ha⟩ := exists_first s c h
    rw [strchr_some a b c ha]
    rfl

theorem digitChar_isdigit (d : Nat) (h : d < 10) :
    isdigit (Nat.digitChar d) = true ∧ (Nat.digitChar d).toNat - 48 = d := by
  interval_cases d <;> decide

theorem toDigitsCore_isdigit (fuel : Nat) : ∀ (n : Nat) (ds : List Char),
    (∀ c ∈ ds, isdigit c = true) → ∀ c ∈ Nat.toDigitsCore 10 fuel n ds, isdigit c = true := by
  induction fuel with
  | zero => intro n ds h; simpa [Nat.toDigitsCore] using h
  | succ f ih =>
    intro n ds h
    have hd := (digitChar_isdigit (n % 10) (Nat.mod_lt _ (by decide))).1
    have h2 : ∀ c ∈ Nat.digitChar (n % 10) :: ds, isdigit c = true := by
      intro c hc
      rcases List.mem_cons.mp hc with rfl | hc
      · exact hd
      · exact h c hc
    simp only [Nat.toDigitsCore]
    split
    · exact h2
    · exact ih _ _ h2

theorem toDigitsCore_ne_nil (fuel n : Nat) (ds : List Char) (h : n < fuel) :
    Nat.toDigitsCore 10 fuel n ds ≠ [] := by
  induction fuel generalizing n ds with
  | zero => omega
  | succ f ih =>
    simp only [Nat.toDigitsCore]
    split
    · simp
    · rename_i hne
      exact ih _ _ (by omega)

theorem atoi_digits_toDigitsCore (fuel : Nat) : ∀ (n : Nat) (ds : List Char), n < fuel →
    atoi_digits (Nat.toDigitsCore 10 fuel n ds) 0 = atoi_digits ds n := by
  induction fuel with
  | zero => intro n ds h; omega
  | succ f ih =>
    intro n ds h
    obtain ⟨hd, hv⟩ := digitChar_isdigit (n % 10) (Nat.mod_lt _ (by decide))
    simp only [Nat.toDigitsCore]
    split
    · rename_i h0
      simp only [atoi_digits, hd, hv, if_true]
      congr 1
      omega
    · rename_i hne
      rw [ih (n / 10) _ (by omega)]
      simp only [atoi_digits, hd, hv, if_true]
      congr 1
      omega

theorem isdigit_not_space (c : Char) (h : isdigit c = true) :
    isspace c = false ∧ c ≠ '-' ∧ c ≠ '+' := by
  simp only [isdigit, Bool.and_eq_true, decide_eq_true_eq] at h
  refine ⟨?_, ?_, ?_⟩
  · simp only [isspace, Bool.or_eq_false_iff, Bool.and_eq_false_iff, beq_eq_false_iff_ne,
      decide_eq_false_iff_not]
    omega
  · rintro rfl
    revert h
    decide
  · rintro rfl
    revert h
    decide

/-- `atoi` reads back the decimal text of a number that fits an `int`. -/
theorem atoi_toDigits (p : Nat) (h : (p : Int) ≤ INT_MAX) :
    atoi (Nat.toDigits 10 p) = some (p : Int) := by
  have hne := toDigitsCore_ne_nil (p + 1) p [] (by omega)
  have hdig := toDigitsCore_isdigit (p + 1) p [] (by simp)
  have hval := atoi_digits_toDigitsCore (p + 1) p [] (by omega)
  unfold Nat.toDigits
  obtain ⟨c, r, hcr⟩ := List.exists_cons_of_ne_nil hne
  rw [hcr] at hdig hval ⊢
  obtain ⟨h1, h2, h3⟩ := isdigit_not_space c (hdig c (by simp))
  have hmin : INT_MIN ≤ (p : Int) := by
    have : (0 : Int) ≤ p := Int.natCast_nonneg p
    simp only [INT_MIN]
    omega
  have hval2 : atoi_digits (c :: r) 0 = p := by rw [hval]; rfl
  simp only [atoi, List.dropWhile_cons, h1, h2, h3, hval2, if_false, Bool.false_eq_true]
  simp [hmin, h]

end Httpxy

namespace Httpxy

theorem marker_http : "/http://".toList = ['/', 'h', 't', 't', 'p', ':', '/', '/'] := rfl
theorem marker_https : "/https://".toList = ['/', 'h', 't', 't', 'p', 's', ':', '/', '/'] := rfl
theorem marker_rtsp : "/rtsp://".toList = ['/', 'r', 't', 's', 'p', ':', '/', '/'] := rfl

/-- The text after the scheme marker, for a path token that starts with one of the three
markers. -/
theorem target_url_of_marker (mk T : List Char) (hmk : mk ∈ scheme_markers) :
    (starts_with (mk ++ T) "/http://".toList = true ∨ starts_with (mk ++ T) "/https://".toList = true
      ∨ starts_with (mk ++ T) "/rtsp://".toList = true) ∧
    target_url_of (mk ++ T) = T := by
  unfold target_url_of
  simp only [scheme_markers, List.mem_cons, List.mem_singleton, List.not_mem_nil, or_false] at hmk
  rcases hmk with rfl | rfl | rfl
  · simp [starts_with, marker_http, marker_https, marker_rtsp, List.isPrefixOf]
  · simp [starts_with, marker_http, marker_https, marker_rtsp, List.isPrefixOf]
  · simp [starts_with, marker_http, marker_https, marker_rtsp, List.isPrefixOf]

theorem marker_length (mk : List Char) (hmk : mk ∈ scheme_markers) : 8 ≤ mk.length ∧ mk ≠ [] ∧
    ∀ c ∈ mk, isspace c = false := by
  simp only [scheme_markers, List.mem_cons, List.mem_singleton, List.not_mem_nil, or_false] at hmk
  rcases hmk with rfl | rfl | rfl <;> decide

/-- How `parse_http_request` splits a request line `M <marker><A><R> ...`: `A`, free of `/`, goes
to `parse_host_port` (or, when empty, the first 511 characters of `R` do), and `R` is the url. -/
theorem parse_split (M mk A R rest : List Char)
    (hM1 : M ≠ []) (hM2 : M.length ≤ 15) (hMws : ∀ c ∈ M, isspace c = false)
    (hmk : mk ∈ scheme_markers)
    (hA : '/' ∉ A) (hAws : ∀ c ∈ A, isspace c = false)
    (hR : ∀ c, R.head? = some c → c = '/') (hRws : ∀ c ∈ R, isspace c = false)
    (hlen : (mk ++ A ++ R).length ≤ 2047)
    (hrest : ∀ c, rest.head? = some c → isspace c = true) :
    parse_http_request (M ++ ' ' :: (mk ++ A ++ R ++ rest)) =
      if 0 < A.length then
        if 512 ≤ A.length then none
        else parse_host_port A ⟨M, if R = [] then ['/'] else R, [], 80⟩
      else parse_host_port (R.take 511) ⟨M, if R = [] then ['/'] else R, [], 80⟩ := by
  obtain ⟨hmk8, hmkne, hmkws⟩ := marker_length mk hmk
  have hU1 : mk ++ A ++ R ≠ [] := by simp [hmkne]
  have hUws : ∀ c ∈ mk ++ A ++ R, isspace c = false := by
    intro c hc
    simp only [List.mem_append] at hc
    rcases hc with (hc | hc) | hc
    · exact hmkws c hc
    · exact hAws c hc
    · exact hRws c hc
  have hsc := sscanf_method_url_two M (mk ++ A ++ R) rest hM1 hM2 hMws hU1 hlen hUws hrest
  obtain ⟨hst, htu⟩ := target_url_of_marker mk (A ++ R) hmk
  rw [← List.append_assoc] at hst htu
  have hstb : (!starts_with (mk ++ A ++ R) "/http://".toList
      && !starts_with (mk ++ A ++ R) "/https://".toList
      && !starts_with (mk ++ A ++ R) "/rtsp://".toList) = false := by
    rcases hst with h | h | h <;>
      simp only [h, Bool.not_true, Bool.and_false, Bool.false_and]
  have hRlen : R.length ≤ MAX_URL_LEN - 1 := by
    simp only [List.length_append, MAX_URL_LEN] at hlen ⊢
    omega
  unfold parse_http_request copy_host_port
  simp only [hsc, hstb, htu, ne_eq, not_true_eq_false, if_false, Bool.false_eq_true]
  have hurl1 : List.take (MAX_URL_LEN - 1) "/".toList = ['/'] := rfl
  cases R with
  | nil =>
    simp only [List.append_nil, strchr_none A '/' hA, List.take_nil, if_true, hurl1]
    by_cases h0 : 0 < A.length
    · by_cases h512 : 512 ≤ A.length
      · simp only [h0, h512, if_true, gt_iff_lt, ge_iff_le, List.take_length, strncpy]
      · simp only [h0, h512, if_true, if_false, gt_iff_lt, ge_iff_le, List.take_length, strncpy]
        rfl
    · have : A = [] := by
        cases A with
        | nil => rfl
        | cons a as => simp at h0
      subst this
      simp [strncpy]
      rfl
  | cons r rs =>
    have hr : r = '/' := hR r rfl
    subst hr
    simp only [strchr_some A rs '/' hA, List.length_append, List.length_cons, reduceCtorEq,
      if_false]
    have hlen2 : A.length + (rs.length + 1) - (rs.length + 1) = A.length := by omega
    simp only [hlen2, strncpy, List.take_of_length_le hRlen, gt_iff_lt, ge_iff_le,
      List.take_left' rfl]
    by_cases h0 : 0 < A.length
    · by_cases h512 : 512 ≤ A.length
      · simp only [h0, h512, if_true]
      · simp only [h0, h512, if_true, if_false]
    · have : A = [] := by
        cases A with
        | nil => rfl
        | cons a as => simp at h0
      subst this
      simp

end Httpxy

namespace Httpxy

/-- An authority `H:T` without bracket: the host is `H` (cut to 255 characters) and the port is
read from `T`, the text after the first colon. -/
theorem parse_host_port_colon (H T : List Char) (t : Target) (hH : ':' ∉ H)
    (hb : H.head? ≠ some '[') :
    parse_host_port (H ++ ':' :: T) t =
      (atoi T).bind fun p =>
        some (0, { t with host := H.take 255, port := if p ≤ 0 then 80 else p }) := by
  have hhead : (H ++ ':' :: T).head? ≠ some '[' := by
    cases H with
    | nil => simp
    | cons a as => simpa using hb
  have hcut : (H ++ ':' :: T).length - (':' :: T).length = H.length := by
    simp only [List.length_append, List.length_cons]
    omega
  unfold parse_host_port
  rw [if_neg hhead]
  simp only [strchr_some H T ':' hH, hcut, List.take_left' rfl, List.drop_succ_cons, List.drop_zero,
    strncpy]
  cases atoi T <;> rfl

/-- An authority without bracket and without colon: the host is the authority (cut to 255
characters) and the port is 80. -/
theorem parse_host_port_plain (H : List Char) (t : Target) (hH : ':' ∉ H)
    (hb : H.head? ≠ some '[') :
    parse_host_port H t = some (0, { t with host := H.take 255, port := 80 }) := by
  unfold parse_host_port
  rw [if_neg hb]
  simp only [strchr_none H ':' hH, strncpy]

/-- A bracketed authority `[V]X`. -/
theorem parse_host_port_bracket (V X : List Char) (t : Target) (hV : ']' ∉ V) :
    parse_host_port ('[' :: (V ++ ']' :: X)) t =
      if 256 ≤ V.length then some (-1, t)
      else if X.head? = some ':' then
        (atoi (X.drop 1)).bind fun p =>
          some (0, { t with host := V, port := if p ≤ 0 ∨ p > 65535 then 80 else p })
      else some (0, { t with host := V, port := 80 }) := by
  have hV2 : ']' ∉ '[' :: V := by
    simp only [List.mem_cons, not_or]
    exact ⟨by decide, hV⟩
  have hs : strchr ('[' :: (V ++ ']' :: X)) ']' = some (']' :: X) := by
    have := strchr_some ('[' :: V) X ']' hV2
    simpa using this
  have hl : ('[' :: (V ++ ']' :: X)).length - (']' :: X).length - 1 = V.length := by
    simp only [List.length_append, List.length_cons]
    omega
  unfold parse_host_port
  simp only [List.head?_cons, if_true, hs, hl, List.drop_succ_cons, List.drop_zero, ge_iff_le,
    List.take_left' rfl]
  by_cases h256 : 256 ≤ V.length
  · simp only [h256, if_true]
  · simp only [h256, if_false]
    by_cases hc : X.head? = some ':'
    · simp only [hc, if_true]
      cases atoi (List.drop 1 X) <;> rfl
    · simp only [hc, if_false]

/-- An authority that opens a bracket and never closes it is refused. -/
theorem parse_host_port_unclosed (V : List Char) (t : Target) (hV : ']' ∉ V) :
    parse_host_port ('[' :: V) t = some (-1, t) := by
  have hV2 : ']' ∉ '[' :: V := by
    simp only [List.mem_cons, not_or]
    exact ⟨by decide, hV⟩
  unfold parse_host_port
  simp only [List.head?_cons, if_true, strchr_none _ ']' hV2]

theorem toDigits_length_le (p : Nat) (h : p ≤ 65535) : (Nat.toDigits 10 p).length ≤ 5 := by
  unfold Nat.toDigits
  exact Nat.toDigitsCore_length 10 (by decide) (p + 1) p 5 (by omega) (by decide)

theorem toDigits_isdigit (p : Nat) : ∀ c ∈ Nat.toDigits 10 p, isdigit c = true :=
  toDigitsCore_isdigit (p + 1) p [] (by simp)

theorem isdigit_not_slash (c : Char) (h : isdigit c = true) : c ≠ '/' := by
  rintro rfl
  revert h
  decide

/-- Claim C1: for a request line `M /http://H:PR ...` with `M` of 1 to 15 non-space characters,
`H` non-empty, at most 255 characters, free of slash, colon and white space and not starting
with a bracket, `P` the decimal text of a number from 1 to 65535, `R` starting with a slash
and free of white space, and a path token of at most 2047 characters, `parse_http_request`
returns 0 with host `H`, port `P` and url `R`. -/
theorem C1_parse_host_port_path (M H R rest : List Char) (p : Nat)
    (hM1 : M ≠ []) (hM2 : M.length ≤ 15) (hMws : ∀ c ∈ M, isspace c = false)
    (hH2 : H.length ≤ 255)
    (hHc : ∀ c ∈ H, c ≠ '/' ∧ c ≠ ':' ∧ isspace c = false) (hHb : H.head? ≠ some '[')
    (hp1 : 1 ≤ p) (hp2 : p ≤ 65535)
    (hR : R.head? = some '/') (hRws : ∀ c ∈ R, isspace c = false)
    (hlen : ("/http://".toList ++ (H ++ ':' :: Nat.toDigits 10 p) ++ R).length ≤ 2047)
    (hrest : ∀ c, rest.head? = some c → isspace c = true) :
    parse_http_request (M ++ ' ' :: ("/http://".toList ++ (H ++ ':' :: Nat.toDigits 10 p) ++ R ++ rest))
      = some (0, { method := M, url := R, host := H, port := (p : Int) }) := by
  have hdig := toDigits_isdigit p
  have hA : '/' ∉ H ++ ':' :: Nat.toDigits 10 p := by
    simp only [List.mem_append, List.mem_cons, not_or]
    refine ⟨fun h => (hHc _ h).1 rfl, by decide, fun h => isdigit_not_slash _ (hdig _ h) rfl⟩
  have hAws : ∀ c ∈ H ++ ':' :: Nat.toDigits 10 p, isspace c = false := by
    intro c hc
    simp only [List.mem_append, List.mem_cons] at hc
    rcases hc with hc | rfl | hc
    · exact (hHc c hc).2.2
    · decide
    · exact (isdigit_not_space c (hdig c hc)).1
  have hAlen : (H ++ ':' :: Nat.toDigits 10 p).length < 512 := by
    have := toDigits_length_le p hp2
    simp only [List.length_append, List.length_cons]
    omega
  have hApos : 0 < (H ++ ':' :: Nat.toDigits 10 p).length := by
    simp only [List.length_append, List.length_cons]
    omega
  have hRne : R ≠ [] := by
    rintro rfl
    simp at hR
  rw [parse_split M "/http://".toList _ R rest hM1 hM2 hMws (by simp [scheme_markers]) hA hAws
    (by intro c hc; rw [hR] at hc; exact (Option.some.inj hc).symm) hRws hlen hrest]
  rw [if_pos hApos, if_neg (by omega), if_neg hRne,
    parse_host_port_colon H _ _ (fun h => (hHc _ h).2.1 rfl) hHb,
    atoi_toDigits p (by simp only [INT_MAX]; omega), List.take_of_length_le hH2]
  have hp0 : ¬ ((p : Int) ≤ 0) := by omega
  simp [hp0]

/-- Witness of C1: the path `/http://example.com:9000/foo/bar`. -/
theorem C1_witness :
    parse_http_request "GET /http://example.com:9000/foo/bar HTTP/1.1".toList
      = some (0, { method := "GET".toList, url := "/foo/bar".toList,
                   host := "example.com".toList, port := 9000 }) :=
  C1_parse_host_port_path "GET".toList "example.com".toList "/foo/bar".toList
    " HTTP/1.1".toList 9000 (by decide) (by decide) (by decide) (by decide)
    (by decide) (by decide) (by decide) (by decide) (by decide) (by decide) (by decide)
    (by decide)

end Httpxy

namespace Httpxy

/-- A bracketed authority `[V]X` of fewer than 512 characters, in a request line
`M <marker>[V]X<R> ...`: the host is `V`; the port is read from the text after `]:` and is 80
when that text is missing or gives a value outside 1..65535. -/
theorem bracket_authority_bounded (M mk V X R rest : List Char)
    (hM1 : M ≠ []) (hM2 : M.length ≤ 15) (hMws : ∀ c ∈ M, isspace c = false)
    (hmk : mk ∈ scheme_markers)
    (hV : ∀ c ∈ V, c ≠ ']' ∧ c ≠ '/' ∧ isspace c = false) (hVlen : V.length < 256)
    (hX : ∀ c ∈ X, c ≠ '/' ∧ isspace c = false) (hAlen : V.length + X.length + 2 < 512)
    (hR : ∀ c, R.head? = some c → c = '/') (hRws : ∀ c ∈ R, isspace c = false)
    (hlen : (mk ++ ('[' :: (V ++ ']' :: X)) ++ R).length ≤ 2047)
    (hrest : ∀ c, rest.head? = some c → isspace c = true) :
    parse_http_request (M ++ ' ' :: (mk ++ ('[' :: (V ++ ']' :: X)) ++ R ++ rest)) =
      if X.head? = some ':' then
        (atoi (X.drop 1)).bind fun p =>
          some (0, { method := M, url := if R = [] then ['/'] else R, host := V,
                     port := if p ≤ 0 ∨ p > 65535 then 80 else p })
      else some (0, { method := M, url := if R = [] then ['/'] else R, host := V, port := 80 }) := by
  have hA : '/' ∉ '[' :: (V ++ ']' :: X) := by
    simp only [List.mem_cons, List.mem_append, not_or]
    exact ⟨by decide, fun h => (hV _ h).2.1 rfl, by decide, fun h => (hX _ h).1 rfl⟩
  have hAws : ∀ c ∈ '[' :: (V ++ ']' :: X), isspace c = false := by
    intro c hc
    simp only [List.mem_cons, List.mem_append] at hc
    rcases hc with rfl | hc | rfl | hc
    · decide
    · exact (hV c hc).2.2
    · decide
    · exact (hX c hc).2
  have hlenA : ('[' :: (V ++ ']' :: X)).length = V.length + X.length + 2 := by
    simp only [List.length_append, List.length_cons]
    omega
  rw [parse_split M mk _ R rest hM1 hM2 hMws hmk hA hAws hR hRws hlen hrest, hlenA,
    if_pos (by omega), if_neg (by omega),
    parse_host_port_bracket V X _ (fun h => (hV _ h).1 rfl), if_neg (by omega)]

/-- An authority of fewer than 512 characters that opens a bracket and never closes it:
`parse_http_request` returns `-1`. -/
theorem bracket_unclosed_bounded (M mk V R rest : List Char)
    (hM1 : M ≠ []) (hM2 : M.length ≤ 15) (hMws : ∀ c ∈ M, isspace c = false)
    (hmk : mk ∈ scheme_markers)
    (hV : ∀ c ∈ V, c ≠ ']' ∧ c ≠ '/' ∧ isspace c = false) (hAlen : V.length + 1 < 512)
    (hR : ∀ c, R.head? = some c → c = '/') (hRws : ∀ c ∈ R, isspace c = false)
    (hlen : (mk ++ ('[' :: V) ++ R).length ≤ 2047)
    (hrest : ∀ c, rest.head? = some c → isspace c = true) :
    parse_http_request (M ++ ' ' :: (mk ++ ('[' :: V) ++ R ++ rest)) =
      some (-1, { method := M, url := if R = [] then ['/'] else R, host := [], port := 80 }) := by
  have hA : '/' ∉ '[' :: V := by
    simp only [List.mem_cons, not_or]
    exact ⟨by decide, fun h => (hV _ h).2.1 rfl⟩
  have hAws : ∀ c ∈ '[' :: V, isspace c = false := by
    intro c hc
    simp only [List.mem_cons] at hc
    rcases hc with rfl | hc
    · decide
    · exact (hV c hc).2.2
  rw [parse_split M mk _ R rest hM1 hM2 hMws hmk hA hAws hR hRws hlen hrest,
    if_pos (by simp), if_neg (by simp only [List.length_cons]; omega),
    parse_host_port_unclosed V _ (fun h => (hV _ h).1 rfl)]

/-- A bracketed authority with a port, in a path token `<marker>[V]:P<R>` with `V` of fewer than
256 characters and `P` the decimal text of a number from 1 to 65535: the result is host `V`,
port `P`, url `R`. -/
theorem bracket_authority_port (M mk V R rest : List Char) (p : Nat)
    (hM1 : M ≠ []) (hM2 : M.length ≤ 15) (hMws : ∀ c ∈ M, isspace c = false)
    (hmk : mk ∈ scheme_markers)
    (hV : ∀ c ∈ V, c ≠ ']' ∧ c ≠ '/' ∧ isspace c = false) (hVlen : V.length < 256)
    (hp1 : 1 ≤ p) (hp2 : p ≤ 65535)
    (hR : R.head? = some '/') (hRws : ∀ c ∈ R, isspace c = false)
    (hlen : (mk ++ ('[' :: (V ++ ']' :: ':' :: Nat.toDigits 10 p)) ++ R).length ≤ 2047)
    (hrest : ∀ c, rest.head? = some c → isspace c = true) :
    parse_http_request (M ++ ' ' :: (mk ++ ('[' :: (V ++ ']' :: ':' :: Nat.toDigits 10 p)) ++ R ++ rest))
      = some (0, { method := M, url := R, host := V, port := (p : Int) }) := by
  have hdig := toDigits_isdigit p
  have hdl := toDigits_length_le p hp2
  have hX : ∀ c ∈ ':' :: Nat.toDigits 10 p, c ≠ '/' ∧ isspace c = false := by
    intro c hc
    rcases List.mem_cons.mp hc with rfl | hc
    · decide
    · exact ⟨isdigit_not_slash c (hdig c hc), (isdigit_not_space c (hdig c hc)).1⟩
  have hRne : R ≠ [] := by
    rintro rfl
    simp at hR
  rw [bracket_authority_bounded M mk V _ R rest hM1 hM2 hMws hmk hV hVlen hX
    (by simp only [List.length_cons]; omega)
    (by intro c hc; rw [hR] at hc; exact (Option.some.inj hc).symm) hRws hlen hrest]
  simp only [List.head?_cons, if_true, List.drop_succ_cons, List.drop_zero,
    atoi_toDigits p (by simp only [INT_MAX]; omega), Option.some_bind, if_neg hRne]
  have h1 : ¬ ((p : Int) ≤ 0 ∨ (p : Int) > 65535) := by omega
  rw [if_neg h1]

/-- Claim C2 at the failing input: an authority of 601 characters that opens a bracket and
never closes it. `parse_http_request` copies 601 bytes into `host_port[512]` before it looks
for the closing bracket: the behaviour is undefined, where the claim has a return of `-1`. -/
theorem C2_unclosed_bracket_overflow :
    parse_http_request ("GET /http://[".toList ++ List.replicate 600 'a') = none := by
  have hshape : "GET /http://[".toList ++ List.replicate 600 'a' =
      "GET".toList ++ ' ' :: ("/http://".toList ++ ('[' :: List.replicate 600 'a') ++ [] ++ []) := by
    simp only [List.append_nil]
    rfl
  rw [hshape]
  have hA : '/' ∉ '[' :: List.replicate 600 'a' := by
    simp only [List.mem_cons, List.mem_replicate, not_or]
    exact ⟨by decide, fun h => absurd h.2 (by decide)⟩
  have hAws : ∀ c ∈ '[' :: List.replicate 600 'a', isspace c = false := by
    intro c hc
    simp only [List.mem_cons, List.mem_replicate] at hc
    rcases hc with rfl | ⟨_, rfl⟩ <;> decide
  rw [parse_split "GET".toList "/http://".toList _ [] [] (by decide) (by decide) (by decide)
    (by simp [scheme_markers]) hA hAws (by simp) (by simp)
    (by simp only [List.length_append, List.length_cons, List.length_replicate, marker_http,
      List.length_nil]; omega) (by simp)]
  rw [if_pos (by simp only [List.length_cons]; omega),
    if_pos (by simp only [List.length_cons, List.length_replicate]; omega)]

end Httpxy

namespace Httpxy

/-- A request whose path token starts with none of the three markers is refused with `-1`,
only `method` having been written. -/
theorem parse_rejects_marker (request : List Char)
    (hu : ∀ mk ∈ scheme_markers, starts_with (sscanf_method_url request).2.2 mk = false) :
    parse_http_request request =
      some (-1, { method := (sscanf_method_url request).2.1, url := [], host := [], port := 80 }) := by
  have h1 := hu "/http://".toList (by simp [scheme_markers])
  have h2 := hu "/https://".toList (by simp [scheme_markers])
  have h3 := hu "/rtsp://".toList (by simp [scheme_markers])
  unfold parse_http_request
  by_cases hn : (sscanf_method_url request).1 ≠ 2
  · rw [if_pos hn]
  · rw [if_neg hn, h1, h2, h3]
    rfl

/-- Claim C3: when the path token of the request that `read_request` returned starts with none
of `/http://`, `/https://`, `/rtsp://`, `parse_http_request` returns `-1`, and `handle_client`
does exactly two things: it sends the client the response `400 Bad Request` with the headers
`Content-Type: text/plain` and `Connection: close`, a blank line and a body that begins
`Invalid proxy URL format. Use: `, and it closes the client socket; nothing is resolved or
connected. -/
theorem C3_bad_scheme_rejected (env : Env) (r : ReadResult)
    (hread : read_request env.client_rx = some (some r))
    (hu : ∀ mk ∈ scheme_markers,
      starts_with (sscanf_method_url (cstr r.buffer)).2.2 mk = false) :
    (∃ t, parse_http_request (cstr r.buffer) = some (-1, t)) ∧
    handle_client env =
      some ⟨[Event.send Sock.client err_bad_url, Event.close Sock.client], true⟩ ∧
    (∃ tail, err_bad_url = "HTTP/1.1 400 Bad Request".toList ++ CRLF ++
      "Content-Type: text/plain".toList ++ CRLF ++ "Connection: close".toList ++ CRLF ++ CRLF ++
      "Invalid proxy URL format. Use: ".toList ++ tail) ∧
    (∀ run, handle_client env = some run →
      ∀ e ∈ run.events, (∀ h p, e ≠ Event.getaddrinfo h p) ∧ (∀ fd, e ≠ Event.connect fd)) := by
  have hp := parse_rejects_marker (cstr r.buffer) hu
  have hrun : handle_client env =
      some ⟨[Event.send Sock.client err_bad_url, Event.close Sock.client], true⟩ := by
    unfold handle_client
    rw [hread]
    simp only [Option.some_bind, hp, if_true]
  refine ⟨⟨_, hp⟩, hrun, ⟨_, by rfl⟩, ?_⟩
  intro run hr e he
  rw [hrun] at hr
  cases hr
  simp only [List.mem_cons, List.mem_singleton, List.not_mem_nil, or_false] at he
  rcases he with rfl | rfl
  · exact ⟨fun h p => by simp, fun fd => by simp⟩
  · exact ⟨fun h p => by simp, fun fd => by simp⟩

/-- Witness of C3: the request `GET /ftp://example.com/ HTTP/1.1`. -/
theorem C3_witness :
    handle_client
      { client_rx := ["GET /ftp://example.com/ HTTP/1.1\r\n\r\n".toList],
        resolve := fun _ _ => some [{ sfd := some 5, connects := true }],
        target_rx := [], ticks := [] } =
      some ⟨[Event.send Sock.client err_bad_url, Event.close Sock.client], true⟩ :=
  (C3_bad_scheme_rejected
    { client_rx := ["GET /ftp://example.com/ HTTP/1.1\r\n\r\n".toList],
      resolve := fun _ _ => some [{ sfd := some 5, connects := true }],
      target_rx := [], ticks := [] }
    { buffer := "GET /ftp://example.com/ HTTP/1.1".toList ++ [NUL, Char.ofNat 10, Char.ofNat 13, Char.ofNat 10],
      is_rtsp := false, rx := [] }
    (by decide) (by decide)).2.1

end Httpxy

namespace Httpxy

/-- A request that `parse_http_request` accepts got to line 240: `host_port` holds a string,
and the result is what `parse_host_port` makes of it. -/
theorem parse_accept_inv (request : List Char) (t : Target)
    (hacc : parse_http_request request = some (0, t)) :
    ∃ hp, host_port_of request = some hp ∧
      parse_host_port hp
        { method := (sscanf_method_url request).2.1,
          url := (match strchr (target_url_of (sscanf_method_url request).2.2) '/' with
                  | none => strncpy "/".toList (MAX_URL_LEN - 1)
                  | some s => strncpy s (MAX_URL_LEN - 1)),
          host := [], port := 80 } = some (0, t) := by
  unfold parse_http_request at hacc
  by_cases hn : (sscanf_method_url request).1 ≠ 2
  · rw [if_pos hn] at hacc
    simp at hacc
  · rw [if_neg hn] at hacc
    split at hacc
    · simp at hacc
    · unfold host_port_of
      cases hc : copy_host_port (target_url_of (sscanf_method_url request).2.2)
          (strchr (target_url_of (sscanf_method_url request).2.2) '/') with
      | none => simp [hc] at hacc
      | some hp =>
        simp only [hc] at hacc
        exact ⟨hp, rfl, hacc⟩

theorem atoi_range (s : List Char) (v : Int) (h : atoi s = some v) :
    INT_MIN ≤ v ∧ v ≤ INT_MAX := by
  unfold atoi at h
  simp only at h
  split at h
  · rename_i hr
    cases h
    exact hr
  · simp at h

/-- What `parse_host_port` leaves alone and what it bounds: `method` and `url` are untouched,
the host keeps within the 255 characters of `host[256]`, the port within `int`. -/
theorem parse_host_port_keeps (hp : List Char) (t0 t : Target) (r : Int)
    (h : parse_host_port hp t0 = some (r, t)) :
    t.method = t0.method ∧ t.url = t0.url ∧
    (t0.host.length ≤ 255 → t.host.length ≤ 255) ∧
    (INT_MIN ≤ t0.port ∧ t0.port ≤ INT_MAX → INT_MIN ≤ t.port ∧ t.port ≤ INT_MAX) := by
  have h80 : INT_MIN ≤ (80 : Int) ∧ (80 : Int) ≤ INT_MAX := by decide
  unfold parse_host_port at h
  by_cases hb : hp.head? = some '['
  · rw [if_pos hb] at h
    cases hs : strchr hp ']' with
    | none =>
      rw [hs] at h
      cases h
      exact ⟨rfl, rfl, id, id⟩
    | some be =>
      rw [hs] at h
      simp only at h
      by_cases h256 : hp.length - be.length - 1 ≥ 256
      · rw [if_pos h256] at h
        cases h
        exact ⟨rfl, rfl, id, id⟩
      · rw [if_neg h256] at h
        have hl : (List.take (hp.length - be.length - 1) (List.drop 1 hp)).length ≤ 255 := by
          rw [List.length_take]
          omega
        by_cases hc : (List.drop 1 be).head? = some ':'
        · rw [if_pos hc] at h
          cases ha : atoi (List.drop 2 be) with
          | none => rw [ha] at h; simp at h
          | some p =>
            rw [ha] at h
            cases h
            refine ⟨rfl, rfl, fun _ => hl, fun _ => ?_⟩
            have := atoi_range _ _ ha
            simp only
            split
            · exact h80
            · exact this
        · rw [if_neg hc] at h
          cases h
          exact ⟨rfl, rfl, fun _ => hl, fun _ => h80⟩
  · rw [if_neg hb] at h
    cases hs : strchr hp ':' with
    | none =>
      rw [hs] at h
      cases h
      refine ⟨rfl, rfl, fun _ => ?_, fun _ => h80⟩
      simp only [strncpy, List.length_take]
      omega
    | some cp =>
      rw [hs] at h
      simp only at h
      cases ha : atoi (List.drop 1 cp) with
      | none => rw [ha] at h; simp at h
      | some p =>
        rw [ha] at h
        cases h
        refine ⟨rfl, rfl, fun _ => ?_, fun _ => ?_⟩
        · simp only [strncpy, List.length_take]
          omega
        · have := atoi_range _ _ ha
          simp only
          split
          · exact h80
          · exact this

/-- On every request that `parse_http_request` accepts, the port is 80 whenever the string in
`host_port` carries no port text (no colon in a plain one, no colon right after the closing
bracket of a bracketed one) or carries a port text on which `atoi` gives a value `<= 0`. -/
theorem default_port_host_port (request : List Char) (t : Target) (hp : List Char)
    (hacc : parse_http_request request = some (0, t))
    (hhp : host_port_of request = some hp)
    (hshape :
      (hp.head? ≠ some '[' ∧ ':' ∉ hp) ∨
      (∃ H T v, hp = H ++ ':' :: T ∧ H.head? ≠ some '[' ∧ ':' ∉ H ∧ atoi T = some v ∧ v ≤ 0) ∨
      (∃ V X, hp = '[' :: (V ++ ']' :: X) ∧ ']' ∉ V ∧ X.head? ≠ some ':') ∨
      (∃ V T v, hp = '[' :: (V ++ ']' :: ':' :: T) ∧ ']' ∉ V ∧ atoi T = some v ∧ v ≤ 0)) :
    t.port = 80 := by
  obtain ⟨hp2, hhp2, hres⟩ := parse_accept_inv request t hacc
  rw [hhp] at hhp2
  cases hhp2
  rcases hshape with ⟨hb, hc⟩ | ⟨H, T, v, rfl, hb, hc, hv, hv0⟩ | ⟨V, X, rfl, hV, hX⟩ |
    ⟨V, T, v, rfl, hV, hv, hv0⟩
  · rw [parse_host_port_plain hp _ hc hb] at hres
    cases hres
    rfl
  · rw [parse_host_port_colon H T _ hc hb, hv] at hres
    simp only [Option.some_bind, hv0, if_true] at hres
    cases hres
    rfl
  · rw [parse_host_port_bracket V X _ hV] at hres
    by_cases h256 : 256 ≤ V.length
    · rw [if_pos h256] at hres
      simp at hres
    · rw [if_neg h256, if_neg hX] at hres
      cases hres
      rfl
  · rw [parse_host_port_bracket V _ _ hV] at hres
    by_cases h256 : 256 ≤ V.length
    · rw [if_pos h256] at hres
      simp at hres
    · rw [if_neg h256] at hres
      simp only [List.head?_cons, if_true, List.drop_succ_cons, List.drop_zero, hv,
        Option.some_bind, hv0, true_or] at hres
      cases hres
      rfl

/-- The path `/http://example.com/` gives port 80 and url `/`. -/
theorem default_port_host_port_example :
    ∃ t, parse_http_request "GET /http://example.com/ HTTP/1.1".toList = some (0, t) ∧
      t.port = 80 ∧ t.url = "/".toList :=
  ⟨{ method := "GET".toList, url := "/".toList, host := "example.com".toList, port := 80 },
   by decide,
   default_port_host_port "GET /http://example.com/ HTTP/1.1".toList
     { method := "GET".toList, url := "/".toList, host := "example.com".toList, port := 80 }
     "example.com".toList (by decide) (by decide) (Or.inl (by decide)),
   rfl⟩

/-- The authorities `host`, `host:`, `host:0`, `host:-5` and `host:abc` all give port 80. -/
theorem default_port_examples :
    (parse_http_request "GET /http://host/x HTTP/1.1".toList).map (fun r => (r.1, r.2.host, r.2.port))
      = some (0, "host".toList, 80) ∧
    (parse_http_request "GET /http://host:/x HTTP/1.1".toList).map (fun r => (r.1, r.2.host, r.2.port))
      = some (0, "host".toList, 80) ∧
    (parse_http_request "GET /http://host:0/x HTTP/1.1".toList).map (fun r => (r.1, r.2.host, r.2.port))
      = some (0, "host".toList, 80) ∧
    (parse_http_request "GET /http://host:-5/x HTTP/1.1".toList).map (fun r => (r.1, r.2.host, r.2.port))
      = some (0, "host".toList, 80) ∧
    (parse_http_request "GET /http://host:abc/x HTTP/1.1".toList).map (fun r => (r.1, r.2.host, r.2.port))
      = some (0, "host".toList, 80) := by
  decide

/-- Claim C5: on every accepted request in which no slash follows the scheme marker, the url is
exactly `/`, and the whole text after the marker is the authority: it is the string in
`host_port`, from which host and port are taken. -/
theorem C5_no_slash_after_marker (request : List Char) (t : Target)
    (hacc : parse_http_request request = some (0, t))
    (hns : '/' ∉ target_url_of (sscanf_method_url request).2.2) :
    t.url = ['/'] ∧
    host_port_of request = some (target_url_of (sscanf_method_url request).2.2) ∧
    parse_host_port (target_url_of (sscanf_method_url request).2.2)
      { method := (sscanf_method_url request).2.1, url := ['/'], host := [], port := 80 }
      = some (0, t) := by
  obtain ⟨hp, hhp, hres⟩ := parse_accept_inv request t hacc
  have hs := strchr_none _ '/' hns
  have hhp0 := hhp
  unfold host_port_of copy_host_port at hhp
  simp only [hs] at hhp hres
  have hurl : strncpy "/".toList (MAX_URL_LEN - 1) = ['/'] := rfl
  rw [hurl] at hres
  have hhp_eq : hp = target_url_of (sscanf_method_url request).2.2 := by
    by_cases h0 : (target_url_of (sscanf_method_url request).2.2).length > 0
    · rw [if_pos h0] at hhp
      by_cases h512 : (target_url_of (sscanf_method_url request).2.2).length ≥ 512
      · rw [if_pos h512] at hhp
        simp at hhp
      · rw [if_neg h512, List.take_length] at hhp
        exact (Option.some.inj hhp).symm
    · rw [if_neg h0] at hhp
      have hnil : target_url_of (sscanf_method_url request).2.2 = [] := by
        cases hh : target_url_of (sscanf_method_url request).2.2 with
        | nil => rfl
        | cons a as => rw [hh] at h0; simp at h0
      rw [hnil] at hhp ⊢
      exact (Option.some.inj hhp).symm
  subst hhp_eq
  have htu : t.url = ['/'] := (parse_host_port_keeps _ _ _ _ hres).2.1
  exact ⟨htu, hhp0, hres⟩

/-- Witness of C5: the path `/http://example.com` gives url `/`, host `example.com`, port 80. -/
theorem C5_witness :
    parse_http_request "GET /http://example.com HTTP/1.1".toList =
        some (0, { method := "GET".toList, url := "/".toList, host := "example.com".toList,
                   port := 80 }) ∧
      host_port_of "GET /http://example.com HTTP/1.1".toList = some "example.com".toList :=
  ⟨by decide,
   (C5_no_slash_after_marker "GET /http://example.com HTTP/1.1".toList
     { method := "GET".toList, url := "/".toList, host := "example.com".toList, port := 80 }
     (by decide) (by decide)).2.1⟩

end Httpxy

namespace Httpxy

/-- Claim C9: for a host that fits `host[256]` and a port that is an `int`, the header that
`handle_client` makes is `Host: <host>` for port 80, `Host: [<host>]:<port>` for another port
and a host with a colon, `Host: <host>:<port>` for another port and a host without colon, each
followed by CR LF, the port in decimal; `snprintf` never cuts it. -/
theorem C9_host_header (host : List Char) (port : Int) (hlen : host.length ≤ 255)
    (hport : INT_MIN ≤ port ∧ port ≤ INT_MAX) :
    host_header host port =
      (if port = 80 then "Host: ".toList ++ host ++ CRLF
       else if ':' ∈ host then "Host: [".toList ++ host ++ "]:".toList ++ fmt_d port ++ CRLF
       else "Host: ".toList ++ host ++ ":".toList ++ fmt_d port ++ CRLF) ∧
    (0 ≤ port → fmt_d port = Nat.toDigits 10 port.toNat ∧ atoi (fmt_d port) = some port) := by
  have hd : (Nat.toDigits 10 port.natAbs).length ≤ 10 := by
    unfold Nat.toDigits
    refine Nat.toDigitsCore_length 10 (by decide) _ _ 10 ?_ (by decide)
    simp only [INT_MIN, INT_MAX] at hport
    omega
  have hf : (fmt_d port).length ≤ 11 := by
    unfold fmt_d
    split
    · simp only [List.length_cons]
      omega
    · omega
  constructor
  · unfold host_header
    by_cases h80 : port = 80
    · rw [if_pos h80, if_pos h80]
      apply List.take_of_length_le
      simp only [List.length_append, CRLF, List.length_cons, List.length_nil]
      have : "Host: ".toList.length = 6 := rfl
      omega
    · rw [if_neg h80, if_neg h80]
      by_cases hc : ':' ∈ host
      · rw [if_pos ((strchr_isSome host ':').mpr hc), if_pos hc]
        apply List.take_of_length_le
        simp only [List.length_append, CRLF, List.length_cons, List.length_nil]
        have : "Host: [".toList.length = 7 := rfl
        have : "]:".toList.length = 2 := rfl
        omega
      · have hs : ¬ ((strchr host ':').isSome = true) := fun h => hc ((strchr_isSome host ':').mp h)
        rw [if_neg hs, if_neg hc]
        apply List.take_of_length_le
        simp only [List.length_append, CRLF, List.length_cons, List.length_nil]
        have : "Host: ".toList.length = 6 := rfl
        have : ":".toList.length = 1 := rfl
        omega
  · intro h0
    have hfd : fmt_d port = Nat.toDigits 10 port.toNat := by
      unfold fmt_d
      rw [if_neg (by omega)]
      congr 1
      omega
    refine ⟨hfd, ?_⟩
    rw [hfd, atoi_toDigits port.toNat (by omega)]
    congr 1
    omega

/-- Witness of C9: host `2001:db8::1` and port 8080. -/
theorem C9_witness :
    host_header "2001:db8::1".toList 8080 = "Host: [2001:db8::1]:8080\r\n".toList :=
  (C9_host_header "2001:db8::1".toList 8080 (by decide) (by decide)).1

/-- The three forms of the header at concrete hosts and ports. -/
theorem host_header_examples :
    host_header "example.com".toList 80 = "Host: example.com\r\n".toList ∧
    host_header "::1".toList 80 = "Host: ::1\r\n".toList ∧
    host_header "example.com".toList 9000 = "Host: example.com:9000\r\n".toList ∧
    host_header "::1".toList 8080 = "Host: [::1]:8080\r\n".toList := by
  decide

/-- Every target that `parse_http_request` hands out has a host of at most 255 characters and
a port that is an `int`, so C9 applies to it. -/
theorem parse_target_bounds (request : List Char) (t : Target)
    (hacc : parse_http_request request = some (0, t)) :
    t.host.length ≤ 255 ∧ INT_MIN ≤ t.port ∧ t.port ≤ INT_MAX := by
  obtain ⟨hp, _, hres⟩ := parse_accept_inv request t hacc
  have := parse_host_port_keeps _ _ _ _ hres
  have h80 : INT_MIN ≤ (80 : Int) ∧ (80 : Int) ≤ INT_MAX := by decide
  exact ⟨this.2.2.1 (by simp), this.2.2.2 h80⟩

/-- Claim C10 as stated fails: for the authority `a:b:8080` the code gives host `a` and port
80, not host `a:b` and port 8080. -/
theorem C10_counterexample :
    ∃ t, parse_http_request "GET /http://a:b:8080/ HTTP/1.1".toList = some (0, t) ∧
      host_port_of "GET /http://a:b:8080/ HTTP/1.1".toList = some "a:b:8080".toList ∧
      t.host = "a".toList ∧ t.port = 80 ∧ ¬ (t.host = "a:b".toList ∧ t.port = 8080) :=
  ⟨{ method := "GET".toList, url := "/".toList, host := "a".toList, port := 80 },
   by decide, by decide, rfl, rfl, by decide⟩

/-- Claim C10, amended: an authority that does not start with a bracket is split at its FIRST
colon. On an accepted request whose authority is `H:T`, `H` free of colon, the host is `H`
(its first 255 characters) and the port is what `atoi` makes of `T`, the whole text after
that first colon, or 80 when that value is `<= 0`. -/
theorem C10_first_colon (request : List Char) (t : Target) (H T : List Char)
    (hacc : parse_http_request request = some (0, t))
    (hhp : host_port_of request = some (H ++ ':' :: T))
    (hH : ':' ∉ H) (hb : H.head? ≠ some '[') :
    t.host = H.take 255 ∧ ∃ v, atoi T = some v ∧ t.port = if v ≤ 0 then 80 else v := by
  obtain ⟨hp2, hhp2, hres⟩ := parse_accept_inv request t hacc
  rw [hhp] at hhp2
  cases hhp2
  rw [parse_host_port_colon H T _ hH hb] at hres
  cases ha : atoi T with
  | none => rw [ha] at hres; simp at hres
  | some v =>
    rw [ha] at hres
    simp only [Option.some_bind] at hres
    cases hres
    exact ⟨rfl, v, rfl, rfl⟩

/-- Witness of the amended C10: the authority `a:b:8080` gives host `a`; the port text
`b:8080` has the value 0, so the port is 80. -/
theorem C10_witness :
    parse_http_request "GET /http://a:b:8080/ HTTP/1.1".toList =
        some (0, { method := "GET".toList, url := "/".toList, host := "a".toList, port := 80 }) ∧
      atoi "b:8080".toList = some 0 ∧
      ∃ v, atoi "b:8080".toList = some v ∧ (80 : Int) = if v ≤ 0 then 80 else v :=
  ⟨by decide, by decide,
   (C10_first_colon "GET /http://a:b:8080/ HTTP/1.1".toList
     { method := "GET".toList, url := "/".toList, host := "a".toList, port := 80 }
     "a".toList "b:8080".toList (by decide) (by decide) (by decide) (by decide)).2⟩

/-- The split at the first colon on two authorities with two colons. -/
theorem first_colon_examples :
    (parse_http_request "GET /http://a:8080:b/ HTTP/1.1".toList).map (fun r => (r.1, r.2.host, r.2.port))
      = some (0, "a".toList, 8080) ∧
    (parse_http_request "GET /http://a:b:8080/ HTTP/1.1".toList).map (fun r => (r.1, r.2.host, r.2.port))
      = some (0, "a".toList, 80) := by
  decide

end Httpxy

namespace Httpxy

theorem crlf_isPrefixOf_cons (c : Char) (s : List Char) :
    CRLF.isPrefixOf (c :: s) = true ↔ c = Char.ofNat 13 ∧ s.head? = some (Char.ofNat 10) := by
  cases s with
  | nil => simp [CRLF, List.isPrefixOf]
  | cons d ds =>
    simp only [CRLF, List.isPrefixOf, Bool.and_true, Bool.and_eq_true, beq_iff_eq, List.head?_cons,
      Option.some.injEq]
    exact ⟨fun h => ⟨h.1.symm, h.2.symm⟩, fun h => ⟨h.1.symm, h.2.symm⟩⟩

theorem isPrefixOf_append_left (a b s : List Char) (h : (a ++ b).isPrefixOf s = true) :
    a.isPrefixOf s = true := by
  rw [List.isPrefixOf_iff_prefix] at h ⊢
  exact (List.prefix_append a b).trans h

/-- A line without CR LF, followed by CR LF: no text that begins with CR LF is found inside
the line, so the search for it goes on at the CR LF that follows. -/
theorem strstr_skip_line (N' : List Char) (l Z : List Char) (hl : strstr l CRLF = none) :
    strstr (l ++ CRLF ++ Z) (CRLF ++ N') =
      (strstr (CRLF ++ Z) (CRLF ++ N')).map (fun k => k + l.length) := by
  induction l with
  | nil => simp
  | cons c cs ih =>
    have hl2 := hl
    simp only [strstr] at hl2
    split at hl2
    · simp at hl2
    · rename_i hnp
      have hcs : strstr cs CRLF = none := by
        cases hh : strstr cs CRLF with
        | none => rfl
        | some k => rw [hh] at hl2; simp at hl2
      have hnp2 : ¬ (CRLF ++ N').isPrefixOf (c :: cs ++ CRLF ++ Z) = true := by
        intro hp
        have hp2 := isPrefixOf_append_left _ _ _ hp
        simp only [List.cons_append] at hp2
        rw [crlf_isPrefixOf_cons] at hp2
        apply hnp
        rw [crlf_isPrefixOf_cons]
        refine ⟨hp2.1, ?_⟩
        cases cs with
        | nil =>
          have := hp2.2
          simp [CRLF] at this
        | cons d ds => simpa using hp2.2
      simp only [List.cons_append] at hnp2 ⊢
      rw [strstr, if_neg hnp2]
      have := ih hcs
      simp only [List.append_assoc] at this ⊢
      rw [this]
      cases strstr (CRLF ++ Z) (CRLF ++ N') with
      | none => rfl
      | some k => simp only [Option.map_some', List.length_cons]; congr 1

/-- The first CR LF after a line without CR LF is right after the line. -/
theorem strstr_crlf_after_line (l Z : List Char) (hl : strstr l CRLF = none) :
    strstr (l ++ CRLF ++ Z) CRLF = some l.length := by
  have h := strstr_skip_line [] l Z hl
  simp only [List.append_nil] at h
  rw [h]
  have : strstr (CRLF ++ Z) CRLF = some 0 := by
    simp [CRLF, strstr, List.isPrefixOf]
  rw [this]
  simp

end Httpxy

namespace Httpxy

theorem intercalate_cons_cons (sep a b : List Char) (ls : List (List Char)) :
    List.intercalate sep (a :: b :: ls) = a ++ sep ++ List.intercalate sep (b :: ls) := by
  simp [List.intercalate, List.intersperse]

theorem intercalate_single (sep a : List Char) : List.intercalate sep [a] = a := by
  simp [List.intercalate, List.intersperse]

theorem strcat_eq (cap : Nat) (dest src : List Char) :
    strcat cap dest src = if (dest ++ src).length < cap then some (dest ++ src) else none := by
  unfold strcat
  simp only [List.length_append]

/-- A `strcat` after a text that was itself built under the capacity check. -/
theorem bind_strcat (cap : Nat) (a s : List Char) :
    (if a.length < cap then some a else none).bind (fun m => strcat cap m s) =
      if (a ++ s).length < cap then some (a ++ s) else none := by
  by_cases h : a.length < cap
  · rw [if_pos h, Option.some_bind, strcat_eq]
  · rw [if_neg h, Option.none_bind, if_neg]
    simp only [List.length_append]
    omega

theorem bind_strcat_bind (cap : Nat) (a s : List Char) (g : List Char → Option (List Char)) :
    (if a.length < cap then some a else none).bind (fun m => (strcat cap m s).bind g) =
      (if (a ++ s).length < cap then some (a ++ s) else none).bind g := by
  by_cases h : a.length < cap
  · rw [if_pos h, Option.some_bind, strcat_eq]
  · rw [if_neg h, Option.none_bind, if_neg, Option.none_bind]
    simp only [List.length_append]
    omega

/-- One turn of the header loop on a line that is kept or dropped. -/
theorem append_line_eq (l modified : List Char) (hm : modified.length < BUFFER_SIZE * 2) :
    (if (!starts_with_nocase l "host:".toList && !starts_with_nocase l "proxy-".toList) = true then
      (strcat (BUFFER_SIZE * 2) modified l).bind (fun m => strcat (BUFFER_SIZE * 2) m CRLF)
    else some modified) =
    if (modified ++
      (if (!starts_with_nocase l "host:".toList && !starts_with_nocase l "proxy-".toList) = true
        then l ++ CRLF else [])).length < BUFFER_SIZE * 2
    then some (modified ++
      (if (!starts_with_nocase l "host:".toList && !starts_with_nocase l "proxy-".toList) = true
        then l ++ CRLF else []))
    else none := by
  by_cases hk : (!starts_with_nocase l "host:".toList && !starts_with_nocase l "proxy-".toList) = true
  · simp only [hk, if_true]
    rw [strcat_eq, bind_strcat, List.append_assoc]
  · simp only [hk, if_false, List.append_nil, Bool.false_eq_true]
    rw [if_pos hm]

/-- The header loop on lines joined by CR LF: the lines that start with neither `Host:` nor
`Proxy-` are appended in their order, each followed by CR LF; the behaviour is undefined when
they do not fit `modified_request`. -/
theorem copy_headers_lines : ∀ (lines : List (List Char)), lines ≠ [] →
    (∀ l ∈ lines, l ≠ [] ∧ strstr l CRLF = none) →
    ∀ (fuel : Nat) (modified : List Char),
      (List.intercalate CRLF lines).length ≤ fuel →
      modified.length < BUFFER_SIZE * 2 →
      copy_headers fuel (List.intercalate CRLF lines) modified =
        if (modified ++ ((lines.filter (fun l => !starts_with_nocase l "host:".toList
            && !starts_with_nocase l "proxy-".toList)).map (fun l => l ++ CRLF)).flatten).length
          < BUFFER_SIZE * 2
        then some (modified ++ ((lines.filter (fun l => !starts_with_nocase l "host:".toList
          && !starts_with_nocase l "proxy-".toList)).map (fun l => l ++ CRLF)).flatten)
        else none := by
  intro lines
  induction lines with
  | nil => intro h; exact absurd rfl h
  | cons l rest ih =>
    intro _ hl fuel modified hfuel hm
    obtain ⟨hlne, hlcr⟩ := hl l (by simp)
    have hlpos : 0 < l.length := List.length_pos.mpr hlne
    have hflat : ∀ rest' : List (List Char),
        ((List.filter (fun l => !starts_with_nocase l "host:".toList
            && !starts_with_nocase l "proxy-".toList) (l :: rest')).map
              (fun l => l ++ CRLF)).flatten =
          (if (!starts_with_nocase l "host:".toList && !starts_with_nocase l "proxy-".toList) = true
            then l ++ CRLF else []) ++
          ((List.filter (fun l => !starts_with_nocase l "host:".toList
            && !starts_with_nocase l "proxy-".toList) rest').map
              (fun l => l ++ CRLF)).flatten := by
      intro rest'
      rw [List.filter_cons]
      split <;> simp
    rw [hflat]
    cases rest with
    | nil =>
      rw [intercalate_single] at hfuel ⊢
      obtain ⟨f, rfl⟩ : ∃ f, fuel = f + 1 := ⟨fuel - 1, by omega⟩
      rw [copy_headers, if_neg hlne]
      simp only [hlcr]
      rw [append_line_eq l modified hm]
      simp only [List.filter_nil, List.map_nil, List.flatten_nil, List.append_nil]
      by_cases hfit1 : (modified ++
          (if (!starts_with_nocase l "host:".toList && !starts_with_nocase l "proxy-".toList) = true
            then l ++ CRLF else [])).length < BUFFER_SIZE * 2
      · rw [if_pos hfit1]
      · rw [if_neg hfit1]
    | cons l2 ls =>
      rw [intercalate_cons_cons] at hfuel ⊢
      have hne : l ++ CRLF ++ List.intercalate CRLF (l2 :: ls) ≠ [] := by
        simp [hlne]
      obtain ⟨f, rfl⟩ : ∃ f, fuel = f + 1 := by
        refine ⟨fuel - 1, ?_⟩
        simp only [List.length_append] at hfuel
        omega
      rw [copy_headers, if_neg hne]
      simp only [strstr_crlf_after_line l _ hlcr]
      have htake : List.take l.length (l ++ CRLF ++ List.intercalate CRLF (l2 :: ls)) = l := by
        rw [List.append_assoc, List.take_left' rfl]
      have hdrop : List.drop (l.length + 2) (l ++ CRLF ++ List.intercalate CRLF (l2 :: ls))
          = List.intercalate CRLF (l2 :: ls) := by
        have : l.length + 2 = (l ++ CRLF).length := by simp [CRLF]
        rw [this, List.drop_left' rfl]
      rw [htake, append_line_eq l modified hm]
      by_cases hfit1 : (modified ++
          (if (!starts_with_nocase l "host:".toList && !starts_with_nocase l "proxy-".toList) = true
            then l ++ CRLF else [])).length < BUFFER_SIZE * 2
      · rw [if_pos hfit1]
        simp only
        rw [hdrop, ih (by simp) (fun x hx => hl x (List.mem_cons_of_mem _ hx)) f _
          (by have hc : CRLF.length = 2 := rfl
              simp only [List.length_append, hc] at hfuel; omega) hfit1]
        simp only [List.append_assoc]
      · rw [if_neg hfit1]
        simp only
        rw [if_neg]
        simp only [List.length_append] at hfit1 ⊢
        omega

/-- The terminator CR LF CR LF of a header block is found right after its last line. -/
theorem strstr_terminator : ∀ (lines : List (List Char)), lines ≠ [] →
    (∀ l ∈ lines, l ≠ [] ∧ strstr l CRLF = none) → ∀ (body : List Char),
    strstr (List.intercalate CRLF lines ++ CRLFCRLF ++ body) CRLFCRLF =
      some (List.intercalate CRLF lines).length := by
  intro lines
  induction lines with
  | nil => intro h; exact absurd rfl h
  | cons l rest ih =>
    intro _ hl body
    obtain ⟨hlne, hlcr⟩ := hl l (by simp)
    cases rest with
    | nil =>
      rw [intercalate_single]
      have h := strstr_skip_line CRLF l (CRLF ++ body) hlcr
      have e : l ++ CRLFCRLF ++ body = l ++ CRLF ++ (CRLF ++ body) := by
        simp [CRLFCRLF, List.append_assoc]
      rw [e]
      simp only [CRLFCRLF]
      rw [h]
      have : strstr (CRLF ++ (CRLF ++ body)) (CRLF ++ CRLF) = some 0 := by
        simp [CRLF, strstr, List.isPrefixOf]
      rw [this]
      simp
    | cons l2 ls =>
      rw [intercalate_cons_cons]
      obtain ⟨hl2ne, hl2cr⟩ := hl l2 (by simp)
      have e : l ++ CRLF ++ List.intercalate CRLF (l2 :: ls) ++ CRLFCRLF ++ body =
          l ++ CRLF ++ (List.intercalate CRLF (l2 :: ls) ++ CRLFCRLF ++ body) := by
        simp [List.append_assoc]
      rw [e]
      have h := strstr_skip_line CRLF l (List.intercalate CRLF (l2 :: ls) ++ CRLFCRLF ++ body) hlcr
      simp only [CRLFCRLF] at h ⊢
      rw [h]
      have hih := ih (by simp) (fun x hx => hl x (List.mem_cons_of_mem _ hx)) body
      simp only [CRLFCRLF] at hih
      obtain ⟨a, as, has⟩ := List.exists_cons_of_ne_nil hl2ne
      have hint : ∃ W, List.intercalate CRLF (l2 :: ls) ++ (CRLF ++ CRLF) ++ body
          = l2 ++ CRLF ++ W := by
        cases ls with
        | nil => exact ⟨CRLF ++ body, by rw [intercalate_single]; simp [List.append_assoc]⟩
        | cons l3 ls' =>
          exact ⟨List.intercalate CRLF (l3 :: ls') ++ (CRLF ++ CRLF) ++ body, by
            rw [intercalate_cons_cons]; simp [List.append_assoc]⟩
      obtain ⟨W, hW⟩ := hint
      have hfirst : strstr (l2 ++ CRLF ++ W) CRLF = some l2.length :=
        strstr_crlf_after_line l2 W hl2cr
      have hnot0 : ¬ CRLF.isPrefixOf (l2 ++ CRLF ++ W) = true := by
        intro hp
        rw [has] at hfirst hp
        simp only [List.cons_append] at hfirst hp
        rw [strstr, if_pos hp] at hfirst
        simp at hfirst
      have hsep : strstr (CRLF ++ (List.intercalate CRLF (l2 :: ls) ++ (CRLF ++ CRLF) ++ body))
          (CRLF ++ CRLF) =
          (strstr (List.intercalate CRLF (l2 :: ls) ++ (CRLF ++ CRLF) ++ body) (CRLF ++ CRLF)).map
            (fun k => k + 2) := by
        rw [hW]
        have hnp1 : ¬ (CRLF ++ CRLF).isPrefixOf (CRLF ++ (l2 ++ CRLF ++ W)) = true := by
          intro hp
          apply hnot0
          rw [List.isPrefixOf_iff_prefix] at hp ⊢
          exact (List.prefix_append_right_inj CRLF).mp hp
        have hnp2 : ¬ (CRLF ++ CRLF).isPrefixOf (Char.ofNat 10 :: (l2 ++ CRLF ++ W)) = true := by
          simp [CRLF, List.isPrefixOf]
        have e2 : CRLF ++ (l2 ++ CRLF ++ W) = Char.ofNat 13 :: Char.ofNat 10 :: (l2 ++ CRLF ++ W) := rfl
        rw [e2] at hnp1 ⊢
        rw [strstr, if_neg hnp1, strstr, if_neg hnp2]
        cases strstr (l2 ++ CRLF ++ W) (CRLF ++ CRLF) <;> simp
      rw [hsep, hih]
      have hc : CRLF.length = 2 := rfl
      simp only [Option.map_some', List.length_append, hc]
      congr 1
      omega

end Httpxy

namespace Httpxy

theorem host_header_starts_with_host (host : List Char) (port : Int) :
    starts_with_nocase (host_header host port) "host:".toList = true := by
  have h5 : "host:".toList.length = 5 := rfl
  have key : ∀ X : List Char,
      starts_with_nocase (snprintf 300 ("Host: ".toList ++ X)) "host:".toList = true := by
    intro X
    simp only [starts_with_nocase, snprintf, h5, List.take_take]
    have : List.take (min 5 (300 - 1)) ("Host: ".toList ++ X) = "Host:".toList := by
      show List.take 5 (_ ++ X) = _
      rfl
    rw [this]
    decide
  unfold host_header
  split
  · simpa [List.append_assoc] using key (host ++ CRLF)
  · split
    · have := key ('[' :: (host ++ "]:".toList ++ fmt_d port ++ CRLF))
      have e : "Host: [".toList ++ host ++ "]:".toList ++ fmt_d port ++ CRLF =
          "Host: ".toList ++ '[' :: (host ++ "]:".toList ++ fmt_d port ++ CRLF) := by
        simp only [List.append_assoc]
        rfl
      rw [e]
      exact this
    · simpa [List.append_assoc] using key (host ++ ":".toList ++ fmt_d port ++ CRLF)

/-- The rewrite step of `handle_client` taken by itself, as a function of the text it is given,
on a text made of a request line, one or more header lines separated by CR LF, the terminator
CR LF CR LF and a body (`read_request` never hands such a text on). The text built
in `modified_request` is the new request line, then every header line that starts with
neither `Host:` nor `Proxy-` (in any case of letters), in the original order and each
followed by CR LF, then the synthesized Host header, then `Connection: close`, the blank line
and the body (when that text does not fit the array, the unchecked `strcat` calls run past
its end). No copied line starts with `Host:` or `Proxy-`, every other original line is
copied, and the synthesized header is the one line that starts with `Host:`. -/
theorem rewrite_request_header_block (reqline body method url host : List Char) (port : Int)
    (lines : List (List Char)) (out : List Char)
    (hreq : reqline ≠ [] ∧ strstr reqline CRLF = none)
    (hne : lines ≠ [])
    (hlines : ∀ l ∈ lines, l ≠ [] ∧ strstr l CRLF = none)
    (hout : out =
      snprintf (BUFFER_SIZE * 2) (method ++ " ".toList ++ url ++ " HTTP/1.1\r\n".toList) ++
      ((lines.filter (fun l => !starts_with_nocase l "host:".toList
          && !starts_with_nocase l "proxy-".toList)).map (fun l => l ++ CRLF)).flatten ++
      host_header host port ++ "Connection: close\r\n\r\n".toList ++ body) :
    rewrite_request (reqline ++ CRLF ++ List.intercalate CRLF lines ++ CRLFCRLF ++ body)
        method url host port = (if out.length < BUFFER_SIZE * 2 then some out else none) ∧
    (∀ l ∈ lines.filter (fun l => !starts_with_nocase l "host:".toList
          && !starts_with_nocase l "proxy-".toList),
        starts_with_nocase l "host:".toList = false ∧
        starts_with_nocase l "proxy-".toList = false) ∧
    (∀ l ∈ lines, starts_with_nocase l "host:".toList = false →
        starts_with_nocase l "proxy-".toList = false →
        l ∈ lines.filter (fun l => !starts_with_nocase l "host:".toList
          && !starts_with_nocase l "proxy-".toList)) ∧
    (lines.filter (fun l => !starts_with_nocase l "host:".toList
          && !starts_with_nocase l "proxy-".toList)).countP
        (fun l => starts_with_nocase l "host:".toList) = 0 ∧
    starts_with_nocase (host_header host port) "host:".toList = true ∧
    starts_with_nocase "Connection: close\r\n\r\n".toList "host:".toList = false := by
  have hall : ∀ l ∈ reqline :: lines, l ≠ [] ∧ strstr l CRLF = none := by
    intro l hl
    rcases List.mem_cons.mp hl with rfl | hl
    · exact hreq
    · exact hlines l hl
  obtain ⟨l1, ls, rfl⟩ := List.exists_cons_of_ne_nil hne
  have hJ : reqline ++ CRLF ++ List.intercalate CRLF (l1 :: ls) =
      List.intercalate CRLF (reqline :: l1 :: ls) := (intercalate_cons_cons _ _ _ _).symm
  have hterm := strstr_terminator (reqline :: l1 :: ls) (by simp) hall body
  rw [← hJ] at hterm
  have hfilter_mem : ∀ l ∈ (l1 :: ls).filter (fun l => !starts_with_nocase l "host:".toList
          && !starts_with_nocase l "proxy-".toList),
        starts_with_nocase l "host:".toList = false ∧
        starts_with_nocase l "proxy-".toList = false := by
    intro l hl
    have := (List.mem_filter.mp hl).2
    simpa using this
  refine ⟨?_, hfilter_mem, ?_, ?_, host_header_starts_with_host host port, by decide⟩
  · -- the text that is built
    unfold rewrite_request
    simp only [hterm]
    have htake : List.take (reqline ++ CRLF ++ List.intercalate CRLF (l1 :: ls)).length
        (reqline ++ CRLF ++ List.intercalate CRLF (l1 :: ls) ++ CRLFCRLF ++ body) =
        reqline ++ CRLF ++ List.intercalate CRLF (l1 :: ls) := by
      rw [List.append_assoc _ CRLFCRLF, List.take_left' rfl]
    have hdropb : List.drop ((reqline ++ CRLF ++ List.intercalate CRLF (l1 :: ls)).length + 4)
        (reqline ++ CRLF ++ List.intercalate CRLF (l1 :: ls) ++ CRLFCRLF ++ body) = body := by
      have : (reqline ++ CRLF ++ List.intercalate CRLF (l1 :: ls)).length + 4 =
          (reqline ++ CRLF ++ List.intercalate CRLF (l1 :: ls) ++ CRLFCRLF).length := by
        have h4 : CRLFCRLF.length = 4 := rfl
        simp only [List.length_append, h4]
      rw [this, List.drop_left' rfl]
    rw [htake, hdropb, strstr_crlf_after_line reqline _ hreq.2]
    simp only
    have hdrop : List.drop (reqline.length + 2)
        (reqline ++ CRLF ++ List.intercalate CRLF (l1 :: ls)) =
        List.intercalate CRLF (l1 :: ls) := by
      have : reqline.length + 2 = (reqline ++ CRLF).length := by
        have hc : CRLF.length = 2 := rfl
        simp only [List.length_append, hc]
      rw [this, List.drop_left' rfl]
    have hrl : (snprintf (BUFFER_SIZE * 2)
        (method ++ " ".toList ++ url ++ " HTTP/1.1\r\n".toList)).length < BUFFER_SIZE * 2 := by
      simp only [snprintf, List.length_take, BUFFER_SIZE]
      omega
    rw [hdrop, copy_headers_lines (l1 :: ls) (by simp) hlines _ _ (le_refl _) hrl,
      bind_strcat_bind, bind_strcat_bind, bind_strcat, hout]
  · intro l hl h1 h2
    exact List.mem_filter.mpr ⟨hl, by simp only [h1, h2, Bool.not_false, Bool.and_self]⟩
  · rw [List.countP_eq_zero]
    intro l hl
    simp only [(hfilter_mem l hl).1, Bool.false_eq_true, not_false_eq_true]

/-- The rewrite step by itself on a text with four header lines, of which `hOsT:` and
`Proxy-Connection:` are dropped. -/
theorem rewrite_request_header_block_example :
    rewrite_request
      "GET /http://example.com:81/a HTTP/1.1\r\nAccept: */*\r\nhOsT: zz\r\nProxy-Connection: x\r\nX: y\r\n\r\nBODY".toList
      "GET".toList "/a".toList "example.com".toList 81 =
    some "GET /a HTTP/1.1\r\nAccept: */*\r\nX: y\r\nHost: example.com:81\r\nConnection: close\r\n\r\nBODY".toList :=
  (rewrite_request_header_block "GET /http://example.com:81/a HTTP/1.1".toList "BODY".toList
    "GET".toList "/a".toList "example.com".toList 81
    ["Accept: */*".toList, "hOsT: zz".toList, "Proxy-Connection: x".toList, "X: y".toList]
    "GET /a HTTP/1.1\r\nAccept: */*\r\nX: y\r\nHost: example.com:81\r\nConnection: close\r\n\r\nBODY".toList
    (by decide) (by decide) (by decide) (by decide)).1

end Httpxy

namespace Httpxy

/-- Claim C7 at the failing input: a GET request with the one header line `Accept: */*`, no
`Host:` and no `Proxy-` line. `read_request` has put a NUL on the first byte of the
terminator, so `handle_client` finds no CR LF CR LF in the request and copies no header line:
the target gets the new request line, the Host header and `Connection: close` only, and not
the text with `Accept: */*` that the claim describes. -/
theorem C7_original_headers_lost :
    handle_client
      { client_rx := ["GET /http://example.com/ HTTP/1.1\r\nAccept: */*\r\n\r\n".toList],
        resolve := fun _ _ => some [{ sfd := some 5, connects := true }],
        target_rx := [],
        ticks := [{ select := SelectResult.ready true false, send_target := 0, send_client := 0 }] } =
      some ⟨[Event.getaddrinfo "example.com".toList "80".toList, Event.connect 5,
             Event.send (Sock.target 5)
               "GET / HTTP/1.1\r\nHost: example.com\r\nConnection: close\r\n\r\n".toList,
             Event.close (Sock.target 5), Event.close Sock.client], true⟩ ∧
    "GET / HTTP/1.1\r\nHost: example.com\r\nConnection: close\r\n\r\n".toList ≠
      "GET / HTTP/1.1\r\nAccept: */*\r\nHost: example.com\r\nConnection: close\r\n\r\n".toList := by
  decide

/-- Claim C8 at the failing input: an OPTIONS request on an `/rtsp://` path with the one header
line `CSeq: 1`. `handle_client` sends `strlen(request)` bytes, and the request ends at the NUL
that `read_request` has put on the first byte of the terminator: the target gets the header
block without its CR LF CR LF, not the bytes that the client sent. -/
theorem C8_passthrough_cut :
    handle_client
      { client_rx := ["OPTIONS /rtsp://example.com/ RTSP/1.0\r\nCSeq: 1\r\n\r\n".toList],
        resolve := fun _ _ => some [{ sfd := some 5, connects := true }],
        target_rx := [],
        ticks := [{ select := SelectResult.ready true false, send_target := 0, send_client := 0 }] } =
      some ⟨[Event.getaddrinfo "example.com".toList "80".toList, Event.connect 5,
             Event.send (Sock.target 5) "OPTIONS /rtsp://example.com/ RTSP/1.0\r\nCSeq: 1".toList,
             Event.close (Sock.target 5), Event.close Sock.client], true⟩ ∧
    "OPTIONS /rtsp://example.com/ RTSP/1.0\r\nCSeq: 1".toList ≠
      "OPTIONS /rtsp://example.com/ RTSP/1.0\r\nCSeq: 1\r\n\r\n".toList := by
  decide

end Httpxy

namespace Httpxy

/-- Claim C11 as stated fails: for the path `/http://` the code returns 0 with an empty host,
and for `/http:///foo`, where a slash follows the marker at once, it returns 0 as well. -/
theorem C11_counterexample :
    (∃ t, parse_http_request "GET /http:// HTTP/1.1".toList = some (0, t) ∧ t.host = []) ∧
    (∃ t, parse_http_request "GET /http:///foo HTTP/1.1".toList = some (0, t)) ∧
    ¬ (∃ t, parse_http_request "GET /http:// HTTP/1.1".toList = some (-1, t)) :=
  ⟨⟨{ method := "GET".toList, url := "/".toList, host := [], port := 80 }, by decide, rfl⟩,
   ⟨{ method := "GET".toList, url := "/foo".toList, host := "/foo".toList, port := 80 },
    by decide⟩,
   by
    intro h
    obtain ⟨t, ht⟩ := h
    have h0 : parse_http_request "GET /http:// HTTP/1.1".toList =
        some (0, { method := "GET".toList, url := "/".toList, host := [], port := 80 }) := by
      decide
    rw [h0] at ht
    simp at ht⟩

/-- Claim C11, amended: for a path token that ends right after the scheme marker,
`parse_http_request` returns 0 (not `-1`), with an empty host, port 80 and url `/`. -/
theorem C11_empty_authority_accepted (M mk rest : List Char)
    (hM1 : M ≠ []) (hM2 : M.length ≤ 15) (hMws : ∀ c ∈ M, isspace c = false)
    (hmk : mk ∈ scheme_markers)
    (hrest : ∀ c, rest.head? = some c → isspace c = true) :
    parse_http_request (M ++ ' ' :: (mk ++ rest)) =
      some (0, { method := M, url := ['/'], host := [], port := 80 }) := by
  have hlen : (mk ++ [] ++ []).length ≤ 2047 := by
    simp only [scheme_markers, List.mem_cons, List.mem_singleton, List.not_mem_nil, or_false] at hmk
    rcases hmk with rfl | rfl | rfl <;> decide
  have h := parse_split M mk [] [] rest hM1 hM2 hMws hmk (by simp) (by simp) (by simp) (by simp)
    hlen hrest
  simp only [List.append_nil, List.length_nil, lt_irrefl, if_false, List.take_nil, if_true] at h
  rw [h, parse_host_port_plain [] _ (by simp) (by simp)]
  rfl

/-- Witness of the amended C11: the path `/http://`. -/
theorem C11_witness :
    parse_http_request "GET /http:// HTTP/1.1".toList =
      some (0, { method := "GET".toList, url := "/".toList, host := [], port := 80 }) :=
  C11_empty_authority_accepted "GET".toList "/http://".toList " HTTP/1.1".toList
    (by decide) (by decide) (by decide) (by decide) (by decide)

/-- The port that `parse_http_request` hands out is never below 1. -/
theorem parse_port_positive (request : List Char) (t : Target)
    (hacc : parse_http_request request = some (0, t)) : 1 ≤ t.port := by
  obtain ⟨hp, _, hres⟩ := parse_accept_inv request t hacc
  unfold parse_host_port at hres
  by_cases hb : hp.head? = some '['
  · rw [if_pos hb] at hres
    cases hs : strchr hp ']' with
    | none => rw [hs] at hres; simp at hres
    | some be =>
      rw [hs] at hres
      simp only at hres
      by_cases h256 : hp.length - be.length - 1 ≥ 256
      · rw [if_pos h256] at hres; simp at hres
      · rw [if_neg h256] at hres
        by_cases hc : (List.drop 1 be).head? = some ':'
        · rw [if_pos hc] at hres
          cases ha : atoi (List.drop 2 be) with
          | none => rw [ha] at hres; simp at hres
          | some p =>
            rw [ha] at hres
            cases hres
            simp only
            split <;> omega
        · rw [if_neg hc] at hres
          cases hres
          show (1 : Int) ≤ 80
          omega
  · rw [if_neg hb] at hres
    cases hs : strchr hp ':' with
    | none =>
      rw [hs] at hres
      cases hres
      show (1 : Int) ≤ 80
      omega
    | some cp =>
      rw [hs] at hres
      simp only at hres
      cases ha : atoi (List.drop 1 cp) with
      | none => rw [ha] at hres; simp at hres
      | some p =>
        rw [ha] at hres
        cases hres
        simp only
        split <;> omega

/-- In the bracketed branch the port lies in 1..65535. -/
theorem bracket_port_range (V X : List Char) (t0 t : Target) (hV : ']' ∉ V)
    (h : parse_host_port ('[' :: (V ++ ']' :: X)) t0 = some (0, t)) :
    1 ≤ t.port ∧ t.port ≤ 65535 := by
  rw [parse_host_port_bracket V X t0 hV] at h
  by_cases h256 : 256 ≤ V.length
  · rw [if_pos h256] at h; simp at h
  · rw [if_neg h256] at h
    by_cases hc : X.head? = some ':'
    · rw [if_pos hc] at h
      cases ha : atoi (List.drop 1 X) with
      | none => rw [ha] at h; simp at h
      | some p =>
        rw [ha] at h
        simp only [Option.some_bind] at h
        cases h
        simp only
        split <;> omega
    · rw [if_neg hc] at h
      cases h
      show (1 : Int) ≤ 80 ∧ (80 : Int) ≤ 65535
      omega

/-- Claim C12 at the failing input: the path `/http://example.com:70000/`. In the branch without
bracket the port text is only checked for `<= 0` (line 267), so the port is 70000, outside
1..65535; the bracketed branch has the check `> 65535` (line 256) and gives 80 for the same
port text. -/
theorem C12_port_above_range :
    parse_http_request "GET /http://example.com:70000/ HTTP/1.1".toList =
      some (0, { method := "GET".toList, url := "/".toList, host := "example.com".toList,
                 port := 70000 }) ∧
    parse_http_request "GET /http://[::1]:70000/ HTTP/1.1".toList =
      some (0, { method := "GET".toList, url := "/".toList, host := "::1".toList,
                 port := 80 }) ∧
    ¬ ((70000 : Int) ≤ 65535) := by
  decide

/-- Claim C13: when `parse_http_request` returns 0 with an empty host on the request that
`read_request` returned, `handle_client` does exactly two things: it sends the client the
response `400 Bad Request` with the headers `Content-Type: text/plain` and
`Connection: close`, a blank line and the body `Invalid hostname`, and it closes the client
socket; nothing is resolved or connected. -/
theorem C13_empty_host_rejected (env : Env) (r : ReadResult) (t : Target)
    (hread : read_request env.client_rx = some (some r))
    (hparse : parse_http_request (cstr r.buffer) = some (0, t))
    (hhost : t.host = []) :
    handle_client env =
      some ⟨[Event.send Sock.client err_bad_host, Event.close Sock.client], true⟩ ∧
    err_bad_host = "HTTP/1.1 400 Bad Request".toList ++ CRLF ++
      "Content-Type: text/plain".toList ++ CRLF ++ "Connection: close".toList ++ CRLF ++ CRLF ++
      "Invalid hostname".toList ∧
    (∀ run, handle_client env = some run →
      ∀ e ∈ run.events, (∀ h p, e ≠ Event.getaddrinfo h p) ∧ (∀ fd, e ≠ Event.connect fd)) := by
  have hrun : handle_client env =
      some ⟨[Event.send Sock.client err_bad_host, Event.close Sock.client], true⟩ := by
    unfold handle_client
    rw [hread]
    simp only [Option.some_bind, hparse]
    rw [if_neg (by decide), if_pos (by rw [hhost]; rfl)]
  refine ⟨hrun, by rfl, ?_⟩
  intro run hr e he
  rw [hrun] at hr
  cases hr
  simp only [List.mem_cons, List.mem_singleton, List.not_mem_nil, or_false] at he
  rcases he with rfl | rfl
  · exact ⟨fun h p => by simp, fun fd => by simp⟩
  · exact ⟨fun h p => by simp, fun fd => by simp⟩

/-- Witness of C13: the path `/http://:8080/x`, whose host is empty. -/
theorem C13_witness :
    handle_client
      { client_rx := ["GET /http://:8080/x HTTP/1.1\r\n\r\n".toList],
        resolve := fun _ _ => some [{ sfd := some 5, connects := true }],
        target_rx := [], ticks := [] } =
      some ⟨[Event.send Sock.client err_bad_host, Event.close Sock.client], true⟩ :=
  (C13_empty_host_rejected
    { client_rx := ["GET /http://:8080/x HTTP/1.1\r\n\r\n".toList],
      resolve := fun _ _ => some [{ sfd := some 5, connects := true }],
      target_rx := [], ticks := [] }
    { buffer := "GET /http://:8080/x HTTP/1.1".toList ++
        [NUL, Char.ofNat 10, Char.ofNat 13, Char.ofNat 10],
      is_rtsp := false, rx := [] }
    { method := "GET".toList, url := "/x".toList, host := [], port := 8080 }
    (by decide) (by decide) rfl).1

/-- The paths `/http://`, `/http://:8080/x` and `/http://[]/x` give an empty host. -/
theorem empty_host_examples :
    (parse_http_request "GET /http:// HTTP/1.1".toList).map (fun r => (r.1, r.2.host)) =
      some (0, []) ∧
    (parse_http_request "GET /http://:8080/x HTTP/1.1".toList).map (fun r => (r.1, r.2.host)) =
      some (0, []) ∧
    (parse_http_request "GET /http://[]/x HTTP/1.1".toList).map (fun r => (r.1, r.2.host)) =
      some (0, []) := by
  decide

end Httpxy

namespace Httpxy

/-- The loop over the addresses gives `-1` exactly when no address has a socket that connects;
every socket it opened is then closed after its `connect`. -/
theorem try_candidates_none (cands : List Candidate) :
    ((try_candidates cands).1 = none ↔ ∀ x ∈ cands, x.sfd = none ∨ x.connects = false) ∧
    ((try_candidates cands).1 = none →
      (try_candidates cands).2 =
        (cands.filterMap (fun x => x.sfd)).flatMap
          (fun fd => [Event.connect fd, Event.close (Sock.target fd)])) := by
  induction cands with
  | nil => simp [try_candidates]
  | cons c rest ih =>
    cases hs : c.sfd with
    | none =>
      have e : try_candidates (c :: rest) = try_candidates rest := by
        simp only [try_candidates, hs]
      rw [e]
      constructor
      · rw [ih.1]
        simp [hs]
      · intro h
        rw [ih.2 h]
        simp [List.filterMap_cons, hs]
    | some fd =>
      by_cases hc : c.connects = true
      · have e : try_candidates (c :: rest) = (some fd, [Event.connect fd]) := by
          simp only [try_candidates, hs, hc, if_true]
        rw [e]
        constructor
        · simp [hs, hc]
        · intro h
          simp at h
      · have e : try_candidates (c :: rest) =
            ((try_candidates rest).1, Event.connect fd :: Event.close (Sock.target fd) ::
              (try_candidates rest).2) := by
          simp only [try_candidates, hs, hc, if_false, Bool.false_eq_true]
        rw [e]
        have hcf : c.connects = false := by simpa using hc
        constructor
        · simp only
          rw [ih.1]
          simp [hs, hcf]
        · intro h
          simp only at h ⊢
          rw [ih.2 h]
          simp [List.filterMap_cons, hs, List.flatMap_cons]

/-- When the loop over the addresses gives a socket, it is the socket of the first address, in
the order of the list, that has a socket and connects; the sockets opened before it are
closed. -/
theorem try_candidates_some (cands : List Candidate) (fd : Nat)
    (h : (try_candidates cands).1 = some fd) :
    ∃ pre x post, cands = pre ++ x :: post ∧
      (∀ y ∈ pre, y.sfd = none ∨ y.connects = false) ∧
      x.sfd = some fd ∧ x.connects = true ∧
      (try_candidates cands).2 =
        (pre.filterMap (fun x => x.sfd)).flatMap
          (fun fd => [Event.connect fd, Event.close (Sock.target fd)]) ++ [Event.connect fd] := by
  induction cands with
  | nil => simp [try_candidates] at h
  | cons c rest ih =>
    cases hs : c.sfd with
    | none =>
      have e : try_candidates (c :: rest) = try_candidates rest := by
        simp only [try_candidates, hs]
      rw [e] at h ⊢
      obtain ⟨pre, x, post, hsplit, hpre, hx1, hx2, hev⟩ := ih h
      refine ⟨c :: pre, x, post, by simp [hsplit], ?_, hx1, hx2, ?_⟩
      · intro y hy
        rcases List.mem_cons.mp hy with rfl | hy
        · exact Or.inl hs
        · exact hpre y hy
      · rw [hev]
        simp [List.filterMap_cons, hs]
    | some fd0 =>
      by_cases hc : c.connects = true
      · have e : try_candidates (c :: rest) = (some fd0, [Event.connect fd0]) := by
          simp only [try_candidates, hs, hc, if_true]
        rw [e] at h ⊢
        simp only [Option.some.injEq] at h
        subst h
        exact ⟨[], c, rest, rfl, by simp, hs, hc, by simp⟩
      · have e : try_candidates (c :: rest) =
            ((try_candidates rest).1, Event.connect fd0 :: Event.close (Sock.target fd0) ::
              (try_candidates rest).2) := by
          simp only [try_candidates, hs, hc, if_false, Bool.false_eq_true]
        rw [e] at h ⊢
        have hcf : c.connects = false := by simpa using hc
        obtain ⟨pre, x, post, hsplit, hpre, hx1, hx2, hev⟩ := ih h
        refine ⟨c :: pre, x, post, by simp [hsplit], ?_, hx1, hx2, ?_⟩
        · intro y hy
          rcases List.mem_cons.mp hy with rfl | hy
          · exact Or.inr hcf
          · exact hpre y hy
        · simp only
          rw [hev]
          simp [List.filterMap_cons, hs, List.flatMap_cons]

theorem connect_to_target_none (resolve : List Char → List Char → Option (List Candidate))
    (host : List Char) (port : Int) (h : resolve host (snprintf 16 (fmt_d port)) = none) :
    connect_to_target resolve host port =
      (none, [Event.getaddrinfo host (snprintf 16 (fmt_d port))]) := by
  simp only [connect_to_target, h]

theorem connect_to_target_some (resolve : List Char → List Char → Option (List Candidate))
    (host : List Char) (port : Int) (cands : List Candidate)
    (h : resolve host (snprintf 16 (fmt_d port)) = some cands) :
    connect_to_target resolve host port =
      ((try_candidates cands).1,
        Event.getaddrinfo host (snprintf 16 (fmt_d port)) :: (try_candidates cands).2) := by
  simp only [connect_to_target, h]

/-- Claim C14. `connect_to_target` returns `-1` exactly when the resolver fails or no address
has a socket that connects, and then every socket it opened has been closed after its
`connect`; otherwise it returns the socket of the first address in resolution order that
connected, the sockets opened before it closed. When it returns `-1`, `handle_client` sends
the client the response `502 Bad Gateway` with the body `Cannot connect to target server`,
closes the client socket and sends nothing to a target. -/
theorem C14_connect_to_target (resolve : List Char → List Char → Option (List Candidate))
    (host : List Char) (port : Int) :
    ((connect_to_target resolve host port).1 = none ↔
      (resolve host (snprintf 16 (fmt_d port)) = none ∨
       ∃ cands, resolve host (snprintf 16 (fmt_d port)) = some cands ∧
         ∀ x ∈ cands, x.sfd = none ∨ x.connects = false)) ∧
    (∀ cands, resolve host (snprintf 16 (fmt_d port)) = some cands →
      (connect_to_target resolve host port).1 = none →
      (connect_to_target resolve host port).2 =
        Event.getaddrinfo host (snprintf 16 (fmt_d port)) ::
          (cands.filterMap (fun x => x.sfd)).flatMap
            (fun fd => [Event.connect fd, Event.close (Sock.target fd)])) ∧
    (∀ fd, (connect_to_target resolve host port).1 = some fd →
      ∃ pre x post, resolve host (snprintf 16 (fmt_d port)) = some (pre ++ x :: post) ∧
        (∀ y ∈ pre, y.sfd = none ∨ y.connects = false) ∧
        x.sfd = some fd ∧ x.connects = true ∧
        (connect_to_target resolve host port).2 =
          Event.getaddrinfo host (snprintf 16 (fmt_d port)) ::
            ((pre.filterMap (fun x => x.sfd)).flatMap
              (fun fd => [Event.connect fd, Event.close (Sock.target fd)]) ++
             [Event.connect fd])) ∧
    (∀ (env : Env) (r : ReadResult) (t : Target),
      env.resolve = resolve → t.host = host → t.port = port →
      read_request env.client_rx = some (some r) →
      parse_http_request (cstr r.buffer) = some (0, t) →
      t.host ≠ [] →
      (connect_to_target resolve host port).1 = none →
      handle_client env =
        some ⟨(connect_to_target resolve host port).2 ++
          [Event.send Sock.client err_bad_gateway, Event.close Sock.client], true⟩ ∧
      err_bad_gateway = "HTTP/1.1 502 Bad Gateway".toList ++ CRLF ++
        "Content-Type: text/plain".toList ++ CRLF ++ "Connection: close".toList ++ CRLF ++
        CRLF ++ "Cannot connect to target server".toList ∧
      ∀ e ∈ (connect_to_target resolve host port).2 ++
          [Event.send Sock.client err_bad_gateway, Event.close Sock.client],
        ∀ fd bytes, e ≠ Event.send (Sock.target fd) bytes) := by
  refine ⟨?_, ?_, ?_, ?_⟩
  · cases hr : resolve host (snprintf 16 (fmt_d port)) with
    | none =>
      rw [connect_to_target_none resolve host port hr]
      simp
    | some cands =>
      rw [connect_to_target_some resolve host port cands hr]
      simp only [reduceCtorEq, false_or, Option.some.injEq, exists_eq_left']
      exact (try_candidates_none cands).1
  · intro cands hr hnone
    rw [connect_to_target_some resolve host port cands hr] at hnone ⊢
    simp only at hnone ⊢
    rw [(try_candidates_none cands).2 hnone]
  · intro fd hsome
    cases hr : resolve host (snprintf 16 (fmt_d port)) with
    | none =>
      rw [connect_to_target_none resolve host port hr] at hsome
      simp at hsome
    | some cands =>
      rw [connect_to_target_some resolve host port cands hr] at hsome ⊢
      simp only at hsome ⊢
      obtain ⟨pre, x, post, hsplit, hpre, hx1, hx2, hev⟩ := try_candidates_some cands fd hsome
      exact ⟨pre, x, post, by rw [hsplit], hpre, hx1, hx2, by rw [hev]⟩
  · intro env r t hres hh hp hread hparse hne hnone
    subst hres hh hp
    refine ⟨?_, by rfl, ?_⟩
    · unfold handle_client
      rw [hread]
      simp only [Option.some_bind, hparse]
      rw [if_neg (by decide), if_neg (by
        intro h0
        exact hne (List.length_eq_zero.mp h0))]
      simp only [hnone]
    · intro e he fd bytes
      rcases List.mem_append.mp he with he | he
      · cases hr : env.resolve t.host (snprintf 16 (fmt_d t.port)) with
        | none =>
          rw [connect_to_target_none _ _ _ hr] at he
          simp only [List.mem_singleton] at he
          subst he
          simp
        | some cands =>
          rw [connect_to_target_some _ _ _ cands hr] at he hnone
          simp only at he hnone
          rw [(try_candidates_none cands).2 hnone] at he
          rcases List.mem_cons.mp he with rfl | he
          · simp
          · simp only [List.mem_flatMap, List.mem_filterMap] at he
            obtain ⟨fd0, _, hmem⟩ := he
            simp only [List.mem_cons, List.mem_singleton, List.not_mem_nil, or_false] at hmem
            rcases hmem with rfl | rfl <;> simp
      · simp only [List.mem_cons, List.mem_singleton, List.not_mem_nil, or_false] at he
        rcases he with rfl | rfl <;> simp

/-- Witness of C14: the resolver gives two addresses, a socket 4 that does not connect and an
address without socket; `handle_client` answers 502. -/
theorem C14_witness :
    handle_client
      { client_rx := ["GET /http://example.com/ HTTP/1.1\r\n\r\n".toList],
        resolve := fun _ _ => some [{ sfd := some 4, connects := false },
                                    { sfd := none, connects := true }],
        target_rx := [], ticks := [] } =
      some ⟨[Event.getaddrinfo "example.com".toList "80".toList, Event.connect 4,
             Event.close (Sock.target 4),
             Event.send Sock.client err_bad_gateway, Event.close Sock.client], true⟩ :=
  ((C14_connect_to_target
      (fun _ _ => some [{ sfd := some 4, connects := false }, { sfd := none, connects := true }])
      "example.com".toList 80).2.2.2
    { client_rx := ["GET /http://example.com/ HTTP/1.1\r\n\r\n".toList],
      resolve := fun _ _ => some [{ sfd := some 4, connects := false },
                                  { sfd := none, connects := true }],
      target_rx := [], ticks := [] }
    { buffer := "GET /http://example.com/ HTTP/1.1".toList ++
        [NUL, Char.ofNat 10, Char.ofNat 13, Char.ofNat 10],
      is_rtsp := false, rx := [] }
    { method := "GET".toList, url := "/".toList, host := "example.com".toList, port := 80 }
    rfl rfl rfl (by decide) (by decide) (by decide) (by decide)).1

/-- The first address that connects wins: of a socket 4 that fails, a socket 5 that connects
and a socket 6 that would connect, `connect_to_target` returns 5 and has closed 4. -/
theorem connect_first_wins :
    connect_to_target
      (fun _ _ => some [{ sfd := some 4, connects := false }, { sfd := some 5, connects := true },
                        { sfd := some 6, connects := true }])
      "example.com".toList 8080 =
    (some 5, [Event.getaddrinfo "example.com".toList "8080".toList, Event.connect 4,
              Event.close (Sock.target 4), Event.connect 5]) := by
  decide

end Httpxy

namespace Httpxy

/-- Claim C15 at the failing inputs. `read_request` finds the length with
`strstr(buffer, "Content-Length:")`, a search for these very characters anywhere in the
request: a header `content-length: 5` or `CONTENT-LENGTH: 5` gives 0 and not 5, the header
`X-Content-Length: 7` gives 7, and `Content-Length:3` inside the path gives 3. With
`content-length: 5` the five body bytes that follow are not read. -/
theorem C15_content_length_lookup :
    content_length "POST /http://e/ HTTP/1.1\r\ncontent-length: 5".toList = some 0 ∧
    content_length "POST /http://e/ HTTP/1.1\r\nCONTENT-LENGTH: 5".toList = some 0 ∧
    content_length "POST /http://e/ HTTP/1.1\r\nContent-Length: 5".toList = some 5 ∧
    content_length "POST /http://e/ HTTP/1.1\r\nX-Content-Length: 7".toList = some 7 ∧
    content_length "POST /http://e/Content-Length:3 HTTP/1.1\r\nA: b".toList = some 3 ∧
    read_request ["POST /http://e/ HTTP/1.1\r\ncontent-length: 5\r\n\r\n".toList,
                  "hello".toList] =
      some (some { buffer := "POST /http://e/ HTTP/1.1\r\ncontent-length: 5".toList ++
                     [NUL, Char.ofNat 10, Char.ofNat 13, Char.ofNat 10],
                   is_rtsp := false, rx := ["hello".toList] }) ∧
    read_request ["POST /http://e/ HTTP/1.1\r\nContent-Length: 5\r\n\r\n".toList,
                  "hello".toList] =
      some (some { buffer := "POST /http://e/ HTTP/1.1\r\nContent-Length: 5".toList ++
                     [NUL, Char.ofNat 10, Char.ofNat 13, Char.ofNat 10] ++ "hello".toList,
                   is_rtsp := false, rx := [] }) := by
  decide

/-! ## What `read_request` returns -/

theorem cstr_cons_ne (c : Char) (l : List Char) (h : c ≠ NUL) : cstr (c :: l) = c :: cstr l := by
  simp [cstr, List.takeWhile_cons, h]

theorem cstr_cons_nul (l : List Char) : cstr (NUL :: l) = [] := by
  simp [cstr, List.takeWhile_cons]

/-- A NUL written inside the C string of a buffer cuts the string there, whatever is appended
to the buffer afterwards. -/
theorem cstr_set_nul : ∀ (l : List Char) (p : Nat), p < (cstr l).length → ∀ e : List Char,
    cstr (l.set p NUL ++ e) = (cstr l).take p := by
  intro l
  induction l with
  | nil => intro p hp; simp [cstr] at hp
  | cons c cs ih =>
    intro p hp e
    by_cases hc : c = NUL
    · subst hc
      rw [cstr_cons_nul] at hp
      simp at hp
    · rw [cstr_cons_ne c cs hc] at hp ⊢
      cases p with
      | zero =>
        simp only [List.set_cons_zero, List.cons_append, List.take_zero]
        exact cstr_cons_nul _
      | succ q =>
        simp only [List.set_cons_succ, List.cons_append, List.take_succ_cons]
        rw [cstr_cons_ne c _ hc, ih q (by simpa using hp) e]

theorem strstr_lt (N : List Char) (hN : N ≠ []) : ∀ (X : List Char) (p : Nat),
    strstr X N = some p → p < X.length := by
  intro X
  induction X with
  | nil =>
    intro p h
    simp [strstr, hN] at h
  | cons c cs ih =>
    intro p h
    rw [strstr] at h
    split at h
    · simp only [Option.some.injEq] at h
      subst h
      simp
    · cases hs : strstr cs N with
      | none => rw [hs] at h; simp at h
      | some k =>
        rw [hs] at h
        simp only [Option.map_some', Option.some.injEq] at h
        subst h
        have := ih k hs
        simp only [List.length_cons]
        omega

/-- Before the first occurrence of a text there is no occurrence of it. -/
theorem strstr_take_none (N : List Char) (hN : N ≠ []) : ∀ (X : List Char) (p : Nat),
    strstr X N = some p → strstr (X.take p) N = none := by
  intro X
  induction X with
  | nil =>
    intro p h
    simp [strstr, hN] at h
  | cons c cs ih =>
    intro p h
    rw [strstr] at h
    split at h
    · simp only [Option.some.injEq] at h
      subst h
      simp [strstr, hN]
    · rename_i hnp
      cases hs : strstr cs N with
      | none => rw [hs] at h; simp at h
      | some k =>
        rw [hs] at h
        simp only [Option.map_some', Option.some.injEq] at h
        subst h
        simp only [List.take_succ_cons]
        rw [strstr, if_neg, ih k hs]
        · rfl
        · intro hp
          apply hnp
          rw [List.isPrefixOf_iff_prefix] at hp ⊢
          exact hp.trans ((List.prefix_cons_inj c).mpr (List.take_prefix k cs))

/-- Where the header loop of `read_request` ends with a buffer: the terminator was found at
offset `p` of the C string read so far, and a NUL now stands on its first byte. -/
theorem header_loop_found : ∀ (rx : List (List Char)) (buf buffer : List Char) (he : Nat)
    (rx1 : List (List Char)), header_loop rx buf = some (buffer, he, rx1) →
    ∃ buf1 p, buffer = buf1.set p NUL ∧ he = p + 4 ∧ strstr (cstr buf1) CRLFCRLF = some p := by
  intro rx
  induction rx with
  | nil => intro buf buffer he rx1 h; simp [header_loop] at h
  | cons seg rest ih =>
    intro buf buffer he rx1 h
    rw [header_loop] at h
    split at h
    · simp at h
    · simp only at h
      split at h
      · simp at h
      · split at h
        · rename_i p hp
          simp only [Option.some.injEq, Prod.mk.injEq] at h
          exact ⟨_, p, h.1.symm, h.2.1.symm, hp⟩
        · split at h
          · exact ih _ _ _ _ h
          · simp at h

theorem body_loop_append : ∀ (rx : List (List Char)) (buf : List Char) (remaining : Int),
    ∃ e, (body_loop rx buf remaining).1 = buf ++ e := by
  intro rx
  induction rx with
  | nil => intro buf remaining; exact ⟨[], by simp [body_loop]⟩
  | cons seg rest ih =>
    intro buf remaining
    rw [body_loop]
    split
    · simp only
      split
      · exact ⟨[], by simp⟩
      · split
        · obtain ⟨e, he⟩ := ih (buf ++ (recv (seg :: rest)
            (min remaining.toNat (BUFFER_SIZE * 2 - buf.length - 1))).1)
            (remaining - ((recv (seg :: rest)
              (min remaining.toNat (BUFFER_SIZE * 2 - buf.length - 1))).1.length : Int))
          exact ⟨_, by rw [he, List.append_assoc]⟩
        · exact ⟨_, rfl⟩
    · exact ⟨[], by simp⟩

/-- The request that `read_request` returns: its C string is the text read before the first
CR LF CR LF, it holds no CR LF CR LF, and the flag is the test of lines 475-478 on its first
token, cut to 15 characters. -/
theorem read_request_returns (rx : List (List Char)) (r : ReadResult)
    (h : read_request rx = some (some r)) :
    (∃ buf1 p, strstr (cstr buf1) CRLFCRLF = some p ∧ cstr r.buffer = (cstr buf1).take p) ∧
    strstr (cstr r.buffer) CRLFCRLF = none ∧
    r.is_rtsp = is_rtsp_method (scan_token 15 (cstr r.buffer)).1 := by
  unfold read_request at h
  cases hh : header_loop rx [] with
  | none => rw [hh] at h; simp at h
  | some res =>
    obtain ⟨buffer, he, rx1⟩ := res
    rw [hh] at h
    simp only at h
    obtain ⟨buf1, p, hb, _, hp⟩ := header_loop_found rx [] buffer he rx1 hh
    have hN : CRLFCRLF ≠ [] := by decide
    have hlt := strstr_lt CRLFCRLF hN _ _ hp
    have hcs : ∀ e, cstr (buffer ++ e) = (cstr buf1).take p := by
      intro e
      rw [hb]
      exact cstr_set_nul buf1 p hlt e
    have hcs0 : cstr buffer = (cstr buf1).take p := by
      have := hcs []
      simpa using this
    have key : ∀ e flag rxx, flag = is_rtsp_method (scan_token 15 (cstr buffer)).1 →
        r = ⟨buffer ++ e, flag, rxx⟩ →
        (∃ buf1 p, strstr (cstr buf1) CRLFCRLF = some p ∧ cstr r.buffer = (cstr buf1).take p) ∧
        strstr (cstr r.buffer) CRLFCRLF = none ∧
        r.is_rtsp = is_rtsp_method (scan_token 15 (cstr r.buffer)).1 := by
      intro e flag rxx hflag hr
      subst hr
      simp only
      rw [hcs e]
      refine ⟨⟨buf1, p, hp, rfl⟩, strstr_take_none CRLFCRLF hN _ _ hp, ?_⟩
      rw [hflag, hcs0]
    split at h
    · rename_i hm
      simp only [Option.some.injEq] at h
      exact key [] true rx1 hm.symm (by rw [← h]; simp)
    · rename_i hm
      cases hcl : content_length (cstr buffer) with
      | none => rw [hcl] at h; simp at h
      | some cl =>
        rw [hcl] at h
        simp only at h
        split at h
        · simp at h
        · simp only [Option.some.injEq] at h
          obtain ⟨e, hee⟩ := body_loop_append rx1 buffer
            (cl - ((buffer.length : Int) - (he : Int)))
          refine key e false _ ?_ (by rw [← h, hee])
          simpa using hm

end Httpxy

namespace Httpxy

theorem is_rtsp_method_iff (m : List Char) : is_rtsp_method m = true ↔ m ∈ rtsp_methods := by
  simp only [is_rtsp_method, rtsp_methods, Bool.or_eq_true, decide_eq_true_eq, List.mem_cons,
    List.mem_singleton, List.not_mem_nil, or_false, or_assoc]

theorem rtsp_methods_short : ∀ v ∈ rtsp_methods, v.length ≤ 13 := by decide

/-- Cutting a token to 15 characters does not change whether it is one of the eight names. -/
theorem take15_mem_rtsp_methods (tok : List Char) :
    tok.take 15 ∈ rtsp_methods ↔ tok ∈ rtsp_methods := by
  by_cases h : tok.length ≤ 15
  · rw [List.take_of_length_le h]
  · constructor
    · intro hm
      have := rtsp_methods_short _ hm
      rw [List.length_take] at this
      omega
    · intro hm
      have := rtsp_methods_short _ hm
      omega

/-- The first token of a text, as `%15s` reads it. -/
theorem scan_token_first (ws tok rest : List Char)
    (hws : ∀ c ∈ ws, isspace c = true) (htok : ∀ c ∈ tok, isspace c = false)
    (hrest : ∀ c, rest.head? = some c → isspace c = true) (hnone : tok = [] → rest = []) :
    (scan_token 15 (ws ++ tok ++ rest)).1 = tok.take 15 := by
  have hd : List.dropWhile isspace (ws ++ tok ++ rest) = List.dropWhile isspace (tok ++ rest) := by
    rw [List.append_assoc, List.dropWhile_append_of_pos hws]
  cases tok with
  | nil =>
    have := hnone rfl
    subst this
    have hd0 : List.dropWhile isspace (ws ++ [] ++ []) = [] := by
      rw [hd]
      rfl
    simp only [scan_token, hd0]
    rfl
  | cons a as =>
    have ha : isspace a = false := htok a (by simp)
    have hd2 : List.dropWhile isspace (a :: as ++ rest) = a :: as ++ rest := by
      simp [List.dropWhile_cons, ha]
    have ht : List.takeWhile (fun c => !isspace c) (a :: as ++ rest) = a :: as := by
      rw [List.takeWhile_append_of_pos (fun c hc => by simp [htok c hc])]
      cases rest with
      | nil => simp
      | cons x xs =>
        have := hrest x rfl
        simp [List.takeWhile_cons, this]
    simp only [scan_token, hd, hd2, ht]

/-- The flag and the request returned: `read_request` sets the streaming-control flag exactly
when the first white-space delimited token of the request it returns is one of DESCRIBE, SETUP, PLAY,
PAUSE, TEARDOWN, OPTIONS, GET_PARAMETER, SET_PARAMETER, letter for letter; this holds for a
token of any length, although `sscanf` keeps only 15 characters of it. -/
theorem streaming_flag_header_block (rx : List (List Char)) (r : ReadResult) (ws tok rest : List Char)
    (hread : read_request rx = some (some r))
    (hdec : cstr r.buffer = ws ++ tok ++ rest)
    (hws : ∀ c ∈ ws, isspace c = true) (htok : ∀ c ∈ tok, isspace c = false)
    (hrest : ∀ c, rest.head? = some c → isspace c = true) (hnone : tok = [] → rest = []) :
    r.is_rtsp = true ↔ tok ∈ rtsp_methods := by
  have h := (read_request_returns rx r hread).2.2
  rw [h, hdec, scan_token_first ws tok rest hws htok hrest hnone, is_rtsp_method_iff]
  exact take15_mem_rtsp_methods tok

/-- The flag on an OPTIONS request. -/
theorem streaming_flag_header_block_example :
    read_request ["OPTIONS /rtsp://example.com/ RTSP/1.0\r\nCSeq: 1\r\n\r\n".toList] =
      some (some { buffer := "OPTIONS /rtsp://example.com/ RTSP/1.0\r\nCSeq: 1".toList ++
                     [NUL, Char.ofNat 10, Char.ofNat 13, Char.ofNat 10],
                   is_rtsp := true, rx := [] }) ∧
    "OPTIONS".toList ∈ rtsp_methods :=
  ⟨by decide,
   (streaming_flag_header_block ["OPTIONS /rtsp://example.com/ RTSP/1.0\r\nCSeq: 1\r\n\r\n".toList]
     { buffer := "OPTIONS /rtsp://example.com/ RTSP/1.0\r\nCSeq: 1".toList ++
         [NUL, Char.ofNat 10, Char.ofNat 13, Char.ofNat 10],
       is_rtsp := true, rx := [] }
     [] "OPTIONS".toList " /rtsp://example.com/ RTSP/1.0\r\nCSeq: 1".toList
     (by decide) (by decide) (by decide) (by decide) (by decide) (by decide)).mp rfl⟩

/-- The flag on some method tokens: set for `PLAY`, not set for `describe`, `PLAYX` and for a
token of 16 characters that starts with `SET_PARAMETER`. -/
theorem streaming_flag_examples :
    (read_request ["PLAY /rtsp://e/ RTSP/1.0\r\n\r\n".toList]).map
      (fun o => o.map (fun r => r.is_rtsp)) = some (some true) ∧
    (read_request ["describe /rtsp://e/ RTSP/1.0\r\n\r\n".toList]).map
      (fun o => o.map (fun r => r.is_rtsp)) = some (some false) ∧
    (read_request ["PLAYX /rtsp://e/ RTSP/1.0\r\n\r\n".toList]).map
      (fun o => o.map (fun r => r.is_rtsp)) = some (some false) ∧
    (read_request ["SET_PARAMETERXYZ /rtsp://e/ RTSP/1.0\r\n\r\n".toList]).map
      (fun o => o.map (fun r => r.is_rtsp)) = some (some false) := by
  decide

end Httpxy

namespace Httpxy

/-- An accepted request has gone through `sscanf` with two conversions. -/
theorem parse_accept_sscanf (request : List Char) (t : Target)
    (hacc : parse_http_request request = some (0, t)) :
    (sscanf_method_url request).1 = 2 ∧ t.method = (sscanf_method_url request).2.1 ∧
    t.url.length ≤ 2047 := by
  have h2 : (sscanf_method_url request).1 = 2 := by
    by_contra hn
    unfold parse_http_request at hacc
    rw [if_pos hn] at hacc
    simp at hacc
  obtain ⟨hp, _, hres⟩ := parse_accept_inv request t hacc
  have hk := parse_host_port_keeps _ _ _ _ hres
  refine ⟨h2, hk.1, ?_⟩
  rw [hk.2.1]
  simp only
  split <;> simp only [strncpy, List.length_take, MAX_URL_LEN] <;> omega

theorem scan_token_length (w : Nat) (s : List Char) : (scan_token w s).1.length ≤ w := by
  simp only [scan_token, List.length_take]
  omega

theorem sscanf_method_length (request : List Char) :
    (sscanf_method_url request).2.1.length ≤ 15 := by
  unfold sscanf_method_url
  simp only
  split
  · simp
  · split <;> exact scan_token_length 15 request

theorem host_header_length (host : List Char) (port : Int) :
    (host_header host port).length ≤ 299 := by
  unfold host_header
  split
  · simp only [snprintf, List.length_take]; omega
  · split <;> (simp only [snprintf, List.length_take]; omega)

/-- A text that holds `N` has a first occurrence of `N`. -/
theorem strstr_append_isSome (N : List Char) : ∀ (a b : List Char), N.isPrefixOf b = true →
    (strstr (a ++ b) N).isSome = true := by
  intro a
  induction a with
  | nil =>
    intro b hb
    cases b with
    | nil =>
      have : N = [] := by
        rw [List.isPrefixOf_iff_prefix] at hb
        exact List.prefix_nil.mp hb
      simp [strstr, this]
    | cons c cs => simp [strstr, hb]
  | cons c cs ih =>
    intro b hb
    simp only [List.cons_append, strstr]
    split
    · rfl
    · have := ih b hb
      cases hs : strstr (cs ++ b) N with
      | none => rw [hs] at this; simp at this
      | some k => rfl

/-- The rewrite branch on a request without CR LF CR LF, as `read_request` returns them: the new
request line, the Host header and `Connection: close`, nothing else. -/
theorem rewrite_request_no_terminator (request method url host : List Char) (port : Int)
    (hreq : strstr request CRLFCRLF = none) (hm : method.length ≤ 15) (hu : url.length ≤ 2047) :
    rewrite_request request method url host port =
      some (method ++ " ".toList ++ url ++ " HTTP/1.1\r\n".toList ++ host_header host port ++
        "Connection: close\r\n\r\n".toList) := by
  have hh := host_header_length host port
  have hrl : (method ++ " ".toList ++ url ++ " HTTP/1.1\r\n".toList).length ≤ 2074 := by
    have h1 : " ".toList.length = 1 := rfl
    have h2 : " HTTP/1.1\r\n".toList.length = 11 := rfl
    simp only [List.length_append, h1, h2]
    omega
  have hc : "Connection: close\r\n\r\n".toList.length = 21 := rfl
  unfold rewrite_request
  simp only [hreq, snprintf]
  rw [List.take_of_length_le (by simp only [BUFFER_SIZE]; omega)]
  simp only [Option.some_bind]
  rw [strcat_eq, if_pos (by simp only [List.length_append, BUFFER_SIZE] at hrl ⊢; omega)]
  simp only [Option.some_bind]
  rw [strcat_eq, if_pos (by simp only [List.length_append, BUFFER_SIZE, hc] at hrl ⊢; omega)]
  rfl

end Httpxy

namespace Httpxy

/-- The first `send` to the target in a run of `handle_client` that gets to forwarding. -/
theorem handle_client_forwards (env : Env) (r : ReadResult) (t : Target) (fd : Nat)
    (bytes : List Char)
    (hread : read_request env.client_rx = some (some r))
    (hparse : parse_http_request (cstr r.buffer) = some (0, t))
    (hhost : t.host ≠ [])
    (hconn : (connect_to_target env.resolve t.host t.port).1 = some fd)
    (hfwd : forward_bytes (cstr r.buffer) r.is_rtsp t = some bytes) :
    handle_client env =
      some ⟨(connect_to_target env.resolve t.host t.port).2 ++
          [Event.send (Sock.target fd) bytes] ++
          (relay_loop env.ticks r.rx env.target_rx fd).1 ++
          (if (relay_loop env.ticks r.rx env.target_rx fd).2 then
            [Event.close (Sock.target fd), Event.close Sock.client] else []),
        (relay_loop env.ticks r.rx env.target_rx fd).2⟩ := by
  unfold handle_client
  rw [hread]
  simp only [Option.some_bind, hparse]
  rw [if_neg (by decide), if_neg (by
    intro h0
    exact hhost (List.length_eq_zero.mp h0))]
  simp only [hconn, hfwd, Option.some_bind]

/-- Claim C17 as stated fails: a GET request whose path starts with `/rtsp://` has the flag 0
and is still forwarded as it was read, without new request line and without Host header. -/
theorem C17_counterexample :
    (read_request ["GET /rtsp://example.com/x RTSP/1.0\r\nCSeq: 1\r\n\r\n".toList]).map
      (fun o => o.map (fun r => r.is_rtsp)) = some (some false) ∧
    handle_client
      { client_rx := ["GET /rtsp://example.com/x RTSP/1.0\r\nCSeq: 1\r\n\r\n".toList],
        resolve := fun _ _ => some [{ sfd := some 5, connects := true }],
        target_rx := [],
        ticks := [{ select := SelectResult.ready true false, send_target := 0, send_client := 0 }] } =
      some ⟨[Event.getaddrinfo "example.com".toList "80".toList, Event.connect 5,
             Event.send (Sock.target 5) "GET /rtsp://example.com/x RTSP/1.0\r\nCSeq: 1".toList,
             Event.close (Sock.target 5), Event.close Sock.client], true⟩ := by
  decide

/-- Claim C17, amended: `handle_client` forwards the request as it was read exactly when the
flag of `read_request` is 1 or the path token starts with `/rtsp://` (line 374); in every other
case the target gets the rewritten request, which differs from the request read. -/
theorem C17_mode_selection (env : Env) (r : ReadResult) (t : Target) (fd : Nat)
    (hread : read_request env.client_rx = some (some r))
    (hparse : parse_http_request (cstr r.buffer) = some (0, t))
    (hhost : t.host ≠ [])
    (hconn : (connect_to_target env.resolve t.host t.port).1 = some fd) :
    ∃ bytes run, forward_bytes (cstr r.buffer) r.is_rtsp t = some bytes ∧
      handle_client env = some run ∧ Event.send (Sock.target fd) bytes ∈ run.events ∧
      (bytes = cstr r.buffer ↔
        (r.is_rtsp = true ∨
          starts_with (sscanf_method_url (cstr r.buffer)).2.2 "/rtsp://".toList = true)) ∧
      (¬ (r.is_rtsp = true ∨
          starts_with (sscanf_method_url (cstr r.buffer)).2.2 "/rtsp://".toList = true) →
        bytes = t.method ++ " ".toList ++ t.url ++ " HTTP/1.1\r\n".toList ++
          host_header t.host t.port ++ "Connection: close\r\n\r\n".toList) := by
  obtain ⟨hsc, hmeth, hurl⟩ := parse_accept_sscanf _ t hparse
  have hnoterm := (read_request_returns _ r hread).2.1
  have hmlen : t.method.length ≤ 15 := by
    rw [hmeth]
    exact sscanf_method_length _
  by_cases hcond : (r.is_rtsp = true ∨
      starts_with (sscanf_method_url (cstr r.buffer)).2.2 "/rtsp://".toList = true)
  · have hfwd : forward_bytes (cstr r.buffer) r.is_rtsp t = some (cstr r.buffer) := by
      unfold forward_bytes
      simp only [hsc, if_true]
      rw [if_pos (by simpa using hcond)]
    refine ⟨_, _, hfwd, handle_client_forwards env r t fd _ hread hparse hhost hconn hfwd,
      by simp, ?_, fun h => absurd hcond h⟩
    exact ⟨fun _ => hcond, fun _ => rfl⟩
  · have hrw := rewrite_request_no_terminator (cstr r.buffer) t.method t.url t.host t.port
      hnoterm hmlen hurl
    have hfwd : forward_bytes (cstr r.buffer) r.is_rtsp t =
        some (t.method ++ " ".toList ++ t.url ++ " HTTP/1.1\r\n".toList ++
          host_header t.host t.port ++ "Connection: close\r\n\r\n".toList) := by
      unfold forward_bytes
      simp only [hsc, if_true]
      rw [if_neg (by simpa using hcond), ← hmeth, hrw]
    refine ⟨_, _, hfwd, handle_client_forwards env r t fd _ hread hparse hhost hconn hfwd,
      by simp, ?_, fun _ => rfl⟩
    constructor
    · intro heq
      exfalso
      have hsome := strstr_append_isSome CRLFCRLF
        (t.method ++ " ".toList ++ t.url ++ " HTTP/1.1\r\n".toList ++
          host_header t.host t.port ++ "Connection: close".toList) CRLFCRLF (by decide)
      have hsplit : "Connection: close\r\n\r\n".toList = "Connection: close".toList ++ CRLFCRLF := by
        decide
      rw [hsplit, ← List.append_assoc] at heq
      rw [heq, hnoterm] at hsome
      simp at hsome
    · intro h
      exact absurd h hcond

/-- Witness of the amended C17: a GET request on an `/http://` path is rewritten. -/
theorem C17_witness :
    ∃ bytes run,
      forward_bytes "GET /http://example.com/x HTTP/1.1\r\nAccept: */*".toList false
        { method := "GET".toList, url := "/x".toList, host := "example.com".toList, port := 80 }
        = some bytes ∧
      handle_client
        { client_rx := ["GET /http://example.com/x HTTP/1.1\r\nAccept: */*\r\n\r\n".toList],
          resolve := fun _ _ => some [{ sfd := some 5, connects := true }],
          target_rx := [], ticks := [] } = some run ∧
      Event.send (Sock.target 5) bytes ∈ run.events ∧
      (bytes = "GET /http://example.com/x HTTP/1.1\r\nAccept: */*".toList ↔
        (false = true ∨ starts_with "/http://example.com/x".toList "/rtsp://".toList = true)) ∧
      (¬ (false = true ∨ starts_with "/http://example.com/x".toList "/rtsp://".toList = true) →
        bytes = "GET /x HTTP/1.1\r\nHost: example.com\r\nConnection: close\r\n\r\n".toList) :=
  C17_mode_selection
    { client_rx := ["GET /http://example.com/x HTTP/1.1\r\nAccept: */*\r\n\r\n".toList],
      resolve := fun _ _ => some [{ sfd := some 5, connects := true }],
      target_rx := [], ticks := [] }
    { buffer := "GET /http://example.com/x HTTP/1.1\r\nAccept: */*".toList ++
        [NUL, Char.ofNat 10, Char.ofNat 13, Char.ofNat 10],
      is_rtsp := false, rx := [] }
    { method := "GET".toList, url := "/x".toList, host := "example.com".toList, port := 80 }
    5 (by decide) (by decide) (by decide) (by decide)

end Httpxy

namespace Httpxy

/-- The permits are never more than the ceiling: the value of the semaphore, the permit that
the parent holds between `sem_wait` and `fork`, and the children in flight. -/
theorem gate_invariant (s0 s : Gate)
    (h0 : s0.sem + (if s0.held then 1 else 0) + s0.children ≤ MAX_CONCURRENT)
    (hr : GateReach s0 s) :
    s.sem + (if s.held then 1 else 0) + s.children ≤ MAX_CONCURRENT := by
  induction hr with
  | start => exact h0
  | step s s1 a _ hs ih =>
    cases hs with
    | sem_wait_ok hs hh =>
      simp only [hh, Bool.false_eq_true, if_false] at ih
      simp only [if_true]
      omega
    | sem_wait_fail hh => exact ih
    | fork_fail hh =>
      simp only [hh, if_true] at ih
      simp only [Bool.false_eq_true, if_false]
      omega
    | fork_child hh =>
      simp only [hh, if_true] at ih
      simp only [Bool.false_eq_true, if_false]
      omega
    | child_exit hc =>
      simp only
      split at ih <;> split <;> simp_all <;> omega
    | child_killed hc =>
      simp only
      split at ih <;> split <;> simp_all <;> omega

/-- Claim C18. From the state in which `init_semaphore` leaves a new semaphore, and from every
state whose permits are within the ceiling, every state that the accept loop and its children
can get to has at most `MAX_CONCURRENT = 50` pipelines in flight; with 50 in flight the
semaphore is 0, `sem_wait` cannot return (the next acquisition is blocked), and once a child
has posted the semaphore it can. -/
theorem C18_concurrency_ceiling (s0 s : Gate)
    (h0 : s0.sem + (if s0.held then 1 else 0) + s0.children ≤ MAX_CONCURRENT)
    (hr : GateReach s0 s) :
    s.children ≤ MAX_CONCURRENT ∧
    (s.children = MAX_CONCURRENT →
      s.sem = 0 ∧
      (∀ s1, ¬ GateStep s GateAction.sem_wait_ok s1) ∧
      (∀ s1, GateStep s GateAction.child_exit s1 →
        s1.children = MAX_CONCURRENT - 1 ∧ ∃ s2, GateStep s1 GateAction.sem_wait_ok s2)) := by
  have hinv := gate_invariant s0 s h0 hr
  constructor
  · omega
  · intro h50
    have hsem : s.sem = 0 := by omega
    have hheld : s.held = false := by
      cases hh : s.held with
      | false => rfl
      | true => simp only [hh, if_true] at hinv; omega
    refine ⟨hsem, ?_, ?_⟩
    · intro s1 hstep
      cases hstep with
      | sem_wait_ok hs hh => omega
    · intro s1 hstep
      cases hstep with
      | child_exit hc =>
        refine ⟨by simp only; omega, ?_⟩
        exact ⟨_, GateStep.sem_wait_ok _ (by simp only; omega) (by simp only; exact hheld)⟩

/-- From the new semaphore the loop can fill the gate: `n` children in flight and `50 - n`
permits left, for every `n` up to 50. -/
theorem gate_reach_fill (n : Nat) (hn : n ≤ MAX_CONCURRENT) :
    GateReach gate_init { sem := MAX_CONCURRENT - n, held := false, children := n } := by
  induction n with
  | zero => exact GateReach.start
  | succ k ih =>
    have h1 := ih (by omega)
    have h2 := GateReach.step _ _ _ h1
      (GateStep.sem_wait_ok { sem := MAX_CONCURRENT - k, held := false, children := k }
        (by simp only; omega) rfl)
    have h3 := GateReach.step _ _ _ h2
      (GateStep.fork_child
        { sem := MAX_CONCURRENT - k - 1, held := true, children := k } rfl)
    have e : ({ sem := MAX_CONCURRENT - k - 1, held := false, children := k + 1 } : Gate) =
        { sem := MAX_CONCURRENT - (k + 1), held := false, children := k + 1 } := by
      congr 1
    rw [← e]
    exact h3

/-- Witness of C18: the state with 50 children in flight is reached from the new semaphore,
and there the next `sem_wait` is blocked. -/
theorem C18_witness :
    GateReach gate_init { sem := 0, held := false, children := 50 } ∧
    (∀ s1, ¬ GateStep { sem := 0, held := false, children := 50 } GateAction.sem_wait_ok s1) :=
  ⟨gate_reach_fill 50 (by decide),
   ((C18_concurrency_ceiling gate_init { sem := 0, held := false, children := 50 } (by decide)
      (gate_reach_fill 50 (by decide))).2 rfl).2.1⟩

end Httpxy

namespace Httpxy

/-! ## The relay loop -/

/-- `recv` delivers at most `len` bytes, and they are the next bytes that were pending. -/
theorem recv_spec (rx : List (List Char)) (len : Nat) :
    (recv rx len).1.length ≤ len ∧ (recv rx len).1 ++ (recv rx len).2.flatten = rx.flatten := by
  cases rx with
  | nil => simp [recv]
  | cons seg rest =>
    simp only [recv]
    split
    · rename_i h
      exact ⟨h, by simp⟩
    · constructor
      · simp only [List.length_take]
        omega
      · simp only [List.flatten_cons, ← List.append_assoc, List.take_append_drop]

/-- One direction of a relay turn. A socket that is not ready is left alone. On a ready socket
one `recv` of at most `BUFFER_SIZE` bytes is made; when it delivers nothing the loop ends and
nothing is sent, otherwise the bytes delivered are passed in one `send` to the other socket,
and the loop goes on exactly when that `send` returns a positive value. -/
theorem relay_dir_spec (ready : Bool) (rx : List (List Char)) (dst : Sock) (send_ret : Int) :
    relay_dir ready rx dst send_ret =
      if ready = false then ([], rx, true)
      else if (recv rx BUFFER_SIZE).1 = [] then ([], (recv rx BUFFER_SIZE).2, false)
      else ([Event.send dst (recv rx BUFFER_SIZE).1], (recv rx BUFFER_SIZE).2,
            decide (0 < send_ret)) := by
  unfold relay_dir
  cases ready with
  | false => simp
  | true =>
    simp only [Bool.not_true, Bool.false_eq_true, if_false]
    by_cases he : (recv rx BUFFER_SIZE).1 = []
    · simp [he]
    · have hl : ¬ (recv rx BUFFER_SIZE).1.length ≤ 0 := by
        intro h
        exact he (List.length_eq_zero.mp (by omega))
      rw [if_neg hl, if_neg he]
      by_cases hs : send_ret ≤ 0
      · rw [if_pos hs]
        have : decide (0 < send_ret) = false := by simp; omega
        rw [this]
        rfl
      · rw [if_neg hs]
        have : decide (0 < send_ret) = true := by simp; omega
        rw [this]
        rfl

/-- What one direction of a relay turn sends: nothing, or one `send` of 1 to `BUFFER_SIZE`
bytes; together with what stays pending these bytes are the input that was pending. -/
theorem relay_dir_bytes (ready : Bool) (rx : List (List Char)) (dst : Sock) (send_ret : Int) :
    ∃ chunk : List Char,
      chunk.length ≤ BUFFER_SIZE ∧
      chunk ++ (relay_dir ready rx dst send_ret).2.1.flatten = rx.flatten ∧
      (relay_dir ready rx dst send_ret).1 =
        (if chunk = [] then [] else [Event.send dst chunk]) := by
  rw [relay_dir_spec]
  obtain ⟨hlen, hfl⟩ := recv_spec rx BUFFER_SIZE
  cases ready with
  | false => exact ⟨[], by simp, by simp, by simp⟩
  | true =>
    simp only [Bool.true_eq_false, if_false]
    by_cases he : (recv rx BUFFER_SIZE).1 = []
    · rw [if_pos he]
      refine ⟨[], by simp, ?_, by simp⟩
      rw [he] at hfl
      simpa using hfl
    · rw [if_neg he]
      exact ⟨(recv rx BUFFER_SIZE).1, hlen, hfl, by simp [he]⟩

theorem sent_to_target_append (a b : List Event) :
    sent_to_target (a ++ b) = sent_to_target a ++ sent_to_target b := by
  induction a with
  | nil => rfl
  | cons e es ih =>
    cases e with
    | send s bytes =>
      cases s with
      | client => simpa [sent_to_target] using ih
      | target fd => simp [sent_to_target, ih]
    | getaddrinfo h p => simpa [sent_to_target] using ih
    | connect fd => simpa [sent_to_target] using ih
    | close s => simpa [sent_to_target] using ih

theorem sent_to_client_append (a b : List Event) :
    sent_to_client (a ++ b) = sent_to_client a ++ sent_to_client b := by
  induction a with
  | nil => rfl
  | cons e es ih =>
    cases e with
    | send s bytes =>
      cases s with
      | client => simp [sent_to_client, ih]
      | target fd => simpa [sent_to_client] using ih
    | getaddrinfo h p => simpa [sent_to_client] using ih
    | connect fd => simpa [sent_to_client] using ih
    | close s => simpa [sent_to_client] using ih

/-- The events of the relay loop are `send` calls only, each of 1 to `BUFFER_SIZE` bytes, to
the target or to the client; the bytes sent to the target are, in order, the first bytes
that were pending on the client socket, and the bytes sent to the client the first bytes that
were pending on the target socket. -/
theorem relay_loop_bytes : ∀ (ticks : List Tick) (crx trx : List (List Char)) (fd : Nat),
    (∀ e ∈ (relay_loop ticks crx trx fd).1, ∃ s bytes, e = Event.send s bytes ∧
      (s = Sock.target fd ∨ s = Sock.client) ∧ 0 < bytes.length ∧ bytes.length ≤ BUFFER_SIZE) ∧
    sent_to_target (relay_loop ticks crx trx fd).1 <+: crx.flatten ∧
    sent_to_client (relay_loop ticks crx trx fd).1 <+: trx.flatten := by
  intro ticks
  induction ticks with
  | nil =>
    intro crx trx fd
    simp [relay_loop, sent_to_target, sent_to_client]
  | cons t ts ih =>
    intro crx trx fd
    rw [relay_loop]
    cases hsel : t.select with
    | eintr => simpa using ih crx trx fd
    | error => simp [sent_to_target, sent_to_client]
    | ready c g =>
      simp only
      obtain ⟨ca, hca1, hca2, hca3⟩ := relay_dir_bytes c crx (Sock.target fd) t.send_target
      obtain ⟨cb, hcb1, hcb2, hcb3⟩ := relay_dir_bytes g
        (trx) Sock.client t.send_client
      -- the events of the two directions
      have hA : ∀ e ∈ (relay_dir c crx (Sock.target fd) t.send_target).1,
          ∃ s bytes, e = Event.send s bytes ∧
            (s = Sock.target fd ∨ s = Sock.client) ∧ 0 < bytes.length ∧
            bytes.length ≤ BUFFER_SIZE := by
        intro e he
        rw [hca3] at he
        by_cases hnil : ca = []
        · simp [hnil] at he
        · simp only [hnil, if_false, List.mem_singleton] at he
          exact ⟨_, ca, he, Or.inl rfl, List.length_pos.mpr hnil, hca1⟩
      have hB : ∀ e ∈ (relay_dir g trx Sock.client t.send_client).1,
          ∃ s bytes, e = Event.send s bytes ∧
            (s = Sock.target fd ∨ s = Sock.client) ∧ 0 < bytes.length ∧
            bytes.length ≤ BUFFER_SIZE := by
        intro e he
        rw [hcb3] at he
        by_cases hnil : cb = []
        · simp [hnil] at he
        · simp only [hnil, if_false, List.mem_singleton] at he
          exact ⟨_, cb, he, Or.inr rfl, List.length_pos.mpr hnil, hcb1⟩
      have hAt : sent_to_target (relay_dir c crx (Sock.target fd) t.send_target).1 = ca := by
        rw [hca3]
        by_cases hnil : ca = []
        · simp [hnil, sent_to_target]
        · simp [hnil, sent_to_target]
      have hAc : sent_to_client (relay_dir c crx (Sock.target fd) t.send_target).1 = [] := by
        rw [hca3]
        by_cases hnil : ca = []
        · simp [hnil, sent_to_client]
        · simp [hnil, sent_to_client]
      have hBt : sent_to_target (relay_dir g trx Sock.client t.send_client).1 = [] := by
        rw [hcb3]
        by_cases hnil : cb = []
        · simp [hnil, sent_to_target]
        · simp [hnil, sent_to_target]
      have hBc : sent_to_client (relay_dir g trx Sock.client t.send_client).1 = cb := by
        rw [hcb3]
        by_cases hnil : cb = []
        · simp [hnil, sent_to_client]
        · simp [hnil, sent_to_client]
      have hpa : ca <+: crx.flatten := ⟨_, hca2⟩
      have hpb : cb <+: trx.flatten := ⟨_, hcb2⟩
      split
      · -- the client direction ended the loop
        refine ⟨hA, ?_, ?_⟩
        · rw [hAt]; exact hpa
        · rw [hAc]; exact List.nil_prefix
      · split
        · -- the target direction ended the loop
          refine ⟨?_, ?_, ?_⟩
          · intro e he
            rcases List.mem_append.mp he with he | he
            · exact hA e he
            · exact hB e he
          · rw [sent_to_target_append, hAt, hBt, List.append_nil]; exact hpa
          · rw [sent_to_client_append, hAc, hBc, List.nil_append]; exact hpb
        · obtain ⟨ih1, ih2, ih3⟩ := ih (relay_dir c crx (Sock.target fd) t.send_target).2.1
            (relay_dir g trx Sock.client t.send_client).2.1 fd
          refine ⟨?_, ?_, ?_⟩
          · intro e he
            simp only [List.mem_append] at he
            rcases he with (he | he) | he
            · exact hA e he
            · exact hB e he
            · exact ih1 e he
          · simp only [sent_to_target_append, hAt, hBt, List.append_nil]
            rw [← hca2]
            exact (List.prefix_append_right_inj ca).mpr ih2
          · simp only [sent_to_client_append, hAc, hBc, List.nil_append]
            rw [← hcb2]
            exact (List.prefix_append_right_inj cb).mpr ih3

end Httpxy

namespace Httpxy

/-- The five ways in which `handle_client` returns, with the events of each: a failed read, a
refused request, an empty host, a failed connect, and the end of the relay loop. -/
theorem handle_client_paths (env : Env) (run : Run)
    (h : handle_client env = some run) (hret : run.returned = true) :
    run.events = [Event.close Sock.client] ∨
    run.events = [Event.send Sock.client err_bad_url, Event.close Sock.client] ∨
    run.events = [Event.send Sock.client err_bad_host, Event.close Sock.client] ∨
    (∃ host port, (connect_to_target env.resolve host port).1 = none ∧
      run.events = (connect_to_target env.resolve host port).2 ++
        [Event.send Sock.client err_bad_gateway, Event.close Sock.client]) ∨
    (∃ host port fd bytes relay, (connect_to_target env.resolve host port).1 = some fd ∧
      (∀ e ∈ relay, ∃ s b, e = Event.send s b) ∧
      run.events = (connect_to_target env.resolve host port).2 ++
        [Event.send (Sock.target fd) bytes] ++ relay ++
        [Event.close (Sock.target fd), Event.close Sock.client]) := by
  unfold handle_client at h
  cases hread : read_request env.client_rx with
  | none => rw [hread] at h; simp at h
  | some rr =>
    rw [hread] at h
    simp only [Option.some_bind] at h
    cases rr with
    | none =>
      simp only [Option.some.injEq] at h
      subst h
      exact Or.inl rfl
    | some r =>
      simp only at h
      cases hparse : parse_http_request (cstr r.buffer) with
      | none => rw [hparse] at h; simp at h
      | some pr =>
        rw [hparse] at h
        simp only [Option.some_bind] at h
        by_cases h1 : pr.1 = -1
        · rw [if_pos h1] at h
          simp only [Option.some.injEq] at h
          subst h
          exact Or.inr (Or.inl rfl)
        · rw [if_neg h1] at h
          by_cases h2 : pr.2.host.length = 0
          · rw [if_pos h2] at h
            simp only [Option.some.injEq] at h
            subst h
            exact Or.inr (Or.inr (Or.inl rfl))
          · rw [if_neg h2] at h
            cases hconn : (connect_to_target env.resolve pr.2.host pr.2.port).1 with
            | none =>
              simp only [hconn, Option.some.injEq] at h
              subst h
              exact Or.inr (Or.inr (Or.inr (Or.inl ⟨_, _, hconn, rfl⟩)))
            | some fd =>
              simp only [hconn] at h
              cases hfwd : forward_bytes (cstr r.buffer) r.is_rtsp pr.2 with
              | none => rw [hfwd] at h; simp at h
              | some bytes =>
                rw [hfwd] at h
                simp only [Option.some_bind, Option.some.injEq] at h
                subst h
                simp only at hret
                refine Or.inr (Or.inr (Or.inr (Or.inr
                  ⟨_, _, fd, bytes, (relay_loop env.ticks r.rx env.target_rx fd).1, hconn,
                    ?_, ?_⟩)))
                · intro e he
                  obtain ⟨s, b, hsb, _⟩ := (relay_loop_bytes env.ticks r.rx env.target_rx fd).1 e he
                  exact ⟨s, b, hsb⟩
                · simp only [hret, if_true]

theorem count_sem_post_io (l : List Event) :
    (l.map ProcEvent.io).count ProcEvent.sem_post = 0 := by
  rw [List.count_eq_zero]
  simp

/-- Claim C19. When `handle_client` returns, the last thing it has done is to close the client
socket; on the four paths on which `connect_to_target` was not called or returned `-1` it
has closed no socket but those that `connect_to_target` closed itself, and on the path through
the relay loop, where `connect_to_target` returned a socket, it has closed that socket. The
child then closes the client socket again, posts the semaphore once and exits. When `fork`
fails the parent posts the semaphore once. -/
theorem C19_exit_paths (env : Env) (run : Run)
    (h : handle_client env = some run) (hret : run.returned = true) :
    (∃ pre, run.events = pre ++ [Event.close Sock.client]) ∧
    (run.events = [Event.close Sock.client] ∨
     run.events = [Event.send Sock.client err_bad_url, Event.close Sock.client] ∨
     run.events = [Event.send Sock.client err_bad_host, Event.close Sock.client] ∨
     (∃ host port, (connect_to_target env.resolve host port).1 = none ∧
       run.events = (connect_to_target env.resolve host port).2 ++
         [Event.send Sock.client err_bad_gateway, Event.close Sock.client]) ∨
     (∃ host port fd bytes relay, (connect_to_target env.resolve host port).1 = some fd ∧
       (∀ e ∈ relay, ∃ s b, e = Event.send s b) ∧
       run.events = (connect_to_target env.resolve host port).2 ++
         [Event.send (Sock.target fd) bytes] ++ relay ++
         [Event.close (Sock.target fd), Event.close Sock.client])) ∧
    child_process env =
      some (ProcEvent.close_server :: run.events.map ProcEvent.io ++
        [ProcEvent.io (Event.close Sock.client), ProcEvent.sem_post, ProcEvent.exit], true) ∧
    (ProcEvent.close_server :: run.events.map ProcEvent.io ++
        [ProcEvent.io (Event.close Sock.client), ProcEvent.sem_post, ProcEvent.exit]).count
      ProcEvent.sem_post = 1 ∧
    (∀ (sem_wait_ret pid : Int), sem_wait_ret ≠ -1 → pid < 0 →
      parent_iteration sem_wait_ret pid =
        [ProcEvent.sem_wait, ProcEvent.fork, ProcEvent.sem_post,
         ProcEvent.io (Event.close Sock.client)] ∧
      (parent_iteration sem_wait_ret pid).count ProcEvent.sem_post = 1) := by
  have hp := handle_client_paths env run h hret
  refine ⟨?_, hp, ?_, ?_, ?_⟩
  · rcases hp with h1 | h1 | h1 | ⟨host, port, _, h1⟩ | ⟨host, port, fd, bytes, relay, _, _, h1⟩
    · exact ⟨[], by rw [h1]; rfl⟩
    · exact ⟨[Event.send Sock.client err_bad_url], by rw [h1]; rfl⟩
    · exact ⟨[Event.send Sock.client err_bad_host], by rw [h1]; rfl⟩
    · exact ⟨(connect_to_target env.resolve host port).2 ++
        [Event.send Sock.client err_bad_gateway], by rw [h1]; simp⟩
    · exact ⟨(connect_to_target env.resolve host port).2 ++
        [Event.send (Sock.target fd) bytes] ++ relay ++ [Event.close (Sock.target fd)],
        by rw [h1]; simp⟩
  · unfold child_process
    rw [h]
    simp only [Option.map_some', hret, if_true]
  · rw [List.count_append, List.count_cons, count_sem_post_io]
    decide
  · intro ret pid hr hpid
    have e : parent_iteration ret pid =
        [ProcEvent.sem_wait, ProcEvent.fork, ProcEvent.sem_post,
         ProcEvent.io (Event.close Sock.client)] := by
      unfold parent_iteration
      rw [if_neg hr, if_pos hpid]
    rw [e]
    exact ⟨rfl, by decide⟩

/-- Witness of C19: a request with an unsupported scheme; the child posts the semaphore once. -/
theorem C19_witness :
    child_process
      { client_rx := ["GET /ftp://example.com/ HTTP/1.1\r\n\r\n".toList],
        resolve := fun _ _ => none, target_rx := [], ticks := [] } =
      some ([ProcEvent.close_server, ProcEvent.io (Event.send Sock.client err_bad_url),
             ProcEvent.io (Event.close Sock.client), ProcEvent.io (Event.close Sock.client),
             ProcEvent.sem_post, ProcEvent.exit], true) :=
  (C19_exit_paths
    { client_rx := ["GET /ftp://example.com/ HTTP/1.1\r\n\r\n".toList],
      resolve := fun _ _ => none, target_rx := [], ticks := [] }
    ⟨[Event.send Sock.client err_bad_url, Event.close Sock.client], true⟩
    (by rfl) rfl).2.2.1

end Httpxy

namespace Httpxy

/-- One turn of the relay loop in which `select` reports ready sockets: the client direction
comes first, then the target direction; the turn ends the loop at the first `recv` that
delivers nothing and at the first `send` that returns a value `<= 0`, and what would have come
after it in the turn is not done. -/
theorem relay_loop_ready (t : Tick) (ts : List Tick) (crx trx : List (List Char)) (fd : Nat)
    (c g : Bool) (hsel : t.select = SelectResult.ready c g) :
    relay_loop (t :: ts) crx trx fd =
      if c = true ∧ (recv crx BUFFER_SIZE).1 = [] then ([], true)
      else if c = true ∧ t.send_target ≤ 0 then
        ([Event.send (Sock.target fd) (recv crx BUFFER_SIZE).1], true)
      else if g = true ∧ (recv trx BUFFER_SIZE).1 = [] then
        ((if c = true then [Event.send (Sock.target fd) (recv crx BUFFER_SIZE).1] else []), true)
      else if g = true ∧ t.send_client ≤ 0 then
        ((if c = true then [Event.send (Sock.target fd) (recv crx BUFFER_SIZE).1] else []) ++
          [Event.send Sock.client (recv trx BUFFER_SIZE).1], true)
      else
        ((if c = true then [Event.send (Sock.target fd) (recv crx BUFFER_SIZE).1] else []) ++
          (if g = true then [Event.send Sock.client (recv trx BUFFER_SIZE).1] else []) ++
          (relay_loop ts (if c = true then (recv crx BUFFER_SIZE).2 else crx)
            (if g = true then (recv trx BUFFER_SIZE).2 else trx) fd).1,
         (relay_loop ts (if c = true then (recv crx BUFFER_SIZE).2 else crx)
            (if g = true then (recv trx BUFFER_SIZE).2 else trx) fd).2) := by
  rw [relay_loop]
  simp only [hsel, relay_dir_spec]
  cases c <;> cases g <;>
    by_cases h1 : (recv crx BUFFER_SIZE).1 = [] <;>
    by_cases h2 : t.send_target ≤ 0 <;>
    by_cases h3 : (recv trx BUFFER_SIZE).1 = [] <;>
    by_cases h4 : t.send_client ≤ 0 <;>
    simp [h1, h2, h3, h4]

/-- Claim C20. In the relay loop every event is one `send` of 1 to `BUFFER_SIZE = 8192` bytes,
and the bytes that reach the target (the client) are, in order, the first bytes pending on the
client (the target) socket: what a `recv` delivered is passed on once and as it is. In a turn
the client direction is handled before the target direction. The loop ends with a `select`
error that is not `EINTR`, with the first `recv` that delivers nothing and with the first
`send` that returns a value `<= 0`; `EINTR` only starts the next turn. When the loop has
ended, `handle_client` closes the target socket and then the client socket. -/
theorem C20_relay_loop (ticks : List Tick) (crx trx : List (List Char)) (fd : Nat) :
    ((∀ e ∈ (relay_loop ticks crx trx fd).1, ∃ s bytes, e = Event.send s bytes ∧
        (s = Sock.target fd ∨ s = Sock.client) ∧ 0 < bytes.length ∧
        bytes.length ≤ BUFFER_SIZE) ∧
      sent_to_target (relay_loop ticks crx trx fd).1 <+: crx.flatten ∧
      sent_to_client (relay_loop ticks crx trx fd).1 <+: trx.flatten) ∧
    (∀ (t : Tick) (ts : List Tick),
      (t.select = SelectResult.error → relay_loop (t :: ts) crx trx fd = ([], true)) ∧
      (t.select = SelectResult.eintr →
        relay_loop (t :: ts) crx trx fd = relay_loop ts crx trx fd) ∧
      (∀ c g, t.select = SelectResult.ready c g →
        relay_loop (t :: ts) crx trx fd =
          if c = true ∧ (recv crx BUFFER_SIZE).1 = [] then ([], true)
          else if c = true ∧ t.send_target ≤ 0 then
            ([Event.send (Sock.target fd) (recv crx BUFFER_SIZE).1], true)
          else if g = true ∧ (recv trx BUFFER_SIZE).1 = [] then
            ((if c = true then [Event.send (Sock.target fd) (recv crx BUFFER_SIZE).1] else []),
              true)
          else if g = true ∧ t.send_client ≤ 0 then
            ((if c = true then [Event.send (Sock.target fd) (recv crx BUFFER_SIZE).1] else []) ++
              [Event.send Sock.client (recv trx BUFFER_SIZE).1], true)
          else
            ((if c = true then [Event.send (Sock.target fd) (recv crx BUFFER_SIZE).1] else []) ++
              (if g = true then [Event.send Sock.client (recv trx BUFFER_SIZE).1] else []) ++
              (relay_loop ts (if c = true then (recv crx BUFFER_SIZE).2 else crx)
                (if g = true then (recv trx BUFFER_SIZE).2 else trx) fd).1,
             (relay_loop ts (if c = true then (recv crx BUFFER_SIZE).2 else crx)
                (if g = true then (recv trx BUFFER_SIZE).2 else trx) fd).2))) ∧
    (∀ (rx : List (List Char)) (len : Nat),
      (recv rx len).1.length ≤ len ∧ (recv rx len).1 ++ (recv rx len).2.flatten = rx.flatten) ∧
    (∀ (env : Env) (r : ReadResult) (t : Target) (bytes : List Char),
      env.ticks = ticks → r.rx = crx → env.target_rx = trx →
      read_request env.client_rx = some (some r) →
      parse_http_request (cstr r.buffer) = some (0, t) → t.host ≠ [] →
      (connect_to_target env.resolve t.host t.port).1 = some fd →
      forward_bytes (cstr r.buffer) r.is_rtsp t = some bytes →
      (relay_loop ticks crx trx fd).2 = true →
      handle_client env =
        some ⟨(connect_to_target env.resolve t.host t.port).2 ++
            [Event.send (Sock.target fd) bytes] ++ (relay_loop ticks crx trx fd).1 ++
            [Event.close (Sock.target fd), Event.close Sock.client], true⟩) := by
  refine ⟨relay_loop_bytes ticks crx trx fd, ?_, recv_spec, ?_⟩
  · intro t ts
    refine ⟨?_, ?_, ?_⟩
    · intro h
      rw [relay_loop]
      simp only [h]
    · intro h
      rw [relay_loop]
      simp only [h]
    · intro c g h
      exact relay_loop_ready t ts crx trx fd c g h
  · intro env r t bytes ht hc htr hread hparse hhost hconn hfwd hend
    subst ht hc htr
    rw [handle_client_forwards env r t fd bytes hread hparse hhost hconn hfwd]
    simp only [hend, if_true]

/-- Witness of C20: two turns. In the first both sockets are ready, the client has 3 bytes and
the target 2; in the second the client is ready and its connection is closed. -/
theorem C20_witness :
    handle_client
      { client_rx := ["OPTIONS /rtsp://example.com/ RTSP/1.0\r\n\r\n".toList, "abc".toList],
        resolve := fun _ _ => some [{ sfd := some 5, connects := true }],
        target_rx := ["xy".toList],
        ticks := [{ select := SelectResult.ready true true, send_target := 3, send_client := 2 },
                  { select := SelectResult.eintr, send_target := 0, send_client := 0 },
                  { select := SelectResult.ready true false, send_target := 0, send_client := 0 }] } =
      some ⟨[Event.getaddrinfo "example.com".toList "80".toList, Event.connect 5,
             Event.send (Sock.target 5) "OPTIONS /rtsp://example.com/ RTSP/1.0".toList,
             Event.send (Sock.target 5) "abc".toList,
             Event.send Sock.client "xy".toList,
             Event.close (Sock.target 5), Event.close Sock.client], true⟩ :=
  (C20_relay_loop
    [{ select := SelectResult.ready true true, send_target := 3, send_client := 2 },
     { select := SelectResult.eintr, send_target := 0, send_client := 0 },
     { select := SelectResult.ready true false, send_target := 0, send_client := 0 }]
    ["abc".toList] ["xy".toList] 5).2.2.2
    { client_rx := ["OPTIONS /rtsp://example.com/ RTSP/1.0\r\n\r\n".toList, "abc".toList],
      resolve := fun _ _ => some [{ sfd := some 5, connects := true }],
      target_rx := ["xy".toList],
      ticks := [{ select := SelectResult.ready true true, send_target := 3, send_client := 2 },
                { select := SelectResult.eintr, send_target := 0, send_client := 0 },
                { select := SelectResult.ready true false, send_target := 0, send_client := 0 }] }
    { buffer := "OPTIONS /rtsp://example.com/ RTSP/1.0".toList ++
        [NUL, Char.ofNat 10, Char.ofNat 13, Char.ofNat 10],
      is_rtsp := true, rx := ["abc".toList] }
    { method := "OPTIONS".toList, url := "/".toList, host := "example.com".toList, port := 80 }
    "OPTIONS /rtsp://example.com/ RTSP/1.0".toList
    rfl rfl rfl (by decide) (by decide) (by decide) (by decide) (by decide) (by decide)

end Httpxy

namespace Httpxy

/-! ## The bound on `total_read` -/

/-- An occurrence that `strstr` finds lies inside the text. -/
theorem strstr_le (N : List Char) : ∀ (X : List Char) (p : Nat),
    strstr X N = some p → p + N.length ≤ X.length := by
  intro X
  induction X with
  | nil =>
    intro p h
    rw [strstr] at h
    split at h
    · rename_i hN
      simp only [Option.some.injEq] at h
      subst h
      simp [hN]
    · simp at h
  | cons c cs ih =>
    intro p h
    rw [strstr] at h
    split at h
    · rename_i hp
      simp only [Option.some.injEq] at h
      subst h
      rw [List.isPrefixOf_iff_prefix] at hp
      simpa using hp.length_le
    · cases hs : strstr cs N with
      | none => rw [hs] at h; simp at h
      | some k =>
        rw [hs] at h
        simp only [Option.map_some', Option.some.injEq] at h
        subst h
        have := ih k hs
        simp only [List.length_cons]
        omega

theorem cstr_length_le (mem : List Char) : (cstr mem).length ≤ mem.length :=
  (List.takeWhile_prefix _).length_le

/-- The header loop keeps `total_read` at most `sizeof(buffer) - 1`, never lowers it, and
leaves `headers_end` inside the bytes read. -/
theorem header_loop_bounds : ∀ (rx : List (List Char)) (buf buffer : List Char) (he : Nat)
    (rx1 : List (List Char)), header_loop rx buf = some (buffer, he, rx1) →
    buf.length ≤ buffer.length ∧ buffer.length ≤ 16383 ∧ he ≤ buffer.length := by
  intro rx
  induction rx with
  | nil => intro buf buffer he rx1 h; simp [header_loop] at h
  | cons seg rest ih =>
    intro buf buffer he rx1 h
    rw [header_loop] at h
    split at h
    · simp at h
    · rename_i hfull
      simp only at h
      have hr := (recv_spec (seg :: rest) (BUFFER_SIZE * 2 - buf.length - 1)).1
      simp only [BUFFER_SIZE] at hfull hr
      split at h
      · simp at h
      · split at h
        · rename_i p hp
          simp only [Option.some.injEq, Prod.mk.injEq] at h
          obtain ⟨h1, h2, _⟩ := h
          subst h1 h2
          have hle := strstr_le CRLFCRLF _ _ hp
          have hc := cstr_length_le (buf ++ (recv (seg :: rest) (BUFFER_SIZE * 2 - buf.length - 1)).1)
          have h4 : CRLFCRLF.length = 4 := rfl
          simp only [List.length_set, List.length_append, BUFFER_SIZE] at hle hc ⊢
          omega
        · split at h
          · have := ih _ _ _ _ h
            simp only [List.length_append] at this
            omega
          · simp at h

/-- The body loop keeps `total_read` at most `sizeof(buffer) - 1` and never lowers it, whatever
the value of `remaining`. -/
theorem body_loop_bounds : ∀ (rx : List (List Char)) (buf : List Char) (remaining : Int),
    buf.length ≤ 16383 →
    buf.length ≤ (body_loop rx buf remaining).1.length ∧
    (body_loop rx buf remaining).1.length ≤ 16383 := by
  intro rx
  induction rx with
  | nil => intro buf remaining hb; simpa [body_loop] using hb
  | cons seg rest ih =>
    intro buf remaining hb
    rw [body_loop]
    split
    · rename_i hc
      simp only
      have hr := (recv_spec (seg :: rest)
        (min remaining.toNat (BUFFER_SIZE * 2 - buf.length - 1))).1
      have hmin : min remaining.toNat (BUFFER_SIZE * 2 - buf.length - 1) ≤
          BUFFER_SIZE * 2 - buf.length - 1 := Nat.min_le_right _ _
      simp only [BUFFER_SIZE] at hc hr hmin
      split
      · exact ⟨le_refl _, hb⟩
      · split
        · have := ih (buf ++ (recv (seg :: rest)
            (min remaining.toNat (BUFFER_SIZE * 2 - buf.length - 1))).1)
            (remaining - ((recv (seg :: rest)
              (min remaining.toNat (BUFFER_SIZE * 2 - buf.length - 1))).1.length : Int))
            (by simp only [List.length_append, BUFFER_SIZE]; omega)
          simp only [List.length_append] at this
          simp only [BUFFER_SIZE] at this ⊢
          omega
        · simp only [List.length_append, BUFFER_SIZE]
          omega
    · exact ⟨le_refl _, hb⟩

/-- A text without `N` has no prefix with `N`. -/
theorem strstr_append_none (N : List Char) (hN : N ≠ []) : ∀ (a t : List Char),
    strstr (a ++ t) N = none → strstr a N = none := by
  intro a
  induction a with
  | nil => intro t _; simp [strstr, hN]
  | cons c cs ih =>
    intro t h
    simp only [List.cons_append] at h
    rw [strstr] at h
    split at h
    · simp at h
    · rename_i hnp
      cases hs : strstr (cs ++ t) N with
      | some k => rw [hs] at h; simp at h
      | none =>
        rw [strstr, if_neg, ih t hs]
        · rfl
        · intro hp
          apply hnp
          rw [List.isPrefixOf_iff_prefix] at hp ⊢
          exact hp.trans ⟨t, rfl⟩

theorem cstr_append_left (a t : List Char) : ∃ u, cstr (a ++ t) = cstr a ++ u := by
  induction a with
  | nil => exact ⟨cstr t, rfl⟩
  | cons c cs ih =>
    by_cases hc : c = NUL
    · subst hc
      exact ⟨[], by simp [cstr_cons_nul]⟩
    · obtain ⟨u, hu⟩ := ih
      exact ⟨u, by rw [List.cons_append, cstr_cons_ne c _ hc, cstr_cons_ne c _ hc, hu]; rfl⟩

/-- The header loop returns NULL when the C string of the first `sizeof(buffer) - 1` bytes, those
already read and those pending, holds no CR LF CR LF. -/
theorem header_loop_none : ∀ (rx : List (List Char)) (buf : List Char),
    strstr (cstr ((buf ++ rx.flatten).take 16383)) CRLFCRLF = none →
    header_loop rx buf = none := by
  intro rx
  induction rx with
  | nil => intro buf _; rfl
  | cons seg rest ih =>
    intro buf h
    have hN : CRLFCRLF ≠ [] := by decide
    rw [header_loop]
    split
    · rfl
    · rename_i hfull
      simp only
      simp only [BUFFER_SIZE] at hfull
      split
      · rfl
      · have hpre : ∃ t, (buf ++ (seg :: rest).flatten).take 16383 =
            buf ++ (recv (seg :: rest) (BUFFER_SIZE * 2 - buf.length - 1)).1 ++ t := by
          simp only [recv, BUFFER_SIZE]
          split
          · rename_i hs
            refine ⟨(rest.flatten).take (16383 - buf.length - seg.length), ?_⟩
            simp only [List.flatten_cons]
            rw [← List.append_assoc, List.take_append_eq_append_take,
              List.take_of_length_le (by simp only [List.length_append]; omega)]
            simp only [List.length_append]
            congr 2
            omega
          · rename_i hs
            refine ⟨[], ?_⟩
            simp only [List.flatten_cons, List.append_nil]
            rw [List.take_append_eq_append_take, List.take_of_length_le (by omega),
              List.take_append_eq_append_take]
            have : 16383 - buf.length - seg.length = 0 := by omega
            rw [this]
            simp only [List.take_zero, List.append_nil]
            congr 2
            omega
        obtain ⟨t, ht⟩ := hpre
        obtain ⟨u, hu⟩ := cstr_append_left
          (buf ++ (recv (seg :: rest) (BUFFER_SIZE * 2 - buf.length - 1)).1) t
        have hnone : strstr (cstr (buf ++ (recv (seg :: rest)
            (BUFFER_SIZE * 2 - buf.length - 1)).1)) CRLFCRLF = none := by
          apply strstr_append_none CRLFCRLF hN _ u
          rw [← hu, ← ht]
          exact h
        rw [hnone]
        simp only
        split
        · rename_i hs
          apply ih
          have hrecv : (recv (seg :: rest) (BUFFER_SIZE * 2 - buf.length - 1)).1 = seg := by
            simp only [recv]
            rw [if_pos hs]
          rw [hrecv, List.append_assoc]
          simpa using h
        · rfl

/-- `read_request` hands back at most `sizeof(buffer) - 1` bytes. -/
theorem read_request_bounds (rx : List (List Char)) (r : ReadResult)
    (h : read_request rx = some (some r)) : r.buffer.length ≤ 16383 := by
  unfold read_request at h
  cases hh : header_loop rx [] with
  | none => rw [hh] at h; simp at h
  | some res =>
    obtain ⟨buffer, he, rx1⟩ := res
    rw [hh] at h
    simp only at h
    obtain ⟨_, hb, _⟩ := header_loop_bounds rx [] buffer he rx1 hh
    split at h
    · simp only [Option.some.injEq] at h
      rw [← h]
      exact hb
    · cases hcl : content_length (cstr buffer) with
      | none => rw [hcl] at h; simp at h
      | some cl =>
        rw [hcl] at h
        simp only at h
        split at h
        · simp at h
        · simp only [Option.some.injEq] at h
          rw [← h]
          exact (body_loop_bounds rx1 buffer _ hb).2

/-- A text without CR holds no CR LF CR LF. -/
theorem strstr_no_cr : ∀ (X : List Char), (∀ c ∈ X, c ≠ Char.ofNat 13) →
    strstr X CRLFCRLF = none := by
  intro X
  induction X with
  | nil => intro _; rfl
  | cons c cs ih =>
    intro h
    have hc : c ≠ Char.ofNat 13 := h c (List.mem_cons_self c cs)
    rw [strstr, if_neg, ih (fun d hd => h d (List.mem_cons_of_mem c hd))]
    · rfl
    · intro hp
      apply hc
      simp only [CRLFCRLF, CRLF, List.cons_append, List.nil_append, List.isPrefixOf,
        Bool.and_eq_true, beq_iff_eq] at hp
      exact hp.1.symm

/-- Requests with a Content-Length that is negative, and larger than what the client sends: the
body loop is not entered, or it ends when the input does. -/
theorem total_read_examples :
    read_request ["POST /http://h/ HTTP/1.1\r\nContent-Length: -5\r\n\r\nab".toList,
        "cd".toList] =
      some (some ⟨"POST /http://h/ HTTP/1.1\r\nContent-Length: -5".toList ++
        [NUL, Char.ofNat 10, Char.ofNat 13, Char.ofNat 10] ++ "ab".toList, false,
        ["cd".toList]⟩) ∧
    read_request ["POST /http://h/ HTTP/1.1\r\nContent-Length: 99999\r\n\r\nab".toList,
        "cd".toList, "ef".toList] =
      some (some ⟨"POST /http://h/ HTTP/1.1\r\nContent-Length: 99999".toList ++
        [NUL, Char.ofNat 10, Char.ofNat 13, Char.ofNat 10] ++ "abcdef".toList, false, []⟩) := by
  decide

/-- Claim C23. In `read_request` the number `total_read` of bytes in the buffer stays between 0
and 16383 = `sizeof(buffer) - 1`: `recv` delivers at most the length asked for; the header loop,
entered with any `total_read`, ends with at most 16383 bytes and with `headers_end` inside
them; the body loop, entered with at most 16383 bytes, never lowers `total_read` and ends with
at most 16383 bytes for every value of `remaining`, so for every Content-Length, negative or
larger than the buffer; the buffer handed back has at most 16383 bytes, so the NUL written
after them is inside the 16384 bytes; and NULL is returned when the first 16383 bytes hold no
CR LF CR LF. -/
theorem C23_total_read_bounded (rx : List (List Char)) (buf : List Char) (remaining : Int)
    (len : Nat) (hbuf : buf.length ≤ 16383) :
    BUFFER_SIZE * 2 - 1 = 16383 ∧
    (recv rx len).1.length ≤ len ∧
    (∀ buffer he rx1, header_loop rx buf = some (buffer, he, rx1) →
      buf.length ≤ buffer.length ∧ buffer.length ≤ 16383 ∧ he ≤ buffer.length) ∧
    (buf.length ≤ (body_loop rx buf remaining).1.length ∧
      (body_loop rx buf remaining).1.length ≤ 16383) ∧
    (∀ r, read_request rx = some (some r) → r.buffer.length ≤ 16383) ∧
    (strstr (cstr (rx.flatten.take 16383)) CRLFCRLF = none → read_request rx = some none) := by
  refine ⟨rfl, (recv_spec rx len).1, fun buffer he rx1 h => header_loop_bounds rx buf buffer he rx1 h,
    body_loop_bounds rx buf remaining hbuf, fun r h => read_request_bounds rx r h, ?_⟩
  intro h
  unfold read_request
  rw [header_loop_none rx [] (by simpa using h)]

/-- Witness of C23: one segment of 20000 bytes without CR. The body loop entered on it with the
largest `remaining` stops at 16383 bytes, and `read_request` returns NULL. -/
theorem C23_witness :
    ([] : List Char).length ≤ 16383 ∧
    (body_loop [List.replicate 20000 'a'] [] 2147483647).1.length ≤ 16383 ∧
    read_request [List.replicate 20000 'a'] = some none :=
  have h := C23_total_read_bounded [List.replicate 20000 'a'] [] 2147483647 16383 (by decide)
  ⟨by decide, h.2.2.2.1.2, h.2.2.2.2.2 (strstr_no_cr _ (by
    intro c hc
    have h1 := List.mem_of_mem_take ((List.takeWhile_prefix _).subset hc)
    simp only [List.flatten_cons, List.flatten_nil, List.append_nil, List.mem_replicate] at h1
    rw [h1.2]
    decide))⟩

end Httpxy

namespace Httpxy

/-! ## The copy into `host_port` -/

set_option maxRecDepth 100000 in
/-- An authority of 511 characters is the longest that `host_port[512]` of `src/httpxy.c` holds,
and one of 255 characters the longest that `host_port[256]` of `src/httpproxy.c` holds. -/
theorem host_port_fits_examples :
    parse_http_request
        ("GET /http://".toList ++ List.replicate 511 'a' ++ "/ HTTP/1.1".toList) =
      some (0, ⟨"GET".toList, "/".toList, List.replicate 255 'a', 80⟩) ∧
    Httpproxy.parse_http_request
        ("GET /http://".toList ++ List.replicate 255 'a' ++ "/ HTTP/1.1".toList) =
      some (0, ⟨"GET".toList, "/".toList, List.replicate 255 'a', 80⟩) :=
  ⟨by rfl, by rfl⟩

set_option maxRecDepth 100000 in
/-- Claim C22 at the failing inputs: request lines that `sscanf` accepts, with an authority of
512 characters for `src/httpxy.c` and of 256 characters for `src/httpproxy.c`. The path token
has 521 and 265 characters, `host_len` is 512 and 256, and `host_port[host_len] = 0` is a write
past the end of `host_port[512]` and of `host_port[256]`: the behaviour is undefined, where the
claim has `host_len` at most 511 and 255. -/
theorem C22_host_port_overflow :
    sscanf_method_url
        ("GET /http://".toList ++ List.replicate 512 'a' ++ "/ HTTP/1.1".toList) =
      (2, "GET".toList, "/http://".toList ++ List.replicate 512 'a' ++ "/".toList) ∧
    parse_http_request
        ("GET /http://".toList ++ List.replicate 512 'a' ++ "/ HTTP/1.1".toList) = none ∧
    sscanf_method_url
        ("GET /http://".toList ++ List.replicate 256 'a' ++ "/ HTTP/1.1".toList) =
      (2, "GET".toList, "/http://".toList ++ List.replicate 256 'a' ++ "/".toList) ∧
    Httpproxy.parse_http_request
        ("GET /http://".toList ++ List.replicate 256 'a' ++ "/ HTTP/1.1".toList) = none :=
  ⟨by rfl, by rfl, by rfl, by rfl⟩

end Httpxy

namespace Httpxy

/-! ## The terminator that the reader overwrites -/

/-- The buffer that the header loop leaves, with whatever the body loop appends: its C string
holds no CR LF CR LF. -/
theorem header_loop_no_terminator (rx : List (List Char)) (buf buffer : List Char) (he : Nat)
    (rx1 : List (List Char)) (h : header_loop rx buf = some (buffer, he, rx1)) (e : List Char) :
    strstr (cstr (buffer ++ e)) CRLFCRLF = none := by
  obtain ⟨buf1, p, hb, _, hp⟩ := header_loop_found rx buf buffer he rx1 h
  have hN : CRLFCRLF ≠ [] := by decide
  rw [hb, cstr_set_nul buf1 p (strstr_lt CRLFCRLF hN _ _ hp) e]
  exact strstr_take_none CRLFCRLF hN _ _ hp

/-- The request that `read_http_request` of `src/httpproxy.c` returns holds no CR LF CR LF. -/
theorem read_http_request_no_terminator (rx : List (List Char)) (buffer : List Char)
    (rx1 : List (List Char)) (h : Httpproxy.read_http_request rx = some (some (buffer, rx1))) :
    strstr (cstr buffer) CRLFCRLF = none := by
  unfold Httpproxy.read_http_request at h
  cases hh : header_loop rx [] with
  | none => rw [hh] at h; simp at h
  | some res =>
    obtain ⟨b0, he, r0⟩ := res
    rw [hh] at h
    simp only at h
    cases hcl : content_length (cstr b0) with
    | none => rw [hcl] at h; simp at h
    | some cl =>
      rw [hcl] at h
      simp only at h
      split at h
      · simp at h
      · simp only [Option.some.injEq] at h
        obtain ⟨e, hee⟩ := body_loop_append r0 b0 (cl - ((b0.length : Int) - (he : Int)))
        have hbuf : buffer = b0 ++ e := by rw [← hee, h]
        rw [hbuf]
        exact header_loop_no_terminator rx [] b0 he r0 hh e

/-- The request that `read_http_request` of the single-process program returns holds no
CR LF CR LF. -/
theorem read_http_request_single_no_terminator (rx : List (List Char)) (buffer : List Char)
    (rx1 : List (List Char))
    (h : HttpproxySingle.read_http_request rx = some (some (buffer, rx1))) :
    strstr (cstr buffer) CRLFCRLF = none := by
  unfold HttpproxySingle.read_http_request at h
  cases hh : header_loop rx [] with
  | none => rw [hh] at h; simp at h
  | some res =>
    obtain ⟨b0, he, r0⟩ := res
    rw [hh] at h
    simp only at h
    cases hcl : content_length (cstr b0) with
    | none => rw [hcl] at h; simp at h
    | some cl =>
      rw [hcl] at h
      simp only at h
      split at h
      · simp only [Option.some.injEq] at h
        obtain ⟨e, hee⟩ := body_loop_append r0 b0 (cl - ((b0.length : Int) - (he : Int)))
        have hbuf : buffer = b0 ++ e := by rw [← hee, h]
        rw [hbuf]
        exact header_loop_no_terminator rx [] b0 he r0 hh e
      · simp only [Option.some.injEq, Prod.mk.injEq] at h
        have := header_loop_no_terminator rx [] b0 he r0 hh []
        rw [List.append_nil, h.1] at this
        exact this

theorem host_header_two_length (host : List Char) (port : Int) :
    (Httpproxy.host_header host port).length ≤ 299 := by
  unfold Httpproxy.host_header
  split <;> (simp only [snprintf, List.length_take]; omega)

/-- What `parse_host_port` of `src/httpproxy.c` leaves of the target it is given. -/
theorem parse_host_port_two_keeps (hp : List Char) (t0 t : Target) (r : Int)
    (h : Httpproxy.parse_host_port hp t0 = some (r, t)) :
    t.method = t0.method ∧ t.url = t0.url := by
  unfold Httpproxy.parse_host_port at h
  split at h
  · simp only at h
    split at h
    · simp at h
    · simp only [Option.some.injEq, Prod.mk.injEq] at h
      rw [← h.2]
      exact ⟨rfl, rfl⟩
  · simp only [Option.some.injEq, Prod.mk.injEq] at h
    rw [← h.2]
    exact ⟨rfl, rfl⟩

/-- A request that `parse_http_request` of `src/httpproxy.c` accepts: the method is the first
token of `sscanf`, at most 15 characters, and the url has at most 2047. -/
theorem parse_accept_two (request : List Char) (t : Target)
    (hacc : Httpproxy.parse_http_request request = some (0, t)) :
    t.method.length ≤ 15 ∧ t.url.length ≤ 2047 := by
  unfold Httpproxy.parse_http_request at hacc
  simp only at hacc
  split at hacc
  · simp at hacc
  · split at hacc
    · simp at hacc
    · split at hacc
      · simp at hacc
      · rename_i hp _
        obtain ⟨hm, hu⟩ := parse_host_port_two_keeps _ _ _ _ hacc
        rw [hm, hu]
        refine ⟨sscanf_method_length request, ?_⟩
        simp only
        split <;> simp only [strncpy, List.length_take, MAX_URL_LEN] <;> omega

/-- The two embeddings of `parse_http_request` with `host_port[256]` agree. -/
theorem parse_single_eq (request : List Char) :
    HttpproxySingle.parse_http_request request = Httpproxy.parse_http_request request := by
  unfold HttpproxySingle.parse_http_request Httpproxy.parse_http_request
  simp only
  split
  · rfl
  · generalize starts_with (sscanf_method_url request).2.2 "/http://".toList = b
    cases b <;> rfl

/-- The rewrite of `src/httpproxy.c` on a request without CR LF CR LF. -/
theorem rewrite_two_no_terminator (request method url host : List Char) (port : Int)
    (hreq : strstr request CRLFCRLF = none) (hm : method.length ≤ 15) (hu : url.length ≤ 2047) :
    Httpproxy.rewrite_request request method url host port =
      some (method ++ " ".toList ++ url ++ " HTTP/1.1\r\n".toList ++
        Httpproxy.host_header host port ++ "Connection: close\r\n\r\n".toList) := by
  have hh := host_header_two_length host port
  have hrl : (method ++ " ".toList ++ url ++ " HTTP/1.1\r\n".toList).length ≤ 2074 := by
    have h1 : " ".toList.length = 1 := rfl
    have h2 : " HTTP/1.1\r\n".toList.length = 11 := rfl
    simp only [List.length_append, h1, h2]
    omega
  have hc : "Connection: close\r\n\r\n".toList.length = 21 := rfl
  unfold Httpproxy.rewrite_request
  simp only [hreq, snprintf]
  rw [List.take_of_length_le (by simp only [BUFFER_SIZE]; omega)]
  simp only [Option.some_bind]
  rw [strcat_eq, if_pos (by simp only [List.length_append, BUFFER_SIZE] at hrl ⊢; omega)]
  simp only [Option.some_bind]
  rw [strcat_eq, if_pos (by simp only [List.length_append, BUFFER_SIZE, hc] at hrl ⊢; omega)]
  rfl

/-- The rewrite of the single-process program on a request without CR LF CR LF. -/
theorem rewrite_single_no_terminator (request method url host : List Char) (port : Int)
    (hreq : strstr request CRLFCRLF = none) (hm : method.length ≤ 15) (hu : url.length ≤ 2047) :
    HttpproxySingle.rewrite_request request method url host port =
      some (method ++ " ".toList ++ url ++ " HTTP/1.1\r\n".toList ++
        Httpproxy.host_header host port ++ "Connection: close\r\n".toList ++ "\r\n".toList) := by
  have hh := host_header_two_length host port
  have hrl : (method ++ " ".toList ++ url ++ " HTTP/1.1\r\n".toList).length ≤ 2074 := by
    have h1 : " ".toList.length = 1 := rfl
    have h2 : " HTTP/1.1\r\n".toList.length = 11 := rfl
    simp only [List.length_append, h1, h2]
    omega
  have hc : "Connection: close\r\n".toList.length = 19 := rfl
  have hc2 : "\r\n".toList.length = 2 := rfl
  unfold HttpproxySingle.rewrite_request
  simp only [hreq, snprintf]
  rw [List.take_of_length_le (by simp only [BUFFER_SIZE]; omega)]
  simp only [Option.some_bind]
  rw [strcat_eq, if_pos (by simp only [List.length_append, BUFFER_SIZE] at hrl ⊢; omega)]
  simp only [Option.some_bind]
  rw [strcat_eq, if_pos (by simp only [List.length_append, BUFFER_SIZE, hc] at hrl ⊢; omega)]
  simp only [Option.some_bind]
  rw [strcat_eq, if_pos (by simp only [List.length_append, BUFFER_SIZE, hc, hc2] at hrl ⊢; omega)]
  rfl

/-- Claim C21. In the three programs the request that the reader returns holds no CR LF CR LF,
because the reader has put a NUL on the first byte of the terminator; so the search in
`handle_client` finds nothing. In `src/httpxy.c`, when the flag is 0 and the path token does
not start with `/rtsp://`, the one `send` of the request to the target carries the new request
line, the Host header and `Connection: close` with the empty line, and nothing else; in
`src/httpproxy.c` and in the single-process program, which rewrite every request, the text
sent is made in the same way of the request line, their Host header and `Connection: close`
with the empty line. -/
theorem C21_terminator_never_found :
    (∀ (rx : List (List Char)) (r : ReadResult), read_request rx = some (some r) →
      strstr (cstr r.buffer) CRLFCRLF = none) ∧
    (∀ (rx : List (List Char)) (buffer : List Char) (rx1 : List (List Char)),
      Httpproxy.read_http_request rx = some (some (buffer, rx1)) →
      strstr (cstr buffer) CRLFCRLF = none) ∧
    (∀ (rx : List (List Char)) (buffer : List Char) (rx1 : List (List Char)),
      HttpproxySingle.read_http_request rx = some (some (buffer, rx1)) →
      strstr (cstr buffer) CRLFCRLF = none) ∧
    (∀ (env : Env) (r : ReadResult) (t : Target) (fd : Nat),
      read_request env.client_rx = some (some r) →
      parse_http_request (cstr r.buffer) = some (0, t) →
      t.host ≠ [] →
      (connect_to_target env.resolve t.host t.port).1 = some fd →
      r.is_rtsp = false →
      starts_with (sscanf_method_url (cstr r.buffer)).2.2 "/rtsp://".toList = false →
      handle_client env =
        some ⟨(connect_to_target env.resolve t.host t.port).2 ++
            [Event.send (Sock.target fd)
              (t.method ++ " ".toList ++ t.url ++ " HTTP/1.1\r\n".toList ++
                host_header t.host t.port ++ "Connection: close\r\n\r\n".toList)] ++
            (relay_loop env.ticks r.rx env.target_rx fd).1 ++
            (if (relay_loop env.ticks r.rx env.target_rx fd).2 then
              [Event.close (Sock.target fd), Event.close Sock.client] else []),
          (relay_loop env.ticks r.rx env.target_rx fd).2⟩) ∧
    (∀ (rx : List (List Char)) (buffer : List Char) (rx1 : List (List Char)) (t : Target),
      Httpproxy.read_http_request rx = some (some (buffer, rx1)) →
      Httpproxy.parse_http_request (cstr buffer) = some (0, t) →
      Httpproxy.rewrite_request (cstr buffer) t.method t.url t.host t.port =
        some (t.method ++ " ".toList ++ t.url ++ " HTTP/1.1\r\n".toList ++
          Httpproxy.host_header t.host t.port ++ "Connection: close\r\n\r\n".toList)) ∧
    (∀ (rx : List (List Char)) (buffer : List Char) (rx1 : List (List Char)) (t : Target),
      HttpproxySingle.read_http_request rx = some (some (buffer, rx1)) →
      HttpproxySingle.parse_http_request (cstr buffer) = some (0, t) →
      HttpproxySingle.rewrite_request (cstr buffer) t.method t.url t.host t.port =
        some (t.method ++ " ".toList ++ t.url ++ " HTTP/1.1\r\n".toList ++
          Httpproxy.host_header t.host t.port ++ "Connection: close\r\n\r\n".toList)) := by
  refine ⟨fun rx r h => (read_request_returns rx r h).2.1,
    read_http_request_no_terminator, read_http_request_single_no_terminator, ?_, ?_, ?_⟩
  · intro env r t fd hread hparse hhost hconn hflag hpath
    obtain ⟨hsc, hmeth, hurl⟩ := parse_accept_sscanf _ t hparse
    have hnoterm := (read_request_returns _ r hread).2.1
    have hmlen : t.method.length ≤ 15 := by
      rw [hmeth]
      exact sscanf_method_length _
    have hrw := rewrite_request_no_terminator (cstr r.buffer) t.method t.url t.host t.port
      hnoterm hmlen hurl
    have hfwd : forward_bytes (cstr r.buffer) r.is_rtsp t =
        some (t.method ++ " ".toList ++ t.url ++ " HTTP/1.1\r\n".toList ++
          host_header t.host t.port ++ "Connection: close\r\n\r\n".toList) := by
      unfold forward_bytes
      simp only [hsc, if_true]
      rw [if_neg (by rw [hflag, hpath]; decide), ← hmeth, hrw]
    exact handle_client_forwards env r t fd _ hread hparse hhost hconn hfwd
  · intro rx buffer rx1 t hread hparse
    obtain ⟨hm, hu⟩ := parse_accept_two _ t hparse
    exact rewrite_two_no_terminator _ _ _ _ _
      (read_http_request_no_terminator rx buffer rx1 hread) hm hu
  · intro rx buffer rx1 t hread hparse
    rw [parse_single_eq] at hparse
    obtain ⟨hm, hu⟩ := parse_accept_two _ t hparse
    rw [rewrite_single_no_terminator _ _ _ _ _
      (read_http_request_single_no_terminator rx buffer rx1 hread) hm hu, List.append_assoc]
    rfl

/-- Witness of C21: a POST request with one header line, a Content-Length and a body of two
bytes, on each of the three programs. The target gets the request line, the Host header and
`Connection: close`; the line `Accept: */*` and the body `hi` are not in the text. -/
theorem C21_witness :
    handle_client
      { client_rx := ["POST /http://example.com:8080/x HTTP/1.1\r\nAccept: */*\r\nContent-Length: 2\r\n\r\nhi".toList],
        resolve := fun _ _ => some [{ sfd := some 5, connects := true }],
        target_rx := [], ticks := [] } =
      some ⟨[Event.getaddrinfo "example.com".toList "8080".toList, Event.connect 5,
             Event.send (Sock.target 5)
               "POST /x HTTP/1.1\r\nHost: example.com:8080\r\nConnection: close\r\n\r\n".toList],
        false⟩ ∧
    Httpproxy.rewrite_request
      "POST /http://example.com:8080/x HTTP/1.1\r\nAccept: */*\r\nContent-Length: 2".toList
      "POST".toList "/x".toList "example.com".toList 8080 =
      some "POST /x HTTP/1.1\r\nHost: example.com:8080\r\nConnection: close\r\n\r\n".toList ∧
    HttpproxySingle.rewrite_request
      "POST /http://example.com:8080/x HTTP/1.1\r\nAccept: */*\r\nContent-Length: 2".toList
      "POST".toList "/x".toList "example.com".toList 8080 =
      some "POST /x HTTP/1.1\r\nHost: example.com:8080\r\nConnection: close\r\n\r\n".toList :=
  ⟨C21_terminator_never_found.2.2.2.1
      { client_rx := ["POST /http://example.com:8080/x HTTP/1.1\r\nAccept: */*\r\nContent-Length: 2\r\n\r\nhi".toList],
        resolve := fun _ _ => some [{ sfd := some 5, connects := true }],
        target_rx := [], ticks := [] }
      { buffer := "POST /http://example.com:8080/x HTTP/1.1\r\nAccept: */*\r\nContent-Length: 2".toList ++
          [NUL, Char.ofNat 10, Char.ofNat 13, Char.ofNat 10] ++ "hi".toList,
        is_rtsp := false, rx := [] }
      { method := "POST".toList, url := "/x".toList, host := "example.com".toList, port := 8080 }
      5 (by rfl) (by rfl) (by decide) (by rfl) rfl (by rfl),
    C21_terminator_never_found.2.2.2.2.1
      ["POST /http://example.com:8080/x HTTP/1.1\r\nAccept: */*\r\nContent-Length: 2\r\n\r\nhi".toList]
      ("POST /http://example.com:8080/x HTTP/1.1\r\nAccept: */*\r\nContent-Length: 2".toList ++
          [NUL, Char.ofNat 10, Char.ofNat 13, Char.ofNat 10] ++ "hi".toList) []
      { method := "POST".toList, url := "/x".toList, host := "example.com".toList, port := 8080 }
      (by rfl) (by rfl),
    C21_terminator_never_found.2.2.2.2.2
      ["POST /http://example.com:8080/x HTTP/1.1\r\nAccept: */*\r\nContent-Length: 2\r\n\r\nhi".toList]
      ("POST /http://example.com:8080/x HTTP/1.1\r\nAccept: */*\r\nContent-Length: 2".toList ++
          [NUL, Char.ofNat 10, Char.ofNat 13, Char.ofNat 10] ++ "hi".toList) []
      { method := "POST".toList, url := "/x".toList, host := "example.com".toList, port := 8080 }
      (by rfl) (by rfl)⟩

end Httpxy

namespace Httpxy

/-! ## The default port and the authority -/

/-- When something stands between the scheme marker and the next slash, the string in
`host_port` is the authority. -/
theorem host_port_of_authority (request hp : List Char) (hne : authority request ≠ [])
    (hhp : host_port_of request = some hp) : hp = authority request := by
  unfold host_port_of copy_host_port strchr at hhp
  unfold authority at hne ⊢
  generalize target_url_of (sscanf_method_url request).2.2 = tu at hhp hne ⊢
  have hsplit := List.takeWhile_append_dropWhile (fun x => x != '/') tu
  have hpos : 0 < (List.takeWhile (fun x => x != '/') tu).length :=
    List.length_pos.mpr hne
  have htake : (List.takeWhile (fun x => x != '/') tu ++
      List.dropWhile (fun x => x != '/') tu).take
        (List.takeWhile (fun x => x != '/') tu).length =
      List.takeWhile (fun x => x != '/') tu := List.take_left' rfl
  rw [hsplit] at htake
  have hlen : (List.takeWhile (fun x => x != '/') tu).length +
      (List.dropWhile (fun x => x != '/') tu).length = tu.length := by
    rw [← List.length_append, hsplit]
  simp only at hhp
  cases hd : List.dropWhile (fun x => x != '/') tu with
  | nil =>
    rw [hd] at hhp hlen
    simp only [List.length_nil, Nat.add_zero] at hlen
    simp only at hhp
    rw [← hlen, if_pos hpos] at hhp
    split at hhp
    · simp at hhp
    · simp only [Option.some.injEq] at hhp
      rw [← hhp, htake]
  | cons a as =>
    rw [hd] at hhp hlen
    simp only at hhp
    have hl : tu.length - (a :: as).length = (List.takeWhile (fun x => x != '/') tu).length := by
      omega
    rw [hl, if_pos hpos] at hhp
    split at hhp
    · simp at hhp
    · simp only [Option.some.injEq] at hhp
      rw [← hhp, htake]

/-- The default port for every authority that is not empty: on an accepted request the port is
80 whenever the authority carries no port text or a port text on which `atoi` gives a value
`<= 0`. -/
theorem default_port_authority (request : List Char) (t : Target)
    (hacc : parse_http_request request = some (0, t))
    (hne : authority request ≠ [])
    (hshape :
      ((authority request).head? ≠ some '[' ∧ ':' ∉ authority request) ∨
      (∃ H T v, authority request = H ++ ':' :: T ∧ H.head? ≠ some '[' ∧ ':' ∉ H ∧
        atoi T = some v ∧ v ≤ 0) ∨
      (∃ V X, authority request = '[' :: (V ++ ']' :: X) ∧ ']' ∉ V ∧ X.head? ≠ some ':') ∨
      (∃ V T v, authority request = '[' :: (V ++ ']' :: ':' :: T) ∧ ']' ∉ V ∧
        atoi T = some v ∧ v ≤ 0)) :
    t.port = 80 := by
  obtain ⟨hp, hhp, _⟩ := parse_accept_inv request t hacc
  have heq := host_port_of_authority request hp hne hhp
  rw [heq] at hhp
  exact default_port_host_port request t (authority request) hacc hhp hshape

/-- Claim C4 at the failing input: the path `/http:///a:8080/x`, in which nothing stands between
the marker and the next `/`. The authority is empty and carries no port text, yet the request
is accepted with port 8080: `host_len` is 0, line 237 copies the path `/a:8080/x` into
`host_port`, and the split at the colon makes host `/a` and port 8080. The host is not empty,
so the guard of line 355 lets it through and `handle_client` goes on to resolve `/a`. -/
theorem C4_empty_authority_port :
    authority "GET /http:///a:8080/x HTTP/1.1".toList = [] ∧
    host_port_of "GET /http:///a:8080/x HTTP/1.1".toList = some "/a:8080/x".toList ∧
    parse_http_request "GET /http:///a:8080/x HTTP/1.1".toList =
      some (0, { method := "GET".toList, url := "/a:8080/x".toList, host := "/a".toList,
                 port := 8080 }) ∧
    handle_client
      { client_rx := ["GET /http:///a:8080/x HTTP/1.1\r\n\r\n".toList],
        resolve := fun _ _ => none, target_rx := [], ticks := [] } =
      some ⟨[Event.getaddrinfo "/a".toList "8080".toList,
             Event.send Sock.client err_bad_gateway, Event.close Sock.client], true⟩ := by
  decide

end Httpxy

namespace Httpxy

/-! ## The header lines in a run of `handle_client` -/

/-- Claim C6 at the failing input: a GET request with the four header lines `Accept: */*`,
`hOsT: zz`, `Proxy-Connection: x` and `X: y`. On the text as the client sent it the rewrite
step would give the header block that the claim describes, with `Accept: */*` and `X: y`
kept. In `handle_client` the step gets the request that `read_request` returns, in which a
NUL stands on the first byte of the terminator; it finds no CR LF CR LF, copies no header
line, and the target gets the new request line, the Host header and `Connection: close`
only: the lines `Accept: */*` and `X: y` are not present. -/
theorem C6_header_lines_dropped :
    rewrite_request
      "GET /http://example.com:81/a HTTP/1.1\r\nAccept: */*\r\nhOsT: zz\r\nProxy-Connection: x\r\nX: y\r\n\r\n".toList
      "GET".toList "/a".toList "example.com".toList 81 =
      some "GET /a HTTP/1.1\r\nAccept: */*\r\nX: y\r\nHost: example.com:81\r\nConnection: close\r\n\r\n".toList ∧
    handle_client
      { client_rx := ["GET /http://example.com:81/a HTTP/1.1\r\nAccept: */*\r\nhOsT: zz\r\nProxy-Connection: x\r\nX: y\r\n\r\n".toList],
        resolve := fun _ _ => some [{ sfd := some 5, connects := true }],
        target_rx := [],
        ticks := [{ select := SelectResult.ready true false, send_target := 0, send_client := 0 }] } =
      some ⟨[Event.getaddrinfo "example.com".toList "81".toList, Event.connect 5,
             Event.send (Sock.target 5)
               "GET /a HTTP/1.1\r\nHost: example.com:81\r\nConnection: close\r\n\r\n".toList,
             Event.close (Sock.target 5), Event.close Sock.client], true⟩ ∧
    "GET /a HTTP/1.1\r\nHost: example.com:81\r\nConnection: close\r\n\r\n".toList ≠
      "GET /a HTTP/1.1\r\nAccept: */*\r\nX: y\r\nHost: example.com:81\r\nConnection: close\r\n\r\n".toList := by
  refine ⟨by rfl, by rfl, by decide⟩

end Httpxy

namespace Httpxy

/-! ## The streaming-control flag and the text received -/

/-- An occurrence that `strstr` finds stays the first one when text is appended. -/
theorem strstr_append_some (N : List Char) : ∀ (a u : List Char) (p : Nat),
    strstr a N = some p → strstr (a ++ u) N = some p := by
  intro a
  induction a with
  | nil =>
    intro u p h
    rw [strstr] at h
    split at h
    · rename_i hN
      subst hN
      simp only [Option.some.injEq] at h
      subst h
      cases u with
      | nil => rfl
      | cons c cs => simp [strstr]
    · simp at h
  | cons c cs ih =>
    intro u p h
    have hle := strstr_le N _ _ h
    rw [strstr] at h
    simp only [List.cons_append]
    rw [strstr]
    split at h
    · rename_i hp
      simp only [Option.some.injEq] at h
      subst h
      rw [if_pos]
      rw [List.isPrefixOf_iff_prefix] at hp ⊢
      exact hp.trans ⟨u, rfl⟩
    · rename_i hnp
      cases hs : strstr cs N with
      | none => rw [hs] at h; simp at h
      | some k =>
        rw [hs] at h
        rw [if_neg, ih u k hs]
        · exact h
        · intro hp
          apply hnp
          rw [List.isPrefixOf_iff_prefix] at hp ⊢
          have hpre : (c :: cs) <+: (c :: (cs ++ u)) := ⟨u, rfl⟩
          exact List.prefix_of_prefix_length_le hp hpre (by omega)

/-- Where the header loop ends with a buffer: the bytes read are the first ones of the bytes
already there and those that the client sends, the terminator was found at offset `p` of
their C string, and a NUL now stands on its first byte. -/
theorem header_loop_received : ∀ (rx : List (List Char)) (buf buffer : List Char) (he : Nat)
    (rx1 : List (List Char)), header_loop rx buf = some (buffer, he, rx1) →
    ∃ buf1 t p, buf ++ rx.flatten = buf1 ++ t ∧ buffer = buf1.set p NUL ∧
      strstr (cstr buf1) CRLFCRLF = some p := by
  intro rx
  induction rx with
  | nil => intro buf buffer he rx1 h; simp [header_loop] at h
  | cons seg rest ih =>
    intro buf buffer he rx1 h
    rw [header_loop] at h
    split at h
    · simp at h
    · simp only at h
      split at h
      · simp at h
      · split at h
        · rename_i p hp
          simp only [Option.some.injEq, Prod.mk.injEq] at h
          refine ⟨_, (recv (seg :: rest) (BUFFER_SIZE * 2 - buf.length - 1)).2.flatten, p, ?_,
            h.1.symm, hp⟩
          rw [List.append_assoc, (recv_spec (seg :: rest) _).2]
        · split at h
          · rename_i hs
            have hrecv : (recv (seg :: rest) (BUFFER_SIZE * 2 - buf.length - 1)).1 = seg := by
              simp only [recv]
              rw [if_pos hs]
            rw [hrecv] at h
            obtain ⟨buf1, t, p, h1, h2, h3⟩ := ih _ _ _ _ h
            refine ⟨buf1, t, p, ?_, h2, h3⟩
            rw [← h1, List.flatten_cons, List.append_assoc]
          · simp at h

/-- The request that `read_request` returns is the C string of the text that the client sends,
up to its first CR LF CR LF. -/
theorem read_request_received (rx : List (List Char)) (r : ReadResult)
    (h : read_request rx = some (some r)) :
    ∃ p, strstr (cstr rx.flatten) CRLFCRLF = some p ∧
      cstr r.buffer = (cstr rx.flatten).take p := by
  have hN : CRLFCRLF ≠ [] := by decide
  have key : ∀ buffer he rx1 e, header_loop rx [] = some (buffer, he, rx1) →
      r.buffer = buffer ++ e →
      ∃ p, strstr (cstr rx.flatten) CRLFCRLF = some p ∧
        cstr r.buffer = (cstr rx.flatten).take p := by
    intro buffer he rx1 e hh hr
    obtain ⟨buf1, t, p, hrx, hb, hp⟩ := header_loop_received rx [] buffer he rx1 hh
    rw [List.nil_append] at hrx
    obtain ⟨u, hu⟩ := cstr_append_left buf1 t
    have hlt := strstr_lt CRLFCRLF hN _ _ hp
    refine ⟨p, ?_, ?_⟩
    · rw [hrx, hu]
      exact strstr_append_some CRLFCRLF _ u p hp
    · rw [hr, hb, cstr_set_nul buf1 p hlt e, hrx, hu, List.take_append_of_le_length (by omega)]
  unfold read_request at h
  cases hh : header_loop rx [] with
  | none => rw [hh] at h; simp at h
  | some res =>
    obtain ⟨buffer, he, rx1⟩ := res
    rw [hh] at h
    simp only at h
    split at h
    · simp only [Option.some.injEq] at h
      exact key buffer he rx1 [] hh (by rw [← h]; simp)
    · cases hcl : content_length (cstr buffer) with
      | none => rw [hcl] at h; simp at h
      | some cl =>
        rw [hcl] at h
        simp only at h
        split at h
        · simp at h
        · simp only [Option.some.injEq] at h
          obtain ⟨e, hee⟩ := body_loop_append rx1 buffer
            (cl - ((buffer.length : Int) - (he : Int)))
          exact key buffer he rx1 e hh (by rw [← h, hee])

/-- Claim C16 as stated fails: a text that begins with an empty line. Its first white-space
delimited token is `PLAY`, one of the eight names, but `read_request` cuts the buffer at the
first CR LF CR LF (offset 0) before it reads the method: the request it scans is empty and the
flag is 0. -/
theorem C16_counterexample :
    "\r\n\r\nPLAY rtsp://e/ RTSP/1.0\r\n\r\n".toList =
      "\r\n\r\n".toList ++ "PLAY".toList ++ " rtsp://e/ RTSP/1.0\r\n\r\n".toList ∧
    (∀ c ∈ "\r\n\r\n".toList, isspace c = true) ∧
    (∀ c ∈ "PLAY".toList, isspace c = false) ∧
    "PLAY".toList ∈ rtsp_methods ∧
    read_request ["\r\n\r\nPLAY rtsp://e/ RTSP/1.0\r\n\r\n".toList] =
      some (some { buffer := NUL :: "\n\r\nPLAY rtsp://e/ RTSP/1.0\r\n\r\n".toList,
                   is_rtsp := false, rx := [] }) := by
  decide

/-- Claim C16, amended: the request that `read_request` returns is the text that the client
sends up to its first CR LF CR LF, read as a C string, and the streaming-control flag is set
exactly when the first white-space delimited token of that header block is one of DESCRIBE,
SETUP, PLAY, PAUSE, TEARDOWN, OPTIONS, GET_PARAMETER, SET_PARAMETER, letter for letter; this
holds for a token of any length, although `sscanf` keeps only 15 characters of it. When the
header block holds no token the flag is 0, whatever follows the terminator. -/
theorem C16_streaming_flag (rx : List (List Char)) (r : ReadResult) (ws tok rest : List Char)
    (hread : read_request rx = some (some r))
    (hdec : cstr r.buffer = ws ++ tok ++ rest)
    (hws : ∀ c ∈ ws, isspace c = true) (htok : ∀ c ∈ tok, isspace c = false)
    (hrest : ∀ c, rest.head? = some c → isspace c = true) (hnone : tok = [] → rest = []) :
    (∃ p, strstr (cstr rx.flatten) CRLFCRLF = some p ∧
      cstr r.buffer = (cstr rx.flatten).take p) ∧
    (r.is_rtsp = true ↔ tok ∈ rtsp_methods) ∧
    (tok = [] → r.is_rtsp = false) := by
  have hiff := streaming_flag_header_block rx r ws tok rest hread hdec hws htok hrest hnone
  refine ⟨read_request_received rx r hread, hiff, ?_⟩
  intro h0
  cases hf : r.is_rtsp with
  | false => rfl
  | true =>
    have := hiff.mp hf
    rw [h0] at this
    exact absurd this (by decide)

/-- Witness of the amended C16: an OPTIONS request sets the flag, and a text that begins with
an empty line does not. -/
theorem C16_witness :
    read_request ["OPTIONS /rtsp://example.com/ RTSP/1.0\r\nCSeq: 1\r\n\r\n".toList] =
      some (some { buffer := "OPTIONS /rtsp://example.com/ RTSP/1.0\r\nCSeq: 1".toList ++
                     [NUL, Char.ofNat 10, Char.ofNat 13, Char.ofNat 10],
                   is_rtsp := true, rx := [] }) ∧
    "OPTIONS".toList ∈ rtsp_methods ∧
    (∃ p, strstr (cstr ["OPTIONS /rtsp://example.com/ RTSP/1.0\r\nCSeq: 1\r\n\r\n".toList].flatten)
        CRLFCRLF = some p ∧
      "OPTIONS /rtsp://example.com/ RTSP/1.0\r\nCSeq: 1".toList =
        (cstr ["OPTIONS /rtsp://example.com/ RTSP/1.0\r\nCSeq: 1\r\n\r\n".toList].flatten).take p) :=
  have h := C16_streaming_flag ["OPTIONS /rtsp://example.com/ RTSP/1.0\r\nCSeq: 1\r\n\r\n".toList]
     { buffer := "OPTIONS /rtsp://example.com/ RTSP/1.0\r\nCSeq: 1".toList ++
         [NUL, Char.ofNat 10, Char.ofNat 13, Char.ofNat 10],
       is_rtsp := true, rx := [] }
     [] "OPTIONS".toList " /rtsp://example.com/ RTSP/1.0\r\nCSeq: 1".toList
     (by decide) (by decide) (by decide) (by decide) (by decide) (by decide)
  ⟨by decide, h.2.1.mp rfl, h.1⟩

end Httpxy
